import Mathlib

/-!
Verification development for the YouTube metadata synchronization engine:
a shallow embedding of the remote data-acquisition client, the etag change
cache, the persistence layer with daily snapshotting, and the subscribe /
refresh orchestrator, together with theorems settling the specification's
claims against this embedding.

Relational tables are embedded as association lists keyed exactly by the
SQL unique keys (the ON CONFLICT targets), so an upsert is replace-or-append.
JS `Date` values are embedded as an abstract instant paired with the UTC date
string that `toISOString().slice(0, 10)` would produce.
-/

namespace YTSync

/-! ## Association-list tables -/

def alookup {K V : Type} [DecidableEq K] (k : K) : List (K × V) → Option V
  | [] => none
  | (k1, v) :: rest => if k1 = k then some v else alookup k rest

/-- SQL `INSERT ... ON CONFLICT (key) DO UPDATE`: replace the keyed row in
place, or append a fresh row. -/
def aupsert {K V : Type} [DecidableEq K] (k : K) (v : V) : List (K × V) → List (K × V)
  | [] => [(k, v)]
  | (k1, v1) :: rest => if k1 = k then (k1, v) :: rest else (k1, v1) :: aupsert k v rest

def hasKey {K V : Type} [DecidableEq K] (l : List (K × V)) (k : K) : Bool :=
  (alookup k l).isSome

/-- JS `Set.add` / insertion-ordered deduplication. -/
def addUnique {α : Type} [DecidableEq α] (l : List α) (x : α) : List α :=
  if x ∈ l then l else l ++ [x]

theorem alookup_aupsert_self {K V : Type} [DecidableEq K] (k : K) (v : V)
    (l : List (K × V)) : alookup k (aupsert k v l) = some v := by
  induction l with
  | nil => simp [aupsert, alookup]
  | cons hd tl ih =>
    obtain ⟨k1, v1⟩ := hd
    by_cases h : k1 = k
    · simp [aupsert, h, alookup]
    · simp [aupsert, h, alookup, ih]

theorem alookup_aupsert_ne {K V : Type} [DecidableEq K] {k k2 : K} (v : V)
    (l : List (K × V)) (h : k2 ≠ k) :
    alookup k2 (aupsert k v l) = alookup k2 l := by
  induction l with
  | nil =>
    have hne : ¬k = k2 := fun h1 => h h1.symm
    simp [aupsert, alookup, hne]
  | cons hd tl ih =>
    obtain ⟨k1, v1⟩ := hd
    by_cases h1 : k1 = k
    · subst h1
      have hne : ¬k1 = k2 := fun h2 => h h2.symm
      simp [aupsert, alookup, hne]
    · by_cases h2 : k1 = k2
      · subst h2
        simp [aupsert, alookup, h1]
      · simp [aupsert, alookup, h1, h2, ih]

theorem length_aupsert {K V : Type} [DecidableEq K] (k : K) (v : V)
    (l : List (K × V)) :
    (aupsert k v l).length = if hasKey l k then l.length else l.length + 1 := by
  induction l with
  | nil => simp [aupsert, hasKey, alookup]
  | cons hd tl ih =>
    obtain ⟨k1, v1⟩ := hd
    by_cases h : k1 = k
    · simp [aupsert, h, hasKey, alookup]
    · simp only [aupsert, if_neg h, List.length_cons, hasKey, alookup, if_neg h] at *
      rw [ih]
      by_cases h2 : (alookup k tl).isSome <;> simp [hasKey, h2]

theorem hasKey_aupsert {K V : Type} [DecidableEq K] (k k2 : K) (v : V)
    (l : List (K × V)) :
    hasKey (aupsert k v l) k2 = (k2 = k ∨ hasKey l k2) := by
  by_cases h : k2 = k
  · subst h; simp [hasKey, alookup_aupsert_self]
  · simp [hasKey, alookup_aupsert_ne v l h, h]

theorem mem_keys_aupsert {K V : Type} [DecidableEq K] (k x : K) (v : V)
    (l : List (K × V)) :
    x ∈ (aupsert k v l).map Prod.fst ↔ x = k ∨ x ∈ l.map Prod.fst := by
  induction l with
  | nil => simp [aupsert]
  | cons hd tl ih =>
    obtain ⟨k1, v1⟩ := hd
    by_cases h1 : k1 = k
    · subst h1
      simp only [aupsert]
      rw [if_pos trivial]
      simp only [List.map_cons, List.mem_cons]
      tauto
    · simp only [aupsert, if_neg h1, List.map_cons, List.mem_cons, ih]
      tauto

theorem nodupKeys_aupsert {K V : Type} [DecidableEq K] (k : K) (v : V)
    (l : List (K × V)) (h : (l.map Prod.fst).Nodup) :
    ((aupsert k v l).map Prod.fst).Nodup := by
  induction l with
  | nil => simp [aupsert]
  | cons hd tl ih =>
    obtain ⟨k1, v1⟩ := hd
    simp only [List.map_cons, List.nodup_cons] at h
    by_cases h1 : k1 = k
    · simp only [aupsert, if_pos h1, List.map_cons, List.nodup_cons]
      exact ⟨h.1, h.2⟩
    · simp only [aupsert, if_neg h1, List.map_cons, List.nodup_cons]
      refine ⟨?_, ih h.2⟩
      intro hmem
      rcases (mem_keys_aupsert k k1 v tl).mp hmem with rfl | hx
      · exact h1 rfl
      · exact h.1 hx

theorem mem_addUnique {α : Type} [DecidableEq α] (l : List α) (x y : α) :
    y ∈ addUnique l x ↔ y ∈ l ∨ y = x := by
  by_cases h : x ∈ l
  · simp only [addUnique, if_pos h]
    constructor
    · exact Or.inl
    · rintro (hy | rfl)
      · exact hy
      · exact h
  · simp [addUnique, if_neg h]

theorem nodup_addUnique {α : Type} [DecidableEq α] (l : List α) (x : α)
    (h : l.Nodup) : (addUnique l x).Nodup := by
  by_cases hx : x ∈ l
  · simpa [addUnique, if_pos hx]
  · simp [addUnique, if_neg hx, List.nodup_append, h, hx]

/-! ## ISO-8601 duration parsing (utils/isoDuration.ts)

The source matches `/^P(?:(\d+)D)?(?:T(?:(\d+)H)?(?:(\d+)M)?(?:(\d+(?:\.\d+)?)S)?)?$/i`
against the trimmed input. The embedding parses the same language directly:
mapping every character through `Char.toUpper` first realises the `/i` flag,
and each optional group consumes its digits only when the group's unit letter
follows, exactly as the anchored regex backtracks. Fractional seconds are kept
as their digit list; `Math.round` (round half up) rounds the sum up exactly
when the leading fractional digit is at least 5. IEEE-754 parsing artifacts of
`Number.parseFloat` and the (unreachable for this grammar) `Number.isFinite` /
negative guards are not modelled: every parse here is an exact nonnegative
integer or decimal. -/

/-- JS `String.prototype.trim`: strip leading and trailing whitespace,
modelled over the character list. -/
def trimChars (cs : List Char) : List Char :=
  ((cs.dropWhile Char.isWhitespace).reverse.dropWhile Char.isWhitespace).reverse

def jsTrim (s : String) : String :=
  String.mk (trimChars s.toList)

def digitsVal (ds : List Char) : Nat :=
  ds.foldl (fun a c => a * 10 + (c.toNat - 48)) 0

/-- Group `(?:(\d+)D)?` right after the `P`: digits not followed by `D` make
the whole regex fail, since no later group can start with a digit-prefix that
remains unconsumed. -/
def parseDurationDays (cs : List Char) : Option (Nat × List Char) :=
  let ds := cs.takeWhile Char.isDigit
  let rest := cs.dropWhile Char.isDigit
  if ds.isEmpty then some (0, cs)
  else
    match rest with
    | 'D' :: r => some (digitsVal ds, r)
    | _ => none

/-- Group `(?:(\d+)U)?` for `U` one of `H`/`M`: digits not followed by the
unit letter are left unconsumed for the later groups. -/
def parseTimeUnit (unit : Char) (cs : List Char) : Nat × List Char :=
  let ds := cs.takeWhile Char.isDigit
  let rest := cs.dropWhile Char.isDigit
  if ds.isEmpty then (0, cs)
  else
    match rest with
    | c :: r => if c = unit then (digitsVal ds, r) else (0, cs)
    | [] => (0, cs)

/-- Group `(?:(\d+(?:\.\d+)?)S)?`: integer digits, an optional fraction, then
`S`; any partial match leaves the input unconsumed (the group is optional). -/
def parseTimeSeconds (cs : List Char) : (Nat × List Char) × List Char :=
  let ds := cs.takeWhile Char.isDigit
  let rest := cs.dropWhile Char.isDigit
  if ds.isEmpty then ((0, []), cs)
  else
    match rest with
    | 'S' :: r => ((digitsVal ds, []), r)
    | '.' :: r2 =>
      let fs := r2.takeWhile Char.isDigit
      let r3 := r2.dropWhile Char.isDigit
      if fs.isEmpty then ((0, []), cs)
      else
        match r3 with
        | 'S' :: r4 => ((digitsVal ds, fs), r4)
        | _ => ((0, []), cs)
    | _ => ((0, []), cs)

/-- Match the full (uppercased) duration against the anchored pattern,
returning days, hours, minutes, integer seconds and the fraction digits. -/
def parseDurationUpper (cs : List Char) : Option (Nat × Nat × Nat × Nat × List Char) :=
  match cs with
  | 'P' :: rest =>
    match parseDurationDays rest with
    | none => none
    | some (days, r1) =>
      match r1 with
      | [] => some (days, 0, 0, 0, [])
      | 'T' :: r2 =>
        let (hours, r3) := parseTimeUnit 'H' r2
        let (minutes, r4) := parseTimeUnit 'M' r3
        let ((secInt, fracDs), r5) := parseTimeSeconds r4
        if r5.isEmpty then some (days, hours, minutes, secInt, fracDs) else none
      | _ => none
  | _ => none

/-- Math.round rounds half away from zero for our nonnegative sums: the
result rounds up exactly when the decimal fraction is at least one half,
i.e. when its leading digit is 5 or more. -/
def fracRoundsUp (ds : List Char) : Bool :=
  match ds with
  | [] => false
  | d :: _ => '5' ≤ d

/-- parseIso8601DurationToSeconds of utils/isoDuration.ts. The JS falsy test
`!value` also catches the empty string. -/
def parseIso8601DurationToSeconds (value : Option String) : Option Nat :=
  match value with
  | none => none
  | some s =>
    if s = "" then none
    else
      let trimmed := trimChars s.toList
      if trimmed.length = 0 then none
      else
        match parseDurationUpper (trimmed.map Char.toUpper) with
        | none => none
        | some (days, hours, minutes, secInt, fracDs) =>
          let base := days * 86400 + hours * 3600 + minutes * 60 + secInt
          some (if fracRoundsUp fracDs then base + 1 else base)

/-! ## Remote resource client (services/youtubeDataApi.ts) -/

def MAX_BATCH_IDS : Nat := 50
def MAX_PAGE_SIZE : Nat := 50

/-- AppError as thrown by the client: the embedding keeps the status code and
the machine-readable error code. -/
structure ApiError where
  statusCode : Nat
  code : String
deriving DecidableEq

/-- Outcome of one `fetch(url)`: the promise rejects (network-level failure)
or resolves with an HTTP status and a parsed body. -/
inductive FetchOutcome (α : Type) where
  | networkFailure (reason : String)
  | httpResponse (status : Nat) (body : α)

/-- The private `request<T>` helper: a rejected fetch becomes the 502
YOUTUBE_API_UNREACHABLE error, a non-ok response (ok is status 200..299)
becomes a YOUTUBE_API_ERROR carrying the response's own status, and an ok
response yields the parsed body. -/
def request {α : Type} (outcome : FetchOutcome α) : Except ApiError α :=
  match outcome with
  | .networkFailure _ =>
    .error { statusCode := 502, code := "YOUTUBE_API_UNREACHABLE" }
  | .httpResponse status body =>
    if 200 ≤ status ∧ status ≤ 299 then .ok body
    else .error { statusCode := status, code := "YOUTUBE_API_ERROR" }

structure ThumbnailInfo where
  url : Option String
deriving DecidableEq

/-- The keys of the thumbnails record that selectThumbnailUrl reads. -/
structure ThumbnailSet where
  maxres : Option ThumbnailInfo
  standard : Option ThumbnailInfo
  high : Option ThumbnailInfo
  medium : Option ThumbnailInfo
  default : Option ThumbnailInfo
deriving DecidableEq

def selectThumbnailUrl (thumbnails : Option ThumbnailSet) : Option String :=
  match thumbnails with
  | none => none
  | some t =>
    (t.maxres.bind ThumbnailInfo.url) <|>
    (t.standard.bind ThumbnailInfo.url) <|>
    (t.high.bind ThumbnailInfo.url) <|>
    (t.medium.bind ThumbnailInfo.url) <|>
    (t.default.bind ThumbnailInfo.url)

structure VideoItemSnippet where
  channelId : Option String
  title : Option String
  description : Option String
  publishedAt : Option String
  thumbnails : Option ThumbnailSet
  tags : Option (List String)
  defaultLanguage : Option String
  defaultAudioLanguage : Option String
deriving DecidableEq

structure VideoItemContentDetails where
  duration : Option String
  dimension : Option String
  definition : Option String
  caption : Option String
  licensedContent : Option Bool
deriving DecidableEq

structure VideoItemStatus where
  privacyStatus : Option String
deriving DecidableEq

structure VideoItemStatistics where
  viewCount : Option String
  likeCount : Option String
  favoriteCount : Option String
  commentCount : Option String
deriving DecidableEq

/-- Raw `videos.list` item as the platform returns it: everything optional. -/
structure VideoItem where
  etag : Option String
  id : Option String
  snippet : Option VideoItemSnippet
  contentDetails : Option VideoItemContentDetails
  status : Option VideoItemStatus
  statistics : Option VideoItemStatistics
deriving DecidableEq

structure VideoStatisticsDetails where
  viewCount : Option String
  likeCount : Option String
  favoriteCount : Option String
  commentCount : Option String
deriving DecidableEq

/-- YouTubeVideoDetails, the client's strongly-typed video record. -/
structure VideoDetails where
  id : String
  channelId : String
  title : String
  description : Option String
  publishedAt : Option String
  duration : Option String
  dimension : Option String
  definition : Option String
  caption : Option Bool
  licensedContent : Option Bool
  thumbnailUrl : Option String
  tags : List String
  defaultLanguage : Option String
  defaultAudioLanguage : Option String
  privacyStatus : Option String
  statistics : VideoStatisticsDetails
  etag : Option String
deriving DecidableEq

/-- mapVideoItemToDetails. The JS guard `!item.id || !item.snippet?.channelId`
is falsy also on empty strings. -/
def mapVideoItemToDetails (item : VideoItem) : Option VideoDetails :=
  match item.id with
  | none => none
  | some id =>
    if id = "" then none
    else
      match item.snippet with
      | none => none
      | some snippet =>
        match snippet.channelId with
        | none => none
        | some channelId =>
          if channelId = "" then none
          else
            let captionValue := item.contentDetails.bind VideoItemContentDetails.caption
            let caption : Option Bool :=
              if captionValue = some "true" then some true
              else if captionValue = some "false" then some false
              else none
            some {
              id := id
              channelId := channelId
              title := snippet.title.getD id
              description := snippet.description
              publishedAt := snippet.publishedAt
              duration := item.contentDetails.bind VideoItemContentDetails.duration
              dimension := item.contentDetails.bind VideoItemContentDetails.dimension
              definition := item.contentDetails.bind VideoItemContentDetails.definition
              caption := caption
              licensedContent := item.contentDetails.bind VideoItemContentDetails.licensedContent
              thumbnailUrl := selectThumbnailUrl snippet.thumbnails
              tags := snippet.tags.getD []
              defaultLanguage := snippet.defaultLanguage
              defaultAudioLanguage := snippet.defaultAudioLanguage
              privacyStatus := item.status.bind VideoItemStatus.privacyStatus
              statistics := {
                viewCount := (item.statistics.bind VideoItemStatistics.viewCount)
                likeCount := (item.statistics.bind VideoItemStatistics.likeCount)
                favoriteCount := (item.statistics.bind VideoItemStatistics.favoriteCount)
                commentCount := (item.statistics.bind VideoItemStatistics.commentCount)
              }
              etag := item.etag
            }

/-- Body of a `videos.list` response. -/
structure VideosListResponse where
  items : Option (List VideoItem)

def chunkArrayGo {α : Type} (c : Nat) : List α → List (List α)
  | [] => []
  | x :: xs => (x :: xs.take c) :: chunkArrayGo c (xs.drop c)
termination_by l => l.length
decreasing_by simp [List.length_drop]; omega

/-- chunkArray. The source's index loop would never terminate for
`chunkSize = 0`; the program only ever calls it with MAX_BATCH_IDS = 50,
so the embedding maps that unreachable case to the empty list. -/
def chunkArray {α : Type} (source : List α) (chunkSize : Nat) : List (List α) :=
  if source.isEmpty then []
  else
    match chunkSize with
    | 0 => []
    | c + 1 => chunkArrayGo c source

/-- The batch loop of fetchVideosByIds: empty batches are skipped, the first
batch whose request throws aborts the whole call, and each ok batch
contributes `(body.items ?? []).filterMap mapVideoItemToDetails`. -/
def fetchVideosByIdsGo (videosRequest : List String → FetchOutcome VideosListResponse) :
    List (List String) → Except ApiError (List VideoDetails)
  | [] => .ok []
  | batch :: rest =>
    if batch.isEmpty then fetchVideosByIdsGo videosRequest rest
    else
      match request (videosRequest batch) with
      | .error e => .error e
      | .ok body =>
        match fetchVideosByIdsGo videosRequest rest with
        | .error e => .error e
        | .ok tail => .ok ((body.items.getD []).filterMap mapVideoItemToDetails ++ tail)

/-- fetchVideosByIds: chunk the id list at the platform maximum and run the
per-batch requests in order. -/
def fetchVideosByIds (videosRequest : List String → FetchOutcome VideosListResponse)
    (videoIds : List String) : Except ApiError (List VideoDetails) :=
  fetchVideosByIdsGo videosRequest (chunkArray videoIds MAX_BATCH_IDS)

/-! ## Data model (models/youtube.ts and the SQL tables) -/

inductive ResourceType where
  | channel
  | playlist
  | video
deriving DecidableEq

/-- A JS `Date`: an abstract instant together with the UTC date string that
`toISOString().slice(0, 10)` yields for it. -/
structure DateTime where
  instant : Nat
  utcDate : String
deriving DecidableEq

/-- The module-local parseDate helper of youtubeSubscriptionService.ts: null
and the empty string (falsy) map to null. A non-empty string is kept as the
date value; the engine-specific `new Date(value)` NaN check is not modelled
(no claim depends on which date strings the JS engine accepts). -/
def parseDate (value : Option String) : Option String :=
  match value with
  | none => none
  | some s => if s = "" then none else some s

/-- toPgBigInt of youtubeMetadataService.ts. -/
def toPgBigInt (value : Option String) : String :=
  match value with
  | none => "0"
  | some v =>
    let trimmed := v.trim
    if trimmed.length > 0 then trimmed else "0"

/-- Row of youtube_channels (also the UpsertChannelInput shape). -/
structure ChannelRow where
  id : String
  title : String
  description : Option String
  customUrl : Option String
  country : Option String
  publishedAt : Option String
  thumbnailUrl : Option String
  uploadsPlaylistId : Option String
  lastSync : DateTime
deriving DecidableEq

/-- Row of youtube_channel_statistics. -/
structure ChannelStatsRow where
  channelId : String
  subscriberCount : Option String
  videoCount : Option Nat
  viewCount : Option String
  hiddenSubscriberCount : Bool
  lastUpdate : DateTime
deriving DecidableEq

/-- Row of youtube_channel_statistics_daily; keyed by (channel_id,
snapshot_date). The counters go through toPgBigInt / `?? 0` on insert. -/
structure ChannelDailyRow where
  channelId : String
  snapshotDate : String
  subscriberCount : String
  videoCount : Nat
  viewCount : String
  hiddenSubscriberCount : Bool
  capturedAt : DateTime
deriving DecidableEq

/-- Row of youtube_playlists. -/
structure PlaylistRow where
  id : String
  channelId : String
  title : String
  description : Option String
  itemCount : Option Nat
  publishedAt : Option String
  thumbnailUrl : Option String
  lastSync : DateTime
deriving DecidableEq

/-- Row of youtube_videos, including the derived duration/short columns. -/
structure VideoRow where
  id : String
  channelId : String
  playlistId : Option String
  title : String
  description : Option String
  publishedAt : Option String
  duration : Option String
  durationSeconds : Option Nat
  isShort : Option Bool
  shortRuleVersion : Option String
  dimension : Option String
  definition : Option String
  caption : Option Bool
  licensedContent : Option Bool
  thumbnailUrl : Option String
  tags : Option (List String)
  defaultLanguage : Option String
  defaultAudioLanguage : Option String
  privacyStatus : Option String
  lastSync : DateTime
deriving DecidableEq

/-- Row of youtube_video_statistics. -/
structure VideoStatsRow where
  videoId : String
  viewCount : Option String
  likeCount : Option String
  favoriteCount : Option String
  commentCount : Option String
  lastUpdate : DateTime
deriving DecidableEq

/-- Row of youtube_video_statistics_daily; keyed by (video_id,
snapshot_date), counters through toPgBigInt. -/
structure VideoDailyRow where
  videoId : String
  channelId : String
  snapshotDate : String
  viewCount : String
  likeCount : String
  favoriteCount : String
  commentCount : String
  capturedAt : DateTime
deriving DecidableEq

/-- Row of youtube_video_top_comment, keyed by video_id. -/
structure TopCommentRow where
  videoId : String
  channelId : String
  commentContent : Option String
  canReply : Option Bool
  isPublic : Option Bool
  likeCount : Option Nat
  totalReplyCount : Option Nat
  authorDisplayName : Option String
  authorProfileImageUrl : Option String
  authorChannelUrl : Option String
  authorChannelId : Option String
  publishedAt : Option String
  updatedAt : Option String
  lastUpdate : DateTime
deriving DecidableEq

/-- Row of youtube_etag_cache, keyed by (resource_type, resource_id). -/
structure EtagRow where
  resourceType : ResourceType
  resourceId : String
  etag : Option String
  lastChecked : DateTime
deriving DecidableEq

/-- Row of subscribed_channel_info, keyed by (user_id, channel_id); `rowId`
is the random UUID primary key. -/
structure MembershipRow where
  rowId : String
  channelId : String
  customUrl : String
  userId : String
deriving DecidableEq

/-- The relational mirror: one association list per table, keyed by the SQL
unique key that the upserts target. -/
structure DB where
  channels : List (String × ChannelRow)
  channelStats : List (String × ChannelStatsRow)
  channelDaily : List ((String × String) × ChannelDailyRow)
  playlists : List (String × PlaylistRow)
  videos : List (String × VideoRow)
  videoStats : List (String × VideoStatsRow)
  videoDaily : List ((String × String) × VideoDailyRow)
  topComments : List (String × TopCommentRow)
  etagCache : List ((ResourceType × String) × EtagRow)
  memberships : List ((String × String) × MembershipRow)
deriving DecidableEq

def emptyDB : DB :=
  { channels := [], channelStats := [], channelDaily := [], playlists := []
    videos := [], videoStats := [], videoDaily := [], topComments := []
    etagCache := [], memberships := [] }

/-! ## Metadata store (services/youtubeMetadataService.ts) -/

def getChannelById (db : DB) (channelId : String) : Option ChannelRow :=
  alookup channelId db.channels

def upsertChannel (db : DB) (input : ChannelRow) : DB :=
  { db with channels := aupsert input.id input db.channels }

def upsertChannelStatistics (db : DB) (input : ChannelStatsRow) : DB :=
  { db with channelStats := aupsert input.channelId input db.channelStats }

/-- Input of upsertChannelStatisticsDailySnapshot, before the SQL binding
normalisations. -/
structure ChannelDailyInput where
  channelId : String
  snapshotDate : String
  subscriberCount : Option String
  videoCount : Option Nat
  viewCount : Option String
  hiddenSubscriberCount : Bool
  capturedAt : DateTime

def upsertChannelStatisticsDailySnapshot (db : DB) (input : ChannelDailyInput) : DB :=
  let row : ChannelDailyRow :=
    { channelId := input.channelId
      snapshotDate := input.snapshotDate
      subscriberCount := toPgBigInt input.subscriberCount
      videoCount := input.videoCount.getD 0
      viewCount := toPgBigInt input.viewCount
      hiddenSubscriberCount := input.hiddenSubscriberCount
      capturedAt := input.capturedAt }
  { db with channelDaily :=
      aupsert (input.channelId, input.snapshotDate) row db.channelDaily }

def upsertPlaylist (db : DB) (input : PlaylistRow) : DB :=
  { db with playlists := aupsert input.id input db.playlists }

def upsertVideo (db : DB) (input : VideoRow) : DB :=
  { db with videos := aupsert input.id input db.videos }

/-- Input of updateVideoShortMetadata. -/
structure VideoShortMetadataInput where
  videoId : String
  duration : Option String
  durationSeconds : Option Nat
  isShort : Option Bool
  shortRuleVersion : Option String

/-- updateVideoShortMetadata: a plain UPDATE guarded by IS DISTINCT FROM on
the four derived columns, returning the affected row count. A missing row is
left missing (UPDATE inserts nothing). -/
def updateVideoShortMetadata (db : DB) (input : VideoShortMetadataInput) : DB × Nat :=
  match alookup input.videoId db.videos with
  | none => (db, 0)
  | some row =>
    if row.duration = input.duration ∧ row.durationSeconds = input.durationSeconds ∧
        row.isShort = input.isShort ∧ row.shortRuleVersion = input.shortRuleVersion then
      (db, 0)
    else
      let updated : VideoRow :=
        { row with
          duration := input.duration
          durationSeconds := input.durationSeconds
          isShort := input.isShort
          shortRuleVersion := input.shortRuleVersion }
      ({ db with videos := aupsert input.videoId updated db.videos }, 1)

def upsertVideoStatistics (db : DB) (input : VideoStatsRow) : DB :=
  { db with videoStats := aupsert input.videoId input db.videoStats }

/-- Input of upsertVideoStatisticsDailySnapshot. -/
structure VideoDailyInput where
  videoId : String
  channelId : String
  snapshotDate : String
  viewCount : Option String
  likeCount : Option String
  favoriteCount : Option String
  commentCount : Option String
  capturedAt : DateTime

def upsertVideoStatisticsDailySnapshot (db : DB) (input : VideoDailyInput) : DB :=
  let row : VideoDailyRow :=
    { videoId := input.videoId
      channelId := input.channelId
      snapshotDate := input.snapshotDate
      viewCount := toPgBigInt input.viewCount
      likeCount := toPgBigInt input.likeCount
      favoriteCount := toPgBigInt input.favoriteCount
      commentCount := toPgBigInt input.commentCount
      capturedAt := input.capturedAt }
  { db with videoDaily :=
      aupsert (input.videoId, input.snapshotDate) row db.videoDaily }

def upsertVideoTopComment (db : DB) (input : TopCommentRow) : DB :=
  { db with topComments := aupsert input.videoId input db.topComments }

def getEtag (db : DB) (resourceType : ResourceType) (resourceId : String) :
    Option EtagRow :=
  alookup (resourceType, resourceId) db.etagCache

def upsertEtag (db : DB) (input : EtagRow) : DB :=
  { db with etagCache :=
      aupsert (input.resourceType, input.resourceId) input db.etagCache }

/-! ## Subscription membership (services/subscribedChannelService.ts) -/

/-- subscribeUserToChannel: INSERT ... ON CONFLICT (user_id, channel_id)
DO NOTHING RETURNING 1; the returned flag is whether a row was inserted.
`rowId` stands for the `randomUUID()` primary key. -/
def subscribeUserToChannel (db : DB) (userId channelId : String)
    (customUrl : Option String) (rowId : String) : DB × Bool :=
  let normalizedCustomUrl := customUrl.getD channelId
  match alookup (userId, channelId) db.memberships with
  | some _ => (db, false)
  | none =>
    ({ db with memberships :=
        db.memberships ++
          [((userId, channelId),
            { rowId := rowId, channelId := channelId
              customUrl := normalizedCustomUrl, userId := userId })] },
      true)

/-! ## Client detail records and the remote environment -/

/-- YouTubeChannelFullDetails. -/
structure ChannelDetails where
  id : String
  title : String
  description : Option String
  customUrl : Option String
  country : Option String
  publishedAt : Option String
  thumbnailUrl : Option String
  uploadsPlaylistId : Option String
  viewCount : Option String
  subscriberCount : Option String
  videoCount : Option Nat
  hiddenSubscriberCount : Bool
  etag : Option String
deriving DecidableEq

/-- YouTubePlaylistDetails. -/
structure PlaylistDetails where
  id : String
  channelId : String
  title : String
  description : Option String
  itemCount : Option Nat
  publishedAt : Option String
  thumbnailUrl : Option String
  etag : Option String
deriving DecidableEq

/-- YouTubeTopCommentDetails. -/
structure TopCommentDetails where
  videoId : String
  commentContent : Option String
  canReply : Option Bool
  isPublic : Option Bool
  likeCount : Option Nat
  totalReplyCount : Option Nat
  authorDisplayName : Option String
  authorProfileImageUrl : Option String
  authorChannelUrl : Option String
  authorChannelId : Option String
  publishedAt : Option String
  updatedAt : Option String
deriving DecidableEq

/-- The injected YouTubeDataApi as the orchestrator sees it: one function per
client call the orchestrator makes. `fetchChannelById` resolves to null when
the platform returns no item; `fetchTopCommentByVideo` may reject (the
`Except.error` case), which `syncTopCommentForVideo` swallows. The second
argument of `fetchTopCommentByVideo` is the excludeChannelId option. -/
structure RemoteEnv where
  fetchChannelById : String → Option ChannelDetails
  fetchPlaylistsByChannel : String → List PlaylistDetails
  fetchPlaylistVideoIds : String → List String
  fetchVideosByIds : List String → List VideoDetails
  fetchTopCommentByVideo : String → Option String → Except Unit (Option TopCommentDetails)

/-! ## Sync orchestrator (services/youtubeSubscriptionService.ts) -/

inductive SyncError where
  | channelNotFound (channelId : String)
deriving DecidableEq

/-- The result of syncChannelData: ChannelSyncResult plus customUrl. -/
structure SyncStats where
  channelId : String
  playlistsProcessed : Nat
  videosProcessed : Nat
  customUrl : Option String
deriving DecidableEq

structure ChannelSyncResult where
  channelId : String
  playlistsProcessed : Nat
  videosProcessed : Nat
deriving DecidableEq

structure SubscribeChannelResult where
  channelId : String
  playlistsProcessed : Nat
  videosProcessed : Nat
  subscribed : Bool
  syncScheduled : Bool
deriving DecidableEq

/-- hasResourceChanged. The JS guard `!latestEtag` is true for null and for
the empty string; otherwise the stored entry's nullable etag is compared to
the fresh tag with strict `!==`. -/
def hasResourceChanged (db : DB) (resourceType : ResourceType) (resourceId : String)
    (latestEtag : Option String) : Bool :=
  match latestEtag with
  | none => true
  | some tag =>
    if tag = "" then true
    else
      match getEtag db resourceType resourceId with
      | none => true
      | some existing => decide (existing.etag ≠ some tag)

def saveEtag (db : DB) (resourceType : ResourceType) (resourceId : String)
    (etag : Option String) (timestamp : DateTime) : DB :=
  upsertEtag db
    { resourceType := resourceType, resourceId := resourceId
      etag := etag, lastChecked := timestamp }

/-- Channel part of syncChannelData: skip the current-state writes when the
etag is unchanged, then always capture today's channel snapshot. -/
def syncChannelPhase (db : DB) (channel : ChannelDetails) (now : DateTime) : DB :=
  let db :=
    if hasResourceChanged db .channel channel.id channel.etag then
      let db := upsertChannel db
        { id := channel.id, title := channel.title
          description := channel.description, customUrl := channel.customUrl
          country := channel.country, publishedAt := parseDate channel.publishedAt
          thumbnailUrl := channel.thumbnailUrl
          uploadsPlaylistId := channel.uploadsPlaylistId, lastSync := now }
      let db := upsertChannelStatistics db
        { channelId := channel.id, subscriberCount := channel.subscriberCount
          videoCount := channel.videoCount, viewCount := channel.viewCount
          hiddenSubscriberCount := channel.hiddenSubscriberCount, lastUpdate := now }
      saveEtag db .channel channel.id channel.etag now
    else db
  upsertChannelStatisticsDailySnapshot db
    { channelId := channel.id, snapshotDate := now.utcDate
      subscriberCount := channel.subscriberCount, videoCount := channel.videoCount
      viewCount := channel.viewCount
      hiddenSubscriberCount := channel.hiddenSubscriberCount, capturedAt := now }

/-- First-writer-wins insertion into the video → originating-playlist map:
`if (!videoPlaylistMap.has(videoId)) videoPlaylistMap.set(videoId, playlist.id)`. -/
def insertIfAbsentMap (m : List (String × String)) (videoId playlistId : String) :
    List (String × String) :=
  if (alookup videoId m).isSome then m else m ++ [(videoId, playlistId)]

/-- One iteration of the playlist loop of syncChannelData. -/
def syncPlaylistStep (env : RemoteEnv) (now : DateTime)
    (acc : DB × List (String × String) × Nat) (playlist : PlaylistDetails) :
    DB × List (String × String) × Nat :=
  let (db, videoPlaylistMap, playlistsProcessed) := acc
  if hasResourceChanged db .playlist playlist.id playlist.etag then
    let db := upsertPlaylist db
      { id := playlist.id, channelId := playlist.channelId, title := playlist.title
        description := playlist.description, itemCount := playlist.itemCount
        publishedAt := parseDate playlist.publishedAt
        thumbnailUrl := playlist.thumbnailUrl, lastSync := now }
    let db := saveEtag db .playlist playlist.id playlist.etag now
    let playlistVideoIds := env.fetchPlaylistVideoIds playlist.id
    let videoPlaylistMap := playlistVideoIds.foldl
      (fun m vid => insertIfAbsentMap m vid playlist.id) videoPlaylistMap
    (db, videoPlaylistMap, playlistsProcessed + 1)
  else acc

def syncPlaylistPhase (env : RemoteEnv) (now : DateTime) (db : DB)
    (playlists : List PlaylistDetails) : DB × List (String × String) × Nat :=
  playlists.foldl (syncPlaylistStep env now) (db, [], 0)

/-- Union of the playlist-map keys with the uploads collection's video ids,
via the insertion-ordered Set. The JS guard `if (uploadsPlaylistId)` is falsy
for null and for the empty string. -/
def computeVideoIds (env : RemoteEnv) (channel : ChannelDetails)
    (videoPlaylistMap : List (String × String)) : List String :=
  let uniqueVideoIds := (videoPlaylistMap.map Prod.fst).foldl addUnique []
  match channel.uploadsPlaylistId with
  | none => uniqueVideoIds
  | some uploadsPlaylistId =>
    if uploadsPlaylistId = "" then uniqueVideoIds
    else (env.fetchPlaylistVideoIds uploadsPlaylistId).foldl addUnique uniqueVideoIds

/-- syncTopCommentForVideo: a rejected top-comment fetch is logged and
swallowed; an empty result writes nothing. -/
def syncTopCommentForVideo (env : RemoteEnv) (video : VideoDetails)
    (timestamp : DateTime) (db : DB) : DB :=
  match env.fetchTopCommentByVideo video.id (some video.channelId) with
  | .error _ => db
  | .ok none => db
  | .ok (some topComment) =>
    upsertVideoTopComment db
      { videoId := video.id, channelId := video.channelId
        commentContent := topComment.commentContent, canReply := topComment.canReply
        isPublic := topComment.isPublic, likeCount := topComment.likeCount
        totalReplyCount := topComment.totalReplyCount
        authorDisplayName := topComment.authorDisplayName
        authorProfileImageUrl := topComment.authorProfileImageUrl
        authorChannelUrl := topComment.authorChannelUrl
        authorChannelId := topComment.authorChannelId
        publishedAt := parseDate topComment.publishedAt
        updatedAt := parseDate topComment.updatedAt, lastUpdate := timestamp }

/-- One iteration of the video loop of persistVideos: derive the duration
classification, write the full rows when the etag changed, otherwise only
reconcile the derived fields, and always upsert the daily snapshot. -/
def persistVideoStep (env : RemoteEnv) (playlistMap : List (String × String))
    (timestamp : DateTime) (acc : DB × Nat) (video : VideoDetails) : DB × Nat :=
  let snapshotDate := timestamp.utcDate
  let durationSeconds := parseIso8601DurationToSeconds video.duration
  let isShort := match durationSeconds with
    | some s => decide (s ≤ 180)
    | none => false
  let shortRuleVersion := "v1_180s"
  let (db, processed) := acc
  let videoChanged := hasResourceChanged db .video video.id video.etag
  let (db, processed) :=
    if videoChanged then
      let db := upsertVideo db
        { id := video.id, channelId := video.channelId
          playlistId := alookup video.id playlistMap
          title := video.title, description := video.description
          publishedAt := parseDate video.publishedAt, duration := video.duration
          durationSeconds := durationSeconds, isShort := some isShort
          shortRuleVersion := some shortRuleVersion
          dimension := video.dimension, definition := video.definition
          caption := video.caption, licensedContent := video.licensedContent
          thumbnailUrl := video.thumbnailUrl
          tags := if video.tags.length > 0 then some video.tags else none
          defaultLanguage := video.defaultLanguage
          defaultAudioLanguage := video.defaultAudioLanguage
          privacyStatus := video.privacyStatus, lastSync := timestamp }
      let db := upsertVideoStatistics db
        { videoId := video.id, viewCount := video.statistics.viewCount
          likeCount := video.statistics.likeCount
          favoriteCount := video.statistics.favoriteCount
          commentCount := video.statistics.commentCount, lastUpdate := timestamp }
      let db := syncTopCommentForVideo env video timestamp db
      let db := saveEtag db .video video.id video.etag timestamp
      (db, processed + 1)
    else
      ((updateVideoShortMetadata db
        { videoId := video.id, duration := video.duration
          durationSeconds := durationSeconds, isShort := some isShort
          shortRuleVersion := some shortRuleVersion }).1, processed)
  let db := upsertVideoStatisticsDailySnapshot db
    { videoId := video.id, channelId := video.channelId
      snapshotDate := snapshotDate, viewCount := video.statistics.viewCount
      likeCount := video.statistics.likeCount
      favoriteCount := video.statistics.favoriteCount
      commentCount := video.statistics.commentCount, capturedAt := timestamp }
  (db, processed)

def persistVideos (env : RemoteEnv) (videos : List VideoDetails)
    (playlistMap : List (String × String)) (timestamp : DateTime) (db : DB) :
    DB × Nat :=
  videos.foldl (persistVideoStep env playlistMap timestamp) (db, 0)

/-- syncChannelData, the full Refresh pipeline inside its transaction. -/
def syncChannelData (env : RemoteEnv) (now : DateTime) (channelId : String)
    (db : DB) : Except SyncError (DB × SyncStats) :=
  match env.fetchChannelById channelId with
  | none => .error (.channelNotFound channelId)
  | some channel =>
    let db := syncChannelPhase db channel now
    let (db, videoPlaylistMap, playlistsProcessed) :=
      syncPlaylistPhase env now db (env.fetchPlaylistsByChannel channel.id)
    let videoIds := computeVideoIds env channel videoPlaylistMap
    if videoIds.isEmpty then
      .ok (db, { channelId := channel.id, playlistsProcessed := playlistsProcessed
                 videosProcessed := 0, customUrl := channel.customUrl })
    else
      let videos := env.fetchVideosByIds videoIds
      let (db, videosProcessed) := persistVideos env videos videoPlaylistMap now db
      .ok (db, { channelId := channel.id, playlistsProcessed := playlistsProcessed
                 videosProcessed := videosProcessed, customUrl := channel.customUrl })

/-- Observation helper: the list of videos a Refresh run batch-fetches and
hands to persistVideos (empty when the run aborts or has no video ids). It
replays the stages of syncChannelData up to the fetch. -/
def syncFetchedVideos (env : RemoteEnv) (now : DateTime) (channelId : String)
    (db : DB) : List VideoDetails :=
  match env.fetchChannelById channelId with
  | none => []
  | some channel =>
    let db := syncChannelPhase db channel now
    let (_, videoPlaylistMap, _) :=
      syncPlaylistPhase env now db (env.fetchPlaylistsByChannel channel.id)
    let videoIds := computeVideoIds env channel videoPlaylistMap
    if videoIds.isEmpty then [] else env.fetchVideosByIds videoIds

/-- seedChannelMetadata: the minimal synchronous seed of Subscribe — channel
row, statistics row, today's channel snapshot, and the change-cache entry;
playlists and videos are not touched. -/
def seedChannelMetadata (env : RemoteEnv) (now : DateTime) (channelId : String)
    (db : DB) : Except SyncError (DB × String × Option String) :=
  match env.fetchChannelById channelId with
  | none => .error (.channelNotFound channelId)
  | some channel =>
    let db := upsertChannel db
      { id := channel.id, title := channel.title
        description := channel.description, customUrl := channel.customUrl
        country := channel.country, publishedAt := parseDate channel.publishedAt
        thumbnailUrl := channel.thumbnailUrl
        uploadsPlaylistId := channel.uploadsPlaylistId, lastSync := now }
    let db := upsertChannelStatistics db
      { channelId := channel.id, subscriberCount := channel.subscriberCount
        videoCount := channel.videoCount, viewCount := channel.viewCount
        hiddenSubscriberCount := channel.hiddenSubscriberCount, lastUpdate := now }
    let db := upsertChannelStatisticsDailySnapshot db
      { channelId := channel.id, snapshotDate := now.utcDate
        subscriberCount := channel.subscriberCount, videoCount := channel.videoCount
        viewCount := channel.viewCount
        hiddenSubscriberCount := channel.hiddenSubscriberCount, capturedAt := now }
    let db := saveEtag db .channel channel.id channel.etag now
    .ok (db, channel.id, channel.customUrl)

/-- subscribeChannel's transaction body: look the channel up, seed it when
absent, then upsert the membership row. An error rolls the transaction back,
so the caller keeps the original state. The deferred full Refresh is NOT part
of this function: the caller dispatches it fire-and-forget only when the
returned `syncScheduled` flag is set, after the transaction committed.
`membershipRowId` stands for the fresh `randomUUID()`. -/
def subscribeChannel (env : RemoteEnv) (now : DateTime) (membershipRowId : String)
    (channelId userId : String) (db : DB) :
    Except SyncError (DB × SubscribeChannelResult) :=
  let trimmed := jsTrim channelId
  match getChannelById db trimmed with
  | some existingChannel =>
    let targetChannelId := existingChannel.id
    let customUrl := existingChannel.customUrl.getD targetChannelId
    let (db, subscribed) :=
      subscribeUserToChannel db userId targetChannelId (some customUrl) membershipRowId
    .ok (db, { channelId := targetChannelId, playlistsProcessed := 0
               videosProcessed := 0, subscribed := subscribed, syncScheduled := false })
  | none =>
    match seedChannelMetadata env now trimmed db with
    | .error e => .error e
    | .ok (db, seededChannelId, seededCustomUrl) =>
      let targetChannelId := seededChannelId
      let customUrl := seededCustomUrl.getD targetChannelId
      let (db, subscribed) :=
        subscribeUserToChannel db userId targetChannelId (some customUrl) membershipRowId
      .ok (db, { channelId := targetChannelId, playlistsProcessed := 0
                 videosProcessed := 0, subscribed := subscribed, syncScheduled := true })

/-- refreshChannel: trim the id, run the sync transaction, and project the
public result fields. -/
def refreshChannel (env : RemoteEnv) (now : DateTime) (channelId : String)
    (db : DB) : Except SyncError (DB × ChannelSyncResult) :=
  match syncChannelData env now (jsTrim channelId) db with
  | .error e => .error e
  | .ok (db, stats) =>
    .ok (db, { channelId := stats.channelId
               playlistsProcessed := stats.playlistsProcessed
               videosProcessed := stats.videosProcessed })

/-! ## Analysis of the change check and the video loop -/

/-- hasResourceChanged as a pure function of the looked-up cache entry. -/
def etagMismatch (existing : Option EtagRow) (latestEtag : Option String) : Bool :=
  match latestEtag with
  | none => true
  | some tag =>
    if tag = "" then true
    else
      match existing with
      | none => true
      | some e => decide (e.etag ≠ some tag)

theorem hasResourceChanged_eq (db : DB) (t : ResourceType) (id : String)
    (e : Option String) :
    hasResourceChanged db t id e = etagMismatch (getEtag db t id) e := by
  cases e with
  | none => rfl
  | some tag =>
    by_cases h : tag = "" <;> simp [hasResourceChanged, etagMismatch, h]

theorem persistVideoStep_channels (env : RemoteEnv) (pm : List (String × String))
    (ts : DateTime) (acc : DB × Nat) (v : VideoDetails) :
    ((persistVideoStep env pm ts acc v).1).channels = acc.1.channels := by
  obtain ⟨db, n⟩ := acc
  simp only [persistVideoStep, upsertVideo, upsertVideoStatistics, saveEtag, upsertEtag,
    upsertVideoStatisticsDailySnapshot, updateVideoShortMetadata, syncTopCommentForVideo,
    upsertVideoTopComment]
  repeat' split
  all_goals rfl

theorem persistVideoStep_channelStats (env : RemoteEnv) (pm : List (String × String))
    (ts : DateTime) (acc : DB × Nat) (v : VideoDetails) :
    ((persistVideoStep env pm ts acc v).1).channelStats = acc.1.channelStats := by
  obtain ⟨db, n⟩ := acc
  simp only [persistVideoStep, upsertVideo, upsertVideoStatistics, saveEtag, upsertEtag,
    upsertVideoStatisticsDailySnapshot, updateVideoShortMetadata, syncTopCommentForVideo,
    upsertVideoTopComment]
  repeat' split
  all_goals rfl

theorem persistVideoStep_channelDaily (env : RemoteEnv) (pm : List (String × String))
    (ts : DateTime) (acc : DB × Nat) (v : VideoDetails) :
    ((persistVideoStep env pm ts acc v).1).channelDaily = acc.1.channelDaily := by
  obtain ⟨db, n⟩ := acc
  simp only [persistVideoStep, upsertVideo, upsertVideoStatistics, saveEtag, upsertEtag,
    upsertVideoStatisticsDailySnapshot, updateVideoShortMetadata, syncTopCommentForVideo,
    upsertVideoTopComment]
  repeat' split
  all_goals rfl

theorem persistVideoStep_playlists (env : RemoteEnv) (pm : List (String × String))
    (ts : DateTime) (acc : DB × Nat) (v : VideoDetails) :
    ((persistVideoStep env pm ts acc v).1).playlists = acc.1.playlists := by
  obtain ⟨db, n⟩ := acc
  simp only [persistVideoStep, upsertVideo, upsertVideoStatistics, saveEtag, upsertEtag,
    upsertVideoStatisticsDailySnapshot, updateVideoShortMetadata, syncTopCommentForVideo,
    upsertVideoTopComment]
  repeat' split
  all_goals rfl

theorem persistVideoStep_memberships (env : RemoteEnv) (pm : List (String × String))
    (ts : DateTime) (acc : DB × Nat) (v : VideoDetails) :
    ((persistVideoStep env pm ts acc v).1).memberships = acc.1.memberships := by
  obtain ⟨db, n⟩ := acc
  simp only [persistVideoStep, upsertVideo, upsertVideoStatistics, saveEtag, upsertEtag,
    upsertVideoStatisticsDailySnapshot, updateVideoShortMetadata, syncTopCommentForVideo,
    upsertVideoTopComment]
  repeat' split
  all_goals rfl

theorem persistVideoStep_videos_other (env : RemoteEnv) (pm : List (String × String))
    (ts : DateTime) (acc : DB × Nat) (v : VideoDetails) (x : String) (h : x ≠ v.id) :
    alookup x ((persistVideoStep env pm ts acc v).1).videos = alookup x acc.1.videos := by
  obtain ⟨db, n⟩ := acc
  simp only [persistVideoStep, upsertVideo, upsertVideoStatistics, saveEtag, upsertEtag,
    upsertVideoStatisticsDailySnapshot, updateVideoShortMetadata, syncTopCommentForVideo,
    upsertVideoTopComment]
  repeat' split
  all_goals first
    | rfl
    | exact alookup_aupsert_ne _ _ h

theorem persistVideoStep_videoStats_other (env : RemoteEnv) (pm : List (String × String))
    (ts : DateTime) (acc : DB × Nat) (v : VideoDetails) (x : String) (h : x ≠ v.id) :
    alookup x ((persistVideoStep env pm ts acc v).1).videoStats = alookup x acc.1.videoStats := by
  obtain ⟨db, n⟩ := acc
  simp only [persistVideoStep, upsertVideo, upsertVideoStatistics, saveEtag, upsertEtag,
    upsertVideoStatisticsDailySnapshot, updateVideoShortMetadata, syncTopCommentForVideo,
    upsertVideoTopComment]
  repeat' split
  all_goals first
    | rfl
    | exact alookup_aupsert_ne _ _ h

theorem persistVideoStep_topComments_other (env : RemoteEnv) (pm : List (String × String))
    (ts : DateTime) (acc : DB × Nat) (v : VideoDetails) (x : String) (h : x ≠ v.id) :
    alookup x ((persistVideoStep env pm ts acc v).1).topComments = alookup x acc.1.topComments := by
  obtain ⟨db, n⟩ := acc
  simp only [persistVideoStep, upsertVideo, upsertVideoStatistics, saveEtag, upsertEtag,
    upsertVideoStatisticsDailySnapshot, updateVideoShortMetadata, syncTopCommentForVideo,
    upsertVideoTopComment]
  repeat' split
  all_goals first
    | rfl
    | exact alookup_aupsert_ne _ _ h

theorem persistVideoStep_etag_other (env : RemoteEnv) (pm : List (String × String))
    (ts : DateTime) (acc : DB × Nat) (v : VideoDetails) (k : ResourceType × String)
    (h : k ≠ (ResourceType.video, v.id)) :
    alookup k ((persistVideoStep env pm ts acc v).1).etagCache = alookup k acc.1.etagCache := by
  obtain ⟨db, n⟩ := acc
  simp only [persistVideoStep, upsertVideo, upsertVideoStatistics, saveEtag, upsertEtag,
    upsertVideoStatisticsDailySnapshot, updateVideoShortMetadata, syncTopCommentForVideo,
    upsertVideoTopComment]
  repeat' split
  all_goals first
    | rfl
    | exact alookup_aupsert_ne _ _ h

theorem persistVideoStep_videoDaily_other (env : RemoteEnv) (pm : List (String × String))
    (ts : DateTime) (acc : DB × Nat) (v : VideoDetails) (k : String × String)
    (h : k ≠ (v.id, ts.utcDate)) :
    alookup k ((persistVideoStep env pm ts acc v).1).videoDaily = alookup k acc.1.videoDaily := by
  obtain ⟨db, n⟩ := acc
  simp only [persistVideoStep, upsertVideo, upsertVideoStatistics, saveEtag, upsertEtag,
    upsertVideoStatisticsDailySnapshot, updateVideoShortMetadata, syncTopCommentForVideo,
    upsertVideoTopComment]
  repeat' split
  all_goals first
    | rfl
    | exact alookup_aupsert_ne _ _ h

/-- The derived is-short flag exactly as persistVideos computes it. -/
def isShortOf (durationSeconds : Option Nat) : Bool :=
  match durationSeconds with
  | some s => decide (s ≤ 180)
  | none => false

theorem persistVideoStep_changed_count (env : RemoteEnv) (pm : List (String × String))
    (ts : DateTime) (db : DB) (n : Nat) (v : VideoDetails)
    (hc : hasResourceChanged db ResourceType.video v.id v.etag = true) :
    (persistVideoStep env pm ts (db, n) v).2 = n + 1 := by
  simp only [persistVideoStep, hc, if_true, upsertVideo, upsertVideoStatistics, saveEtag,
    upsertEtag, upsertVideoStatisticsDailySnapshot, syncTopCommentForVideo,
    upsertVideoTopComment]

theorem persistVideoStep_unchanged_count (env : RemoteEnv) (pm : List (String × String))
    (ts : DateTime) (db : DB) (n : Nat) (v : VideoDetails)
    (hc : hasResourceChanged db ResourceType.video v.id v.etag = false) :
    (persistVideoStep env pm ts (db, n) v).2 = n := by
  simp only [persistVideoStep, hc, Bool.false_eq_true, if_false, updateVideoShortMetadata,
    upsertVideoStatisticsDailySnapshot]

theorem persistVideoStep_changed_videos (env : RemoteEnv) (pm : List (String × String))
    (ts : DateTime) (db : DB) (n : Nat) (v : VideoDetails)
    (hc : hasResourceChanged db ResourceType.video v.id v.etag = true) :
    alookup v.id ((persistVideoStep env pm ts (db, n) v).1).videos =
      some { id := v.id, channelId := v.channelId, playlistId := alookup v.id pm
             title := v.title, description := v.description
             publishedAt := parseDate v.publishedAt, duration := v.duration
             durationSeconds := parseIso8601DurationToSeconds v.duration
             isShort := some (isShortOf (parseIso8601DurationToSeconds v.duration))
             shortRuleVersion := some "v1_180s"
             dimension := v.dimension, definition := v.definition
             caption := v.caption, licensedContent := v.licensedContent
             thumbnailUrl := v.thumbnailUrl
             tags := if v.tags.length > 0 then some v.tags else none
             defaultLanguage := v.defaultLanguage
             defaultAudioLanguage := v.defaultAudioLanguage
             privacyStatus := v.privacyStatus, lastSync := ts } := by
  simp only [persistVideoStep, hc, if_true, upsertVideo, upsertVideoStatistics, saveEtag,
    upsertEtag, upsertVideoStatisticsDailySnapshot, syncTopCommentForVideo,
    upsertVideoTopComment, isShortOf]
  repeat' split
  all_goals exact alookup_aupsert_self _ _ _

theorem persistVideoStep_changed_videoStats (env : RemoteEnv) (pm : List (String × String))
    (ts : DateTime) (db : DB) (n : Nat) (v : VideoDetails)
    (hc : hasResourceChanged db ResourceType.video v.id v.etag = true) :
    alookup v.id ((persistVideoStep env pm ts (db, n) v).1).videoStats =
      some { videoId := v.id, viewCount := v.statistics.viewCount
             likeCount := v.statistics.likeCount
             favoriteCount := v.statistics.favoriteCount
             commentCount := v.statistics.commentCount, lastUpdate := ts } := by
  simp only [persistVideoStep, hc, if_true, upsertVideo, upsertVideoStatistics, saveEtag,
    upsertEtag, upsertVideoStatisticsDailySnapshot, syncTopCommentForVideo,
    upsertVideoTopComment]
  repeat' split
  all_goals exact alookup_aupsert_self _ _ _

theorem persistVideoStep_changed_etag (env : RemoteEnv) (pm : List (String × String))
    (ts : DateTime) (db : DB) (n : Nat) (v : VideoDetails)
    (hc : hasResourceChanged db ResourceType.video v.id v.etag = true) :
    alookup (ResourceType.video, v.id) ((persistVideoStep env pm ts (db, n) v).1).etagCache =
      some { resourceType := ResourceType.video, resourceId := v.id
             etag := v.etag, lastChecked := ts } := by
  simp only [persistVideoStep, hc, if_true, upsertVideo, upsertVideoStatistics, saveEtag,
    upsertEtag, upsertVideoStatisticsDailySnapshot, syncTopCommentForVideo,
    upsertVideoTopComment]
  repeat' split
  all_goals exact alookup_aupsert_self _ _ _

theorem persistVideoStep_daily (env : RemoteEnv) (pm : List (String × String))
    (ts : DateTime) (acc : DB × Nat) (v : VideoDetails) :
    alookup (v.id, ts.utcDate) ((persistVideoStep env pm ts acc v).1).videoDaily =
      some { videoId := v.id, channelId := v.channelId, snapshotDate := ts.utcDate
             viewCount := toPgBigInt v.statistics.viewCount
             likeCount := toPgBigInt v.statistics.likeCount
             favoriteCount := toPgBigInt v.statistics.favoriteCount
             commentCount := toPgBigInt v.statistics.commentCount, capturedAt := ts } := by
  obtain ⟨db, n⟩ := acc
  simp only [persistVideoStep, upsertVideo, upsertVideoStatistics, saveEtag,
    upsertEtag, upsertVideoStatisticsDailySnapshot, updateVideoShortMetadata,
    syncTopCommentForVideo, upsertVideoTopComment]
  repeat' split
  all_goals exact alookup_aupsert_self _ _ _

theorem persistVideoStep_changed_topComments (env : RemoteEnv) (pm : List (String × String))
    (ts : DateTime) (db : DB) (n : Nat) (v : VideoDetails)
    (hc : hasResourceChanged db ResourceType.video v.id v.etag = true) :
    ((persistVideoStep env pm ts (db, n) v).1).topComments =
      match env.fetchTopCommentByVideo v.id (some v.channelId) with
      | .ok (some topComment) =>
        aupsert v.id
          { videoId := v.id, channelId := v.channelId
            commentContent := topComment.commentContent, canReply := topComment.canReply
            isPublic := topComment.isPublic, likeCount := topComment.likeCount
            totalReplyCount := topComment.totalReplyCount
            authorDisplayName := topComment.authorDisplayName
            authorProfileImageUrl := topComment.authorProfileImageUrl
            authorChannelUrl := topComment.authorChannelUrl
            authorChannelId := topComment.authorChannelId
            publishedAt := parseDate topComment.publishedAt
            updatedAt := parseDate topComment.updatedAt, lastUpdate := ts }
          db.topComments
      | _ => db.topComments := by
  simp only [persistVideoStep, hc, if_true, upsertVideo, upsertVideoStatistics, saveEtag,
    upsertEtag, upsertVideoStatisticsDailySnapshot, syncTopCommentForVideo,
    upsertVideoTopComment]
  rcases htc : env.fetchTopCommentByVideo v.id (some v.channelId) with u | oc
  · simp [htc]
  · rcases oc with _ | c <;> simp [htc]

theorem persistVideoStep_unchanged_videos (env : RemoteEnv) (pm : List (String × String))
    (ts : DateTime) (db : DB) (n : Nat) (v : VideoDetails)
    (hc : hasResourceChanged db ResourceType.video v.id v.etag = false) :
    alookup v.id ((persistVideoStep env pm ts (db, n) v).1).videos =
      (alookup v.id db.videos).map (fun r =>
        { r with duration := v.duration
                 durationSeconds := parseIso8601DurationToSeconds v.duration
                 isShort := some (isShortOf (parseIso8601DurationToSeconds v.duration))
                 shortRuleVersion := some "v1_180s" }) := by
  simp only [persistVideoStep, hc, Bool.false_eq_true, if_false, updateVideoShortMetadata,
    upsertVideoStatisticsDailySnapshot, isShortOf]
  rcases hrow : alookup v.id db.videos with _ | row
  · simp [hrow]
  · simp only [hrow, Option.map_some]
    split
    · rename_i heq
      obtain ⟨h1, h2, h3, h4⟩ := heq
      simp only [hrow]
      rw [← h3, ← h2, ← h4, ← h1]
      rfl
    · exact alookup_aupsert_self _ _ _

theorem persistVideoStep_unchanged_frame (env : RemoteEnv) (pm : List (String × String))
    (ts : DateTime) (db : DB) (n : Nat) (v : VideoDetails)
    (hc : hasResourceChanged db ResourceType.video v.id v.etag = false) :
    ((persistVideoStep env pm ts (db, n) v).1).videoStats = db.videoStats ∧
    ((persistVideoStep env pm ts (db, n) v).1).topComments = db.topComments ∧
    ((persistVideoStep env pm ts (db, n) v).1).etagCache = db.etagCache := by
  simp only [persistVideoStep, hc, Bool.false_eq_true, if_false, updateVideoShortMetadata,
    upsertVideoStatisticsDailySnapshot]
  repeat' split
  all_goals exact ⟨rfl, rfl, rfl⟩

theorem hasKey_length_aupsert {K V : Type} [DecidableEq K] (k : K) (v : V)
    (l : List (K × V)) (h : hasKey l k = true) :
    (aupsert k v l).length = l.length := by
  rw [length_aupsert, if_pos h]

theorem persistVideosAux_channels (env : RemoteEnv) (pm : List (String × String))
    (ts : DateTime) (videos : List VideoDetails) :
    ∀ acc : DB × Nat,
      ((videos.foldl (persistVideoStep env pm ts) acc).1).channels = acc.1.channels := by
  induction videos with
  | nil => intro acc; rfl
  | cons w ws ih =>
    intro acc
    rw [List.foldl_cons, ih, persistVideoStep_channels]

theorem persistVideosAux_channelStats (env : RemoteEnv) (pm : List (String × String))
    (ts : DateTime) (videos : List VideoDetails) :
    ∀ acc : DB × Nat,
      ((videos.foldl (persistVideoStep env pm ts) acc).1).channelStats = acc.1.channelStats := by
  induction videos with
  | nil => intro acc; rfl
  | cons w ws ih =>
    intro acc
    rw [List.foldl_cons, ih, persistVideoStep_channelStats]

theorem persistVideosAux_channelDaily (env : RemoteEnv) (pm : List (String × String))
    (ts : DateTime) (videos : List VideoDetails) :
    ∀ acc : DB × Nat,
      ((videos.foldl (persistVideoStep env pm ts) acc).1).channelDaily = acc.1.channelDaily := by
  induction videos with
  | nil => intro acc; rfl
  | cons w ws ih =>
    intro acc
    rw [List.foldl_cons, ih, persistVideoStep_channelDaily]

theorem persistVideosAux_playlists (env : RemoteEnv) (pm : List (String × String))
    (ts : DateTime) (videos : List VideoDetails) :
    ∀ acc : DB × Nat,
      ((videos.foldl (persistVideoStep env pm ts) acc).1).playlists = acc.1.playlists := by
  induction videos with
  | nil => intro acc; rfl
  | cons w ws ih =>
    intro acc
    rw [List.foldl_cons, ih, persistVideoStep_playlists]

theorem persistVideosAux_memberships (env : RemoteEnv) (pm : List (String × String))
    (ts : DateTime) (videos : List VideoDetails) :
    ∀ acc : DB × Nat,
      ((videos.foldl (persistVideoStep env pm ts) acc).1).memberships = acc.1.memberships := by
  induction videos with
  | nil => intro acc; rfl
  | cons w ws ih =>
    intro acc
    rw [List.foldl_cons, ih, persistVideoStep_memberships]

theorem persistVideosAux_videos_other (env : RemoteEnv) (pm : List (String × String))
    (ts : DateTime) (videos : List VideoDetails) (x : String)
    (h : ∀ w ∈ videos, w.id ≠ x) :
    ∀ acc : DB × Nat,
      alookup x ((videos.foldl (persistVideoStep env pm ts) acc).1).videos =
        alookup x acc.1.videos := by
  induction videos with
  | nil => intro acc; rfl
  | cons w ws ih =>
    intro acc
    rw [List.foldl_cons, ih (fun u hu => h u (List.mem_cons_of_mem _ hu)),
      persistVideoStep_videos_other]
    exact fun he => h w (List.mem_cons_self _ _) he.symm

theorem persistVideosAux_videoStats_other (env : RemoteEnv) (pm : List (String × String))
    (ts : DateTime) (videos : List VideoDetails) (x : String)
    (h : ∀ w ∈ videos, w.id ≠ x) :
    ∀ acc : DB × Nat,
      alookup x ((videos.foldl (persistVideoStep env pm ts) acc).1).videoStats =
        alookup x acc.1.videoStats := by
  induction videos with
  | nil => intro acc; rfl
  | cons w ws ih =>
    intro acc
    rw [List.foldl_cons, ih (fun u hu => h u (List.mem_cons_of_mem _ hu)),
      persistVideoStep_videoStats_other]
    exact fun he => h w (List.mem_cons_self _ _) he.symm

theorem persistVideosAux_topComments_other (env : RemoteEnv) (pm : List (String × String))
    (ts : DateTime) (videos : List VideoDetails) (x : String)
    (h : ∀ w ∈ videos, w.id ≠ x) :
    ∀ acc : DB × Nat,
      alookup x ((videos.foldl (persistVideoStep env pm ts) acc).1).topComments =
        alookup x acc.1.topComments := by
  induction videos with
  | nil => intro acc; rfl
  | cons w ws ih =>
    intro acc
    rw [List.foldl_cons, ih (fun u hu => h u (List.mem_cons_of_mem _ hu)),
      persistVideoStep_topComments_other]
    exact fun he => h w (List.mem_cons_self _ _) he.symm

theorem persistVideosAux_etag_other (env : RemoteEnv) (pm : List (String × String))
    (ts : DateTime) (videos : List VideoDetails) (k : ResourceType × String)
    (h : ∀ w ∈ videos, k ≠ (ResourceType.video, w.id)) :
    ∀ acc : DB × Nat,
      alookup k ((videos.foldl (persistVideoStep env pm ts) acc).1).etagCache =
        alookup k acc.1.etagCache := by
  induction videos with
  | nil => intro acc; rfl
  | cons w ws ih =>
    intro acc
    rw [List.foldl_cons, ih (fun u hu => h u (List.mem_cons_of_mem _ hu)),
      persistVideoStep_etag_other]
    exact h w (List.mem_cons_self _ _)

theorem persistVideosAux_videoDaily_other (env : RemoteEnv) (pm : List (String × String))
    (ts : DateTime) (videos : List VideoDetails) (k : String × String)
    (h : ∀ w ∈ videos, k ≠ (w.id, ts.utcDate)) :
    ∀ acc : DB × Nat,
      alookup k ((videos.foldl (persistVideoStep env pm ts) acc).1).videoDaily =
        alookup k acc.1.videoDaily := by
  induction videos with
  | nil => intro acc; rfl
  | cons w ws ih =>
    intro acc
    rw [List.foldl_cons, ih (fun u hu => h u (List.mem_cons_of_mem _ hu)),
      persistVideoStep_videoDaily_other]
    exact h w (List.mem_cons_self _ _)

theorem persistVideosAux_etag_skip (env : RemoteEnv) (pm : List (String × String))
    (ts : DateTime) (videos : List VideoDetails) (x : String) :
    ∀ acc : DB × Nat,
      (∀ w ∈ videos, w.id = x →
        etagMismatch (alookup (ResourceType.video, x) acc.1.etagCache) w.etag = false) →
      alookup (ResourceType.video, x)
          ((videos.foldl (persistVideoStep env pm ts) acc).1).etagCache =
        alookup (ResourceType.video, x) acc.1.etagCache := by
  induction videos with
  | nil => intro acc _; rfl
  | cons w ws ih =>
    intro acc h
    rw [List.foldl_cons]
    by_cases hx : w.id = x
    · obtain ⟨db, n⟩ := acc
      have hm : hasResourceChanged db ResourceType.video w.id w.etag = false := by
        rw [hasResourceChanged_eq]
        have h1 := h w (List.mem_cons_self _ _) hx
        unfold getEtag
        rw [hx]
        exact h1
      have hframe := (persistVideoStep_unchanged_frame env pm ts db n w hm).2.2
      calc alookup (ResourceType.video, x)
            ((ws.foldl (persistVideoStep env pm ts) (persistVideoStep env pm ts (db, n) w)).1).etagCache
          = alookup (ResourceType.video, x)
              ((persistVideoStep env pm ts (db, n) w).1).etagCache := by
            refine ih _ ?_
            intro u hu hux
            rw [hframe]
            exact h u (List.mem_cons_of_mem _ hu) hux
        _ = alookup (ResourceType.video, x) db.etagCache := by rw [hframe]
    · have hk : (ResourceType.video, x) ≠ (ResourceType.video, w.id) := by
        intro he
        exact hx (congrArg Prod.snd he).symm
      have hs := persistVideoStep_etag_other env pm ts acc w _ hk
      calc alookup (ResourceType.video, x)
            ((ws.foldl (persistVideoStep env pm ts) (persistVideoStep env pm ts acc w)).1).etagCache
          = alookup (ResourceType.video, x)
              ((persistVideoStep env pm ts acc w).1).etagCache := by
            refine ih _ ?_
            intro u hu hux
            rw [hs]
            exact h u (List.mem_cons_of_mem _ hu) hux
        _ = alookup (ResourceType.video, x) acc.1.etagCache := hs

theorem persistVideoStep_hasKey_videos (env : RemoteEnv) (pm : List (String × String))
    (ts : DateTime) (acc : DB × Nat) (v : VideoDetails) (k : String)
    (h : hasKey acc.1.videos k = true) :
    hasKey ((persistVideoStep env pm ts acc v).1).videos k = true := by
  obtain ⟨db, n⟩ := acc
  simp only [persistVideoStep, upsertVideo, upsertVideoStatistics, saveEtag, upsertEtag,
    upsertVideoStatisticsDailySnapshot, updateVideoShortMetadata, syncTopCommentForVideo,
    upsertVideoTopComment]
  repeat' split
  all_goals simp_all [hasKey_aupsert]

theorem persistVideoStep_hasKey_videoStats (env : RemoteEnv) (pm : List (String × String))
    (ts : DateTime) (acc : DB × Nat) (v : VideoDetails) (k : String)
    (h : hasKey acc.1.videoStats k = true) :
    hasKey ((persistVideoStep env pm ts acc v).1).videoStats k = true := by
  obtain ⟨db, n⟩ := acc
  simp only [persistVideoStep, upsertVideo, upsertVideoStatistics, saveEtag, upsertEtag,
    upsertVideoStatisticsDailySnapshot, updateVideoShortMetadata, syncTopCommentForVideo,
    upsertVideoTopComment]
  repeat' split
  all_goals simp_all [hasKey_aupsert]

theorem persistVideoStep_hasKey_topComments (env : RemoteEnv) (pm : List (String × String))
    (ts : DateTime) (acc : DB × Nat) (v : VideoDetails) (k : String)
    (h : hasKey acc.1.topComments k = true) :
    hasKey ((persistVideoStep env pm ts acc v).1).topComments k = true := by
  obtain ⟨db, n⟩ := acc
  simp only [persistVideoStep, upsertVideo, upsertVideoStatistics, saveEtag, upsertEtag,
    upsertVideoStatisticsDailySnapshot, updateVideoShortMetadata, syncTopCommentForVideo,
    upsertVideoTopComment]
  repeat' split
  all_goals simp_all [hasKey_aupsert]

theorem persistVideoStep_hasKey_videoDaily (env : RemoteEnv) (pm : List (String × String))
    (ts : DateTime) (acc : DB × Nat) (v : VideoDetails) (k : String × String)
    (h : hasKey acc.1.videoDaily k = true) :
    hasKey ((persistVideoStep env pm ts acc v).1).videoDaily k = true := by
  obtain ⟨db, n⟩ := acc
  simp only [persistVideoStep, upsertVideo, upsertVideoStatistics, saveEtag, upsertEtag,
    upsertVideoStatisticsDailySnapshot, updateVideoShortMetadata, syncTopCommentForVideo,
    upsertVideoTopComment]
  repeat' split
  all_goals simp_all [hasKey_aupsert]

theorem persistVideoStep_videos_length (env : RemoteEnv) (pm : List (String × String))
    (ts : DateTime) (db : DB) (n : Nat) (v : VideoDetails)
    (hpres : hasResourceChanged db ResourceType.video v.id v.etag = true →
      hasKey db.videos v.id = true) :
    ((persistVideoStep env pm ts (db, n) v).1).videos.length = db.videos.length := by
  by_cases hc : hasResourceChanged db ResourceType.video v.id v.etag = true
  · simp only [persistVideoStep, hc, if_true, upsertVideo, upsertVideoStatistics, saveEtag,
      upsertEtag, upsertVideoStatisticsDailySnapshot, syncTopCommentForVideo,
      upsertVideoTopComment]
    repeat' split
    all_goals exact hasKey_length_aupsert _ _ _ (hpres hc)
  · rw [Bool.not_eq_true] at hc
    simp only [persistVideoStep, hc, Bool.false_eq_true, if_false, updateVideoShortMetadata,
      upsertVideoStatisticsDailySnapshot]
    repeat' split
    all_goals first
      | rfl
      | exact hasKey_length_aupsert _ _ _ (by simp_all [hasKey])

theorem persistVideoStep_videoStats_length (env : RemoteEnv) (pm : List (String × String))
    (ts : DateTime) (db : DB) (n : Nat) (v : VideoDetails)
    (hpres : hasResourceChanged db ResourceType.video v.id v.etag = true →
      hasKey db.videoStats v.id = true) :
    ((persistVideoStep env pm ts (db, n) v).1).videoStats.length = db.videoStats.length := by
  by_cases hc : hasResourceChanged db ResourceType.video v.id v.etag = true
  · simp only [persistVideoStep, hc, if_true, upsertVideo, upsertVideoStatistics, saveEtag,
      upsertEtag, upsertVideoStatisticsDailySnapshot, syncTopCommentForVideo,
      upsertVideoTopComment]
    repeat' split
    all_goals exact hasKey_length_aupsert _ _ _ (hpres hc)
  · rw [Bool.not_eq_true] at hc
    simp only [persistVideoStep, hc, Bool.false_eq_true, if_false, updateVideoShortMetadata,
      upsertVideoStatisticsDailySnapshot]
    repeat' split
    all_goals rfl

theorem persistVideoStep_topComments_length (env : RemoteEnv) (pm : List (String × String))
    (ts : DateTime) (db : DB) (n : Nat) (v : VideoDetails)
    (hpres : hasResourceChanged db ResourceType.video v.id v.etag = true →
      ∀ c, env.fetchTopCommentByVideo v.id (some v.channelId) = Except.ok (some c) →
        hasKey db.topComments v.id = true) :
    ((persistVideoStep env pm ts (db, n) v).1).topComments.length = db.topComments.length := by
  by_cases hc : hasResourceChanged db ResourceType.video v.id v.etag = true
  · simp only [persistVideoStep, hc, if_true, upsertVideo, upsertVideoStatistics, saveEtag,
      upsertEtag, upsertVideoStatisticsDailySnapshot, syncTopCommentForVideo,
      upsertVideoTopComment]
    rcases htc : env.fetchTopCommentByVideo v.id (some v.channelId) with u | oc
    · simp [htc]
    · rcases oc with _ | c
      · simp [htc]
      · simp only [htc]
        exact hasKey_length_aupsert _ _ _ (hpres hc c htc)
  · rw [Bool.not_eq_true] at hc
    simp only [persistVideoStep, hc, Bool.false_eq_true, if_false, updateVideoShortMetadata,
      upsertVideoStatisticsDailySnapshot]
    repeat' split
    all_goals rfl

theorem persistVideoStep_videoDaily_length (env : RemoteEnv) (pm : List (String × String))
    (ts : DateTime) (db : DB) (n : Nat) (v : VideoDetails)
    (hpres : hasKey db.videoDaily (v.id, ts.utcDate) = true) :
    ((persistVideoStep env pm ts (db, n) v).1).videoDaily.length = db.videoDaily.length := by
  simp only [persistVideoStep, upsertVideo, upsertVideoStatistics, saveEtag, upsertEtag,
    upsertVideoStatisticsDailySnapshot, updateVideoShortMetadata, syncTopCommentForVideo,
    upsertVideoTopComment]
  repeat' split
  all_goals exact hasKey_length_aupsert _ _ _ hpres

theorem persistVideoStep_fst_count_irrel (env : RemoteEnv) (pm : List (String × String))
    (ts : DateTime) (db : DB) (n m : Nat) (v : VideoDetails) :
    (persistVideoStep env pm ts (db, n) v).1 = (persistVideoStep env pm ts (db, m) v).1 := by
  simp only [persistVideoStep, upsertVideo, upsertVideoStatistics, saveEtag, upsertEtag,
    upsertVideoStatisticsDailySnapshot, updateVideoShortMetadata, syncTopCommentForVideo,
    upsertVideoTopComment]
  repeat' split
  all_goals rfl

theorem persistVideoStep_count_shift (env : RemoteEnv) (pm : List (String × String))
    (ts : DateTime) (db : DB) (n m : Nat) (v : VideoDetails) :
    (persistVideoStep env pm ts (db, n) v).2 + m = (persistVideoStep env pm ts (db, m + n) v).2 := by
  by_cases hc : hasResourceChanged db ResourceType.video v.id v.etag = true
  · rw [persistVideoStep_changed_count _ _ _ _ _ _ hc, persistVideoStep_changed_count _ _ _ _ _ _ hc]
    omega
  · rw [Bool.not_eq_true] at hc
    rw [persistVideoStep_unchanged_count _ _ _ _ _ _ hc, persistVideoStep_unchanged_count _ _ _ _ _ _ hc]
    omega

theorem persistVideosAux_count_shift (env : RemoteEnv) (pm : List (String × String))
    (ts : DateTime) (videos : List VideoDetails) :
    ∀ (db : DB) (n : Nat),
      (videos.foldl (persistVideoStep env pm ts) (db, n)).2 =
        n + (videos.foldl (persistVideoStep env pm ts) (db, 0)).2 := by
  induction videos with
  | nil => intro db n; simp
  | cons w ws ih =>
    intro db n
    rw [List.foldl_cons, List.foldl_cons]
    rcases hs0 : persistVideoStep env pm ts (db, 0) w with ⟨d0, c0⟩
    have h1 : persistVideoStep env pm ts (db, n) w = (d0, n + c0) := by
      refine Prod.ext ?_ ?_
      · rw [persistVideoStep_fst_count_irrel env pm ts db n 0 w, hs0]
      · have h2 := persistVideoStep_count_shift env pm ts db 0 n w
        rw [hs0] at h2
        simp only [Nat.add_zero] at h2
        omega
    rw [h1, ih d0 (n + c0), ih d0 c0]
    omega

theorem persistVideosAux_count_mono (env : RemoteEnv) (pm : List (String × String))
    (ts : DateTime) (videos : List VideoDetails) :
    ∀ acc : DB × Nat, acc.2 ≤ (videos.foldl (persistVideoStep env pm ts) acc).2 := by
  induction videos with
  | nil => intro acc; exact Nat.le_refl _
  | cons w ws ih =>
    intro acc
    rw [List.foldl_cons]
    refine Nat.le_trans ?_ (ih _)
    obtain ⟨db, n⟩ := acc
    by_cases hc : hasResourceChanged db ResourceType.video w.id w.etag = true
    · rw [persistVideoStep_changed_count _ _ _ _ _ _ hc]
      omega
    · rw [Bool.not_eq_true] at hc
      rw [persistVideoStep_unchanged_count _ _ _ _ _ _ hc]

theorem persistVideosAux_lengths (env : RemoteEnv) (pm : List (String × String))
    (ts : DateTime) (videos : List VideoDetails) :
    ∀ (db : DB) (n : Nat),
      (videos.map VideoDetails.id).Nodup →
      (∀ v ∈ videos,
        (etagMismatch (alookup (ResourceType.video, v.id) db.etagCache) v.etag = true →
          hasKey db.videos v.id = true ∧ hasKey db.videoStats v.id = true ∧
          (∀ c, env.fetchTopCommentByVideo v.id (some v.channelId) = Except.ok (some c) →
            hasKey db.topComments v.id = true)) ∧
        hasKey db.videoDaily (v.id, ts.utcDate) = true) →
      ((videos.foldl (persistVideoStep env pm ts) (db, n)).1).videos.length = db.videos.length ∧
      ((videos.foldl (persistVideoStep env pm ts) (db, n)).1).videoStats.length = db.videoStats.length ∧
      ((videos.foldl (persistVideoStep env pm ts) (db, n)).1).topComments.length = db.topComments.length ∧
      ((videos.foldl (persistVideoStep env pm ts) (db, n)).1).videoDaily.length = db.videoDaily.length := by
  induction videos with
  | nil => intro db n _ _; exact ⟨rfl, rfl, rfl, rfl⟩
  | cons w ws ih =>
    intro db n hnodup hcond
    rw [List.map_cons, List.nodup_cons] at hnodup
    have hwmem := hcond w (List.mem_cons_self _ _)
    have hmm : hasResourceChanged db ResourceType.video w.id w.etag =
        etagMismatch (alookup (ResourceType.video, w.id) db.etagCache) w.etag := by
      rw [hasResourceChanged_eq]; rfl
    rw [List.foldl_cons]
    have hne : ∀ u ∈ ws, u.id ≠ w.id := by
      intro u hu he
      exact hnodup.1 (he ▸ List.mem_map_of_mem VideoDetails.id hu)
    have hstep := persistVideoStep_fst_count_irrel env pm ts db n 0 w
    set s := persistVideoStep env pm ts (db, n) w with hs
    have hpair : s = (s.1, s.2) := rfl
    have hlen1 : s.1.videos.length = db.videos.length := by
      refine persistVideoStep_videos_length env pm ts db n w ?_
      intro hc
      exact (hwmem.1 (by rw [← hmm]; exact hc)).1
    have hlen2 : s.1.videoStats.length = db.videoStats.length := by
      refine persistVideoStep_videoStats_length env pm ts db n w ?_
      intro hc
      exact (hwmem.1 (by rw [← hmm]; exact hc)).2.1
    have hlen3 : s.1.topComments.length = db.topComments.length := by
      refine persistVideoStep_topComments_length env pm ts db n w ?_
      intro hc c htc
      exact (hwmem.1 (by rw [← hmm]; exact hc)).2.2 c htc
    have hlen4 : s.1.videoDaily.length = db.videoDaily.length := by
      exact persistVideoStep_videoDaily_length env pm ts db n w hwmem.2
    have hrec := ih s.1 s.2 hnodup.2 ?_
    · rw [hpair] at hrec ⊢
      exact ⟨hrec.1.trans hlen1, hrec.2.1.trans hlen2,
        hrec.2.2.1.trans hlen3, hrec.2.2.2.trans hlen4⟩
    · intro u hu
      have huw := hne u hu
      have hucond := hcond u (List.mem_cons_of_mem _ hu)
      have hcache : alookup (ResourceType.video, u.id) s.1.etagCache =
          alookup (ResourceType.video, u.id) db.etagCache := by
        refine persistVideoStep_etag_other env pm ts (db, n) w _ ?_
        intro he
        exact huw (congrArg Prod.snd he)
      constructor
      · intro hmis
        rw [hcache] at hmis
        obtain ⟨p1, p2, p3⟩ := hucond.1 hmis
        refine ⟨persistVideoStep_hasKey_videos env pm ts (db, n) w _ p1,
          persistVideoStep_hasKey_videoStats env pm ts (db, n) w _ p2, ?_⟩
        intro c htc
        exact persistVideoStep_hasKey_topComments env pm ts (db, n) w _ (p3 c htc)
      · exact persistVideoStep_hasKey_videoDaily env pm ts (db, n) w _ hucond.2

theorem persistVideoStep_nodupKeys_videoDaily (env : RemoteEnv) (pm : List (String × String))
    (ts : DateTime) (acc : DB × Nat) (v : VideoDetails)
    (h : (acc.1.videoDaily.map Prod.fst).Nodup) :
    (((persistVideoStep env pm ts acc v).1).videoDaily.map Prod.fst).Nodup := by
  obtain ⟨db, n⟩ := acc
  simp only [persistVideoStep, upsertVideo, upsertVideoStatistics, saveEtag, upsertEtag,
    upsertVideoStatisticsDailySnapshot, updateVideoShortMetadata, syncTopCommentForVideo,
    upsertVideoTopComment]
  repeat' split
  all_goals exact nodupKeys_aupsert _ _ _ h

theorem persistVideosAux_nodupKeys_videoDaily (env : RemoteEnv) (pm : List (String × String))
    (ts : DateTime) (videos : List VideoDetails) :
    ∀ acc : DB × Nat, (acc.1.videoDaily.map Prod.fst).Nodup →
      (((videos.foldl (persistVideoStep env pm ts) acc).1).videoDaily.map Prod.fst).Nodup := by
  induction videos with
  | nil => intro acc h; exact h
  | cons w ws ih =>
    intro acc h
    rw [List.foldl_cons]
    exact ih _ (persistVideoStep_nodupKeys_videoDaily env pm ts acc w h)

theorem alookup_mem_keys {K V : Type} [DecidableEq K] (x : K) (l : List (K × V)) :
    (alookup x l).isSome = true ↔ x ∈ l.map Prod.fst := by
  induction l with
  | nil => simp [alookup]
  | cons hd tl ih =>
    obtain ⟨k1, v1⟩ := hd
    by_cases h : k1 = x
    · subst h
      simp [alookup]
    · simp only [alookup, if_neg h, List.map_cons, List.mem_cons, ih]
      constructor
      · exact Or.inr
      · rintro (rfl | hx)
        · exact absurd rfl h
        · exact hx

theorem alookup_append_left {K V : Type} [DecidableEq K] (x : K) (l1 l2 : List (K × V))
    (y : V) (h : alookup x l1 = some y) : alookup x (l1 ++ l2) = some y := by
  induction l1 with
  | nil => simp [alookup] at h
  | cons hd tl ih =>
    obtain ⟨k1, v1⟩ := hd
    by_cases h1 : k1 = x
    · simp only [alookup, if_pos h1] at h ⊢
      exact h
    · simp only [alookup, if_neg h1] at h ⊢
      exact ih h

theorem alookup_insertIfAbsentMap_preserved (m : List (String × String))
    (vid pid x : String) (y : String) (h : alookup x m = some y) :
    alookup x (insertIfAbsentMap m vid pid) = some y := by
  unfold insertIfAbsentMap
  split
  · exact h
  · exact alookup_append_left x m _ y h

theorem alookup_insertFold_preserved (ids : List String) (pid : String) :
    ∀ (m : List (String × String)) (x y : String), alookup x m = some y →
      alookup x (ids.foldl (fun m2 vid => insertIfAbsentMap m2 vid pid) m) = some y := by
  induction ids with
  | nil => intro m x y h; exact h
  | cons i is ih =>
    intro m x y h
    rw [List.foldl_cons]
    exact ih _ _ _ (alookup_insertIfAbsentMap_preserved m i pid x y h)

theorem alookup_append_single {K V : Type} [DecidableEq K] (x k : K) (v : V)
    (l : List (K × V)) :
    alookup x (l ++ [(k, v)]) =
      match alookup x l with
      | some y => some y
      | none => if k = x then some v else none := by
  induction l with
  | nil => simp [alookup]
  | cons hd tl ih =>
    obtain ⟨k1, v1⟩ := hd
    by_cases h1 : k1 = x
    · simp [alookup, h1]
    · simp only [List.cons_append, alookup, if_neg h1]
      exact ih

theorem isSome_insertIfAbsentMap (m : List (String × String)) (vid pid x : String) :
    (alookup x (insertIfAbsentMap m vid pid)).isSome = true ↔
      (alookup x m).isSome = true ∨ x = vid := by
  unfold insertIfAbsentMap
  split
  · rename_i hv
    constructor
    · exact Or.inl
    · rintro (hx | rfl)
      · exact hx
      · exact hv
  · rw [alookup_append_single]
    rcases hm : alookup x m with _ | y
    · by_cases hx : vid = x
      · subst hx
        simp
      · have hxv : ¬x = vid := fun h => hx h.symm
        simp [hx, hxv]
    · simp

theorem isSome_insertFold (ids : List String) (pid : String) :
    ∀ (m : List (String × String)) (x : String),
      (alookup x (ids.foldl (fun m2 vid => insertIfAbsentMap m2 vid pid) m)).isSome = true ↔
        (alookup x m).isSome = true ∨ x ∈ ids := by
  induction ids with
  | nil => intro m x; simp
  | cons i is ih =>
    intro m x
    rw [List.foldl_cons, ih, isSome_insertIfAbsentMap]
    simp only [List.mem_cons]
    tauto

theorem mem_addUnique_foldl {α : Type} [DecidableEq α] (l : List α) :
    ∀ (acc : List α) (y : α), y ∈ l.foldl addUnique acc ↔ y ∈ acc ∨ y ∈ l := by
  induction l with
  | nil => intro acc y; simp
  | cons a as ih =>
    intro acc y
    rw [List.foldl_cons, ih, mem_addUnique]
    simp only [List.mem_cons]
    tauto

theorem nodup_addUnique_foldl {α : Type} [DecidableEq α] (l : List α) :
    ∀ acc : List α, acc.Nodup → (l.foldl addUnique acc).Nodup := by
  induction l with
  | nil => intro acc h; exact h
  | cons a as ih =>
    intro acc h
    rw [List.foldl_cons]
    exact ih _ (nodup_addUnique acc a h)

theorem syncPlaylistStep_channels (env : RemoteEnv) (now : DateTime)
    (acc : DB × List (String × String) × Nat) (p : PlaylistDetails) :
    ((syncPlaylistStep env now acc p).1).channels = acc.1.channels := by
  obtain ⟨db, m, c⟩ := acc
  simp only [syncPlaylistStep, upsertPlaylist, saveEtag, upsertEtag]
  split <;> rfl

theorem syncPlaylistStep_channelStats (env : RemoteEnv) (now : DateTime)
    (acc : DB × List (String × String) × Nat) (p : PlaylistDetails) :
    ((syncPlaylistStep env now acc p).1).channelStats = acc.1.channelStats := by
  obtain ⟨db, m, c⟩ := acc
  simp only [syncPlaylistStep, upsertPlaylist, saveEtag, upsertEtag]
  split <;> rfl

theorem syncPlaylistStep_channelDaily (env : RemoteEnv) (now : DateTime)
    (acc : DB × List (String × String) × Nat) (p : PlaylistDetails) :
    ((syncPlaylistStep env now acc p).1).channelDaily = acc.1.channelDaily := by
  obtain ⟨db, m, c⟩ := acc
  simp only [syncPlaylistStep, upsertPlaylist, saveEtag, upsertEtag]
  split <;> rfl

theorem syncPlaylistStep_videos (env : RemoteEnv) (now : DateTime)
    (acc : DB × List (String × String) × Nat) (p : PlaylistDetails) :
    ((syncPlaylistStep env now acc p).1).videos = acc.1.videos := by
  obtain ⟨db, m, c⟩ := acc
  simp only [syncPlaylistStep, upsertPlaylist, saveEtag, upsertEtag]
  split <;> rfl

theorem syncPlaylistStep_videoStats (env : RemoteEnv) (now : DateTime)
    (acc : DB × List (String × String) × Nat) (p : PlaylistDetails) :
    ((syncPlaylistStep env now acc p).1).videoStats = acc.1.videoStats := by
  obtain ⟨db, m, c⟩ := acc
  simp only [syncPlaylistStep, upsertPlaylist, saveEtag, upsertEtag]
  split <;> rfl

theorem syncPlaylistStep_videoDaily (env : RemoteEnv) (now : DateTime)
    (acc : DB × List (String × String) × Nat) (p : PlaylistDetails) :
    ((syncPlaylistStep env now acc p).1).videoDaily = acc.1.videoDaily := by
  obtain ⟨db, m, c⟩ := acc
  simp only [syncPlaylistStep, upsertPlaylist, saveEtag, upsertEtag]
  split <;> rfl

theorem syncPlaylistStep_topComments (env : RemoteEnv) (now : DateTime)
    (acc : DB × List (String × String) × Nat) (p : PlaylistDetails) :
    ((syncPlaylistStep env now acc p).1).topComments = acc.1.topComments := by
  obtain ⟨db, m, c⟩ := acc
  simp only [syncPlaylistStep, upsertPlaylist, saveEtag, upsertEtag]
  split <;> rfl

theorem syncPlaylistStep_memberships (env : RemoteEnv) (now : DateTime)
    (acc : DB × List (String × String) × Nat) (p : PlaylistDetails) :
    ((syncPlaylistStep env now acc p).1).memberships = acc.1.memberships := by
  obtain ⟨db, m, c⟩ := acc
  simp only [syncPlaylistStep, upsertPlaylist, saveEtag, upsertEtag]
  split <;> rfl

theorem syncPlaylistStep_etag_other (env : RemoteEnv) (now : DateTime)
    (acc : DB × List (String × String) × Nat) (p : PlaylistDetails)
    (k : ResourceType × String) (h : k ≠ (ResourceType.playlist, p.id)) :
    alookup k ((syncPlaylistStep env now acc p).1).etagCache =
      alookup k acc.1.etagCache := by
  obtain ⟨db, m, c⟩ := acc
  simp only [syncPlaylistStep, upsertPlaylist, saveEtag, upsertEtag]
  split
  · exact alookup_aupsert_ne _ _ h
  · rfl

theorem syncPlaylistStep_playlists_other (env : RemoteEnv) (now : DateTime)
    (acc : DB × List (String × String) × Nat) (p : PlaylistDetails)
    (x : String) (h : x ≠ p.id) :
    alookup x ((syncPlaylistStep env now acc p).1).playlists =
      alookup x acc.1.playlists := by
  obtain ⟨db, m, c⟩ := acc
  simp only [syncPlaylistStep, upsertPlaylist, saveEtag, upsertEtag]
  split
  · exact alookup_aupsert_ne _ _ h
  · rfl

theorem syncPlaylistStep_hasKey_playlists (env : RemoteEnv) (now : DateTime)
    (acc : DB × List (String × String) × Nat) (p : PlaylistDetails) (k : String)
    (h : hasKey acc.1.playlists k = true) :
    hasKey ((syncPlaylistStep env now acc p).1).playlists k = true := by
  obtain ⟨db, m, c⟩ := acc
  simp only [syncPlaylistStep, upsertPlaylist, saveEtag, upsertEtag]
  split
  · simp_all [hasKey_aupsert]
  · exact h

theorem syncPlaylistStep_playlists_length (env : RemoteEnv) (now : DateTime)
    (db : DB) (m : List (String × String)) (c : Nat) (p : PlaylistDetails)
    (hpres : hasResourceChanged db ResourceType.playlist p.id p.etag = true →
      hasKey db.playlists p.id = true) :
    ((syncPlaylistStep env now (db, m, c) p).1).playlists.length = db.playlists.length := by
  by_cases hc : hasResourceChanged db ResourceType.playlist p.id p.etag = true
  · simp only [syncPlaylistStep, hc, if_true, upsertPlaylist, saveEtag, upsertEtag]
    exact hasKey_length_aupsert _ _ _ (hpres hc)
  · rw [Bool.not_eq_true] at hc
    simp only [syncPlaylistStep, hc, Bool.false_eq_true, if_false]

theorem syncPlaylistStep_skip (env : RemoteEnv) (now : DateTime)
    (acc : DB × List (String × String) × Nat) (p : PlaylistDetails)
    (hc : hasResourceChanged acc.1 ResourceType.playlist p.id p.etag = false) :
    syncPlaylistStep env now acc p = acc := by
  obtain ⟨db, m, c⟩ := acc
  simp only [syncPlaylistStep, hc, Bool.false_eq_true, if_false]

theorem syncPlaylistStep_changed (env : RemoteEnv) (now : DateTime)
    (db : DB) (m : List (String × String)) (c : Nat) (p : PlaylistDetails)
    (hc : hasResourceChanged db ResourceType.playlist p.id p.etag = true) :
    alookup p.id ((syncPlaylistStep env now (db, m, c) p).1).playlists =
      some { id := p.id, channelId := p.channelId, title := p.title
             description := p.description, itemCount := p.itemCount
             publishedAt := parseDate p.publishedAt
             thumbnailUrl := p.thumbnailUrl, lastSync := now } ∧
    alookup (ResourceType.playlist, p.id) ((syncPlaylistStep env now (db, m, c) p).1).etagCache =
      some { resourceType := ResourceType.playlist, resourceId := p.id
             etag := p.etag, lastChecked := now } ∧
    (syncPlaylistStep env now (db, m, c) p).2.1 =
      (env.fetchPlaylistVideoIds p.id).foldl
        (fun m2 vid => insertIfAbsentMap m2 vid p.id) m ∧
    (syncPlaylistStep env now (db, m, c) p).2.2 = c + 1 := by
  refine ⟨?_, ?_, ?_, ?_⟩ <;>
    simp only [syncPlaylistStep, hc, if_true, upsertPlaylist, saveEtag, upsertEtag] <;>
    first
      | exact alookup_aupsert_self _ _ _
      | rfl

theorem syncPlaylistStep_map_preserved (env : RemoteEnv) (now : DateTime)
    (acc : DB × List (String × String) × Nat) (p : PlaylistDetails)
    (x y : String) (h : alookup x acc.2.1 = some y) :
    alookup x ((syncPlaylistStep env now acc p).2.1) = some y := by
  obtain ⟨db, m, c⟩ := acc
  simp only [syncPlaylistStep, upsertPlaylist, saveEtag, upsertEtag]
  split
  · exact alookup_insertFold_preserved _ _ _ _ _ h
  · exact h

theorem syncPlaylistAux_channels (env : RemoteEnv) (now : DateTime)
    (playlists : List PlaylistDetails) :
    ∀ acc : DB × List (String × String) × Nat,
      ((playlists.foldl (syncPlaylistStep env now) acc).1).channels = acc.1.channels := by
  induction playlists with
  | nil => intro acc; rfl
  | cons p ps ih =>
    intro acc
    rw [List.foldl_cons, ih, syncPlaylistStep_channels]

theorem syncPlaylistAux_channelStats (env : RemoteEnv) (now : DateTime)
    (playlists : List PlaylistDetails) :
    ∀ acc : DB × List (String × String) × Nat,
      ((playlists.foldl (syncPlaylistStep env now) acc).1).channelStats = acc.1.channelStats := by
  induction playlists with
  | nil => intro acc; rfl
  | cons p ps ih =>
    intro acc
    rw [List.foldl_cons, ih, syncPlaylistStep_channelStats]

theorem syncPlaylistAux_channelDaily (env : RemoteEnv) (now : DateTime)
    (playlists : List PlaylistDetails) :
    ∀ acc : DB × List (String × String) × Nat,
      ((playlists.foldl (syncPlaylistStep env now) acc).1).channelDaily = acc.1.channelDaily := by
  induction playlists with
  | nil => intro acc; rfl
  | cons p ps ih =>
    intro acc
    rw [List.foldl_cons, ih, syncPlaylistStep_channelDaily]

theorem syncPlaylistAux_videos (env : RemoteEnv) (now : DateTime)
    (playlists : List PlaylistDetails) :
    ∀ acc : DB × List (String × String) × Nat,
      ((playlists.foldl (syncPlaylistStep env now) acc).1).videos = acc.1.videos := by
  induction playlists with
  | nil => intro acc; rfl
  | cons p ps ih =>
    intro acc
    rw [List.foldl_cons, ih, syncPlaylistStep_videos]

theorem syncPlaylistAux_videoStats (env : RemoteEnv) (now : DateTime)
    (playlists : List PlaylistDetails) :
    ∀ acc : DB × List (String × String) × Nat,
      ((playlists.foldl (syncPlaylistStep env now) acc).1).videoStats = acc.1.videoStats := by
  induction playlists with
  | nil => intro acc; rfl
  | cons p ps ih =>
    intro acc
    rw [List.foldl_cons, ih, syncPlaylistStep_videoStats]

theorem syncPlaylistAux_videoDaily (env : RemoteEnv) (now : DateTime)
    (playlists : List PlaylistDetails) :
    ∀ acc : DB × List (String × String) × Nat,
      ((playlists.foldl (syncPlaylistStep env now) acc).1).videoDaily = acc.1.videoDaily := by
  induction playlists with
  | nil => intro acc; rfl
  | cons p ps ih =>
    intro acc
    rw [List.foldl_cons, ih, syncPlaylistStep_videoDaily]

theorem syncPlaylistAux_topComments (env : RemoteEnv) (now : DateTime)
    (playlists : List PlaylistDetails) :
    ∀ acc : DB × List (String × String) × Nat,
      ((playlists.foldl (syncPlaylistStep env now) acc).1).topComments = acc.1.topComments := by
  induction playlists with
  | nil => intro acc; rfl
  | cons p ps ih =>
    intro acc
    rw [List.foldl_cons, ih, syncPlaylistStep_topComments]

theorem syncPlaylistAux_memberships (env : RemoteEnv) (now : DateTime)
    (playlists : List PlaylistDetails) :
    ∀ acc : DB × List (String × String) × Nat,
      ((playlists.foldl (syncPlaylistStep env now) acc).1).memberships = acc.1.memberships := by
  induction playlists with
  | nil => intro acc; rfl
  | cons p ps ih =>
    intro acc
    rw [List.foldl_cons, ih, syncPlaylistStep_memberships]

theorem syncPlaylistAux_etag_other (env : RemoteEnv) (now : DateTime)
    (playlists : List PlaylistDetails) (k : ResourceType × String)
    (h : ∀ p ∈ playlists, k ≠ (ResourceType.playlist, p.id)) :
    ∀ acc : DB × List (String × String) × Nat,
      alookup k ((playlists.foldl (syncPlaylistStep env now) acc).1).etagCache =
        alookup k acc.1.etagCache := by
  induction playlists with
  | nil => intro acc; rfl
  | cons p ps ih =>
    intro acc
    rw [List.foldl_cons, ih (fun u hu => h u (List.mem_cons_of_mem _ hu)),
      syncPlaylistStep_etag_other]
    exact h p (List.mem_cons_self _ _)

theorem syncPlaylistAux_playlists_other (env : RemoteEnv) (now : DateTime)
    (playlists : List PlaylistDetails) (x : String)
    (h : ∀ p ∈ playlists, p.id ≠ x) :
    ∀ acc : DB × List (String × String) × Nat,
      alookup x ((playlists.foldl (syncPlaylistStep env now) acc).1).playlists =
        alookup x acc.1.playlists := by
  induction playlists with
  | nil => intro acc; rfl
  | cons p ps ih =>
    intro acc
    rw [List.foldl_cons, ih (fun u hu => h u (List.mem_cons_of_mem _ hu)),
      syncPlaylistStep_playlists_other]
    exact fun he => h p (List.mem_cons_self _ _) he.symm

theorem syncPlaylistAux_map_preserved (env : RemoteEnv) (now : DateTime)
    (playlists : List PlaylistDetails) :
    ∀ (acc : DB × List (String × String) × Nat) (x y : String),
      alookup x acc.2.1 = some y →
      alookup x ((playlists.foldl (syncPlaylistStep env now) acc).2.1) = some y := by
  induction playlists with
  | nil => intro acc x y h; exact h
  | cons p ps ih =>
    intro acc x y h
    rw [List.foldl_cons]
    exact ih _ _ _ (syncPlaylistStep_map_preserved env now acc p x y h)

theorem syncPlaylistAux_hasKey_playlists (env : RemoteEnv) (now : DateTime)
    (playlists : List PlaylistDetails) :
    ∀ (acc : DB × List (String × String) × Nat) (k : String),
      hasKey acc.1.playlists k = true →
      hasKey ((playlists.foldl (syncPlaylistStep env now) acc).1).playlists k = true := by
  induction playlists with
  | nil => intro acc k h; exact h
  | cons p ps ih =>
    intro acc k h
    rw [List.foldl_cons]
    exact ih _ _ (syncPlaylistStep_hasKey_playlists env now acc p k h)

/-- Playlists whose cached tag already matches are skipped entirely, so both
their cache entry and their playlist row are left alone. -/
theorem syncPlaylistAux_skip (env : RemoteEnv) (now : DateTime)
    (playlists : List PlaylistDetails) (x : String) :
    ∀ acc : DB × List (String × String) × Nat,
      (∀ p ∈ playlists, p.id = x →
        etagMismatch (alookup (ResourceType.playlist, x) acc.1.etagCache) p.etag = false) →
      alookup (ResourceType.playlist, x)
          ((playlists.foldl (syncPlaylistStep env now) acc).1).etagCache =
        alookup (ResourceType.playlist, x) acc.1.etagCache ∧
      alookup x ((playlists.foldl (syncPlaylistStep env now) acc).1).playlists =
        alookup x acc.1.playlists := by
  induction playlists with
  | nil => intro acc _; exact ⟨rfl, rfl⟩
  | cons p ps ih =>
    intro acc h
    rw [List.foldl_cons]
    by_cases hx : p.id = x
    · have hm : hasResourceChanged acc.1 ResourceType.playlist p.id p.etag = false := by
        rw [hasResourceChanged_eq]
        have h1 := h p (List.mem_cons_self _ _) hx
        unfold getEtag
        rw [hx]
        exact h1
      rw [syncPlaylistStep_skip env now acc p hm]
      exact ih acc (fun u hu => h u (List.mem_cons_of_mem _ hu))
    · have hk : (ResourceType.playlist, x) ≠ (ResourceType.playlist, p.id) := by
        intro he
        exact hx (congrArg Prod.snd he).symm
      have hs1 := syncPlaylistStep_etag_other env now acc p _ hk
      have hs2 := syncPlaylistStep_playlists_other env now acc p x
        (fun he => hx he.symm)
      have hrec := ih (syncPlaylistStep env now acc p) ?_
      · exact ⟨hrec.1.trans hs1, hrec.2.trans hs2⟩
      · intro u hu hux
        rw [hs1]
        exact h u (List.mem_cons_of_mem _ hu) hux

theorem syncPlaylistAux_playlists_length (env : RemoteEnv) (now : DateTime)
    (playlists : List PlaylistDetails) :
    ∀ (db : DB) (m : List (String × String)) (c : Nat),
      (playlists.map PlaylistDetails.id).Nodup →
      (∀ p ∈ playlists,
        etagMismatch (alookup (ResourceType.playlist, p.id) db.etagCache) p.etag = true →
        hasKey db.playlists p.id = true) →
      ((playlists.foldl (syncPlaylistStep env now) (db, m, c)).1).playlists.length =
        db.playlists.length := by
  induction playlists with
  | nil => intro db m c _ _; rfl
  | cons p ps ih =>
    intro db m c hnodup hcond
    rw [List.map_cons, List.nodup_cons] at hnodup
    rw [List.foldl_cons]
    have hmm : hasResourceChanged db ResourceType.playlist p.id p.etag =
        etagMismatch (alookup (ResourceType.playlist, p.id) db.etagCache) p.etag := by
      rw [hasResourceChanged_eq]; rfl
    rcases hs : syncPlaylistStep env now (db, m, c) p with ⟨db2, m2, c2⟩
    have hlen : db2.playlists.length = db.playlists.length := by
      have := syncPlaylistStep_playlists_length env now db m c p
        (fun hc => hcond p (List.mem_cons_self _ _) (by rw [← hmm]; exact hc))
      rw [hs] at this
      exact this
    have hrec := ih db2 m2 c2 hnodup.2 ?_
    · rw [hrec, hlen]
    · intro u hu hmis
      have hune : u.id ≠ p.id := by
        intro he
        exact hnodup.1 (he ▸ List.mem_map_of_mem PlaylistDetails.id hu)
      have hcache : alookup (ResourceType.playlist, u.id) db2.etagCache =
          alookup (ResourceType.playlist, u.id) db.etagCache := by
        have := syncPlaylistStep_etag_other env now (db, m, c) p
          (ResourceType.playlist, u.id) (fun he => hune (congrArg Prod.snd he))
        rw [hs] at this
        exact this
      rw [hcache] at hmis
      have := syncPlaylistStep_hasKey_playlists env now (db, m, c) p u.id
        (hcond u (List.mem_cons_of_mem _ hu) hmis)
      rw [hs] at this
      exact this

theorem syncPlaylistAux_changed_presence (env : RemoteEnv) (now : DateTime)
    (playlists : List PlaylistDetails) :
    ∀ (db : DB) (m : List (String × String)) (c : Nat) (p : PlaylistDetails),
      p ∈ playlists →
      (playlists.map PlaylistDetails.id).Nodup →
      etagMismatch (alookup (ResourceType.playlist, p.id) db.etagCache) p.etag = true →
      hasKey ((playlists.foldl (syncPlaylistStep env now) (db, m, c)).1).playlists p.id = true := by
  induction playlists with
  | nil => intro db m c p hp; exact absurd hp (List.not_mem_nil p)
  | cons q qs ih =>
    intro db m c p hp hnodup hmis
    rw [List.map_cons, List.nodup_cons] at hnodup
    rw [List.foldl_cons]
    rcases List.mem_cons.mp hp with rfl | hptail
    · have hm : hasResourceChanged db ResourceType.playlist p.id p.etag = true := by
        rw [hasResourceChanged_eq]
        exact hmis
      have heff := syncPlaylistStep_changed env now db m c p hm
      have hpres : hasKey ((syncPlaylistStep env now (db, m, c) p).1).playlists p.id = true := by
        simp [hasKey, heff.1]
      exact syncPlaylistAux_hasKey_playlists env now qs _ _ hpres
    · have hpne : p.id ≠ q.id := by
        intro he
        exact hnodup.1 (he ▸ List.mem_map_of_mem PlaylistDetails.id hptail)
      rcases hs : syncPlaylistStep env now (db, m, c) q with ⟨db2, m2, c2⟩
      have hcache : alookup (ResourceType.playlist, p.id) db2.etagCache =
          alookup (ResourceType.playlist, p.id) db.etagCache := by
        have := syncPlaylistStep_etag_other env now (db, m, c) q
          (ResourceType.playlist, p.id) (fun he => hpne (congrArg Prod.snd he))
        rw [hs] at this
        exact this
      exact ih db2 m2 c2 p hptail hnodup.2 (by rw [hcache]; exact hmis)

/-- Characterization of the video → playlist map a playlist phase builds from
an empty map: a video id is mapped exactly when some playlist that the change
check (against the phase's starting cache) lets through contains it. -/
theorem syncPlaylistAux_map_isSome (env : RemoteEnv) (now : DateTime)
    (playlists : List PlaylistDetails) :
    ∀ (db : DB) (m0 : List (String × String)) (c0 : Nat),
      (playlists.map PlaylistDetails.id).Nodup → ∀ x : String,
      ((alookup x ((playlists.foldl (syncPlaylistStep env now) (db, m0, c0)).2.1)).isSome = true ↔
        (alookup x m0).isSome = true ∨ ∃ p, p ∈ playlists ∧
          etagMismatch (alookup (ResourceType.playlist, p.id) db.etagCache) p.etag = true ∧
          x ∈ env.fetchPlaylistVideoIds p.id) := by
  induction playlists with
  | nil =>
    intro db m0 c0 _ x
    simp
  | cons q qs ih =>
    intro db m0 c0 hnodup x
    rw [List.map_cons, List.nodup_cons] at hnodup
    rw [List.foldl_cons]
    have hmm : hasResourceChanged db ResourceType.playlist q.id q.etag =
        etagMismatch (alookup (ResourceType.playlist, q.id) db.etagCache) q.etag := by
      rw [hasResourceChanged_eq]; rfl
    by_cases hq : hasResourceChanged db ResourceType.playlist q.id q.etag = true
    · have heff := syncPlaylistStep_changed env now db m0 c0 q hq
      rcases hs : syncPlaylistStep env now (db, m0, c0) q with ⟨db2, m2, c2⟩
      rw [hs] at heff
      have hcache : ∀ u ∈ qs, alookup (ResourceType.playlist, u.id) db2.etagCache =
          alookup (ResourceType.playlist, u.id) db.etagCache := by
        intro u hu
        have hune : u.id ≠ q.id := by
          intro he
          exact hnodup.1 (he ▸ List.mem_map_of_mem PlaylistDetails.id hu)
        have := syncPlaylistStep_etag_other env now (db, m0, c0) q
          (ResourceType.playlist, u.id) (fun he => hune (congrArg Prod.snd he))
        rw [hs] at this
        exact this
      have hex : (∃ p, p ∈ qs ∧
          etagMismatch (alookup (ResourceType.playlist, p.id) db2.etagCache) p.etag = true ∧
          x ∈ env.fetchPlaylistVideoIds p.id) ↔ (∃ p, p ∈ qs ∧
          etagMismatch (alookup (ResourceType.playlist, p.id) db.etagCache) p.etag = true ∧
          x ∈ env.fetchPlaylistVideoIds p.id) := by
        constructor
        · rintro ⟨p, hp, hmi, hxm⟩
          refine ⟨p, hp, ?_, hxm⟩
          rw [hcache p hp] at hmi
          exact hmi
        · rintro ⟨p, hp, hmi, hxm⟩
          refine ⟨p, hp, ?_, hxm⟩
          rw [hcache p hp]
          exact hmi
      have hm2 : m2 = (env.fetchPlaylistVideoIds q.id).foldl
          (fun m3 vid => insertIfAbsentMap m3 vid q.id) m0 := heff.2.2.1
      rw [ih db2 m2 c2 hnodup.2 x, hm2, isSome_insertFold, hex]
      rw [hmm] at hq
      constructor
      · rintro ((hm | hxq) | hrest)
        · exact Or.inl hm
        · exact Or.inr ⟨q, List.mem_cons_self _ _, hq, hxq⟩
        · rcases hrest with ⟨p, hp, hmi, hxm⟩
          exact Or.inr ⟨p, List.mem_cons_of_mem _ hp, hmi, hxm⟩
      · rintro (hm | ⟨p, hp, hmi, hxm⟩)
        · exact Or.inl (Or.inl hm)
        · rcases List.mem_cons.mp hp with rfl | hptail
          · exact Or.inl (Or.inr hxm)
          · exact Or.inr ⟨p, hptail, hmi, hxm⟩
    · rw [Bool.not_eq_true] at hq
      rw [syncPlaylistStep_skip env now (db, m0, c0) q hq]
      rw [ih db m0 c0 hnodup.2 x]
      rw [hmm] at hq
      constructor
      · rintro (hm | ⟨p, hp, hmi, hxm⟩)
        · exact Or.inl hm
        · exact Or.inr ⟨p, List.mem_cons_of_mem _ hp, hmi, hxm⟩
      · rintro (hm | ⟨p, hp, hmi, hxm⟩)
        · exact Or.inl hm
        · rcases List.mem_cons.mp hp with rfl | hptail
          · rw [hq] at hmi
            exact absurd hmi (by simp)
          · exact Or.inr ⟨p, hptail, hmi, hxm⟩

theorem syncChannelPhase_playlists (db : DB) (ch : ChannelDetails) (now : DateTime) :
    (syncChannelPhase db ch now).playlists = db.playlists := by
  simp only [syncChannelPhase, upsertChannel, upsertChannelStatistics, saveEtag, upsertEtag,
    upsertChannelStatisticsDailySnapshot]
  split <;> rfl

theorem syncChannelPhase_videos (db : DB) (ch : ChannelDetails) (now : DateTime) :
    (syncChannelPhase db ch now).videos = db.videos := by
  simp only [syncChannelPhase, upsertChannel, upsertChannelStatistics, saveEtag, upsertEtag,
    upsertChannelStatisticsDailySnapshot]
  split <;> rfl

theorem syncChannelPhase_videoStats (db : DB) (ch : ChannelDetails) (now : DateTime) :
    (syncChannelPhase db ch now).videoStats = db.videoStats := by
  simp only [syncChannelPhase, upsertChannel, upsertChannelStatistics, saveEtag, upsertEtag,
    upsertChannelStatisticsDailySnapshot]
  split <;> rfl

theorem syncChannelPhase_videoDaily (db : DB) (ch : ChannelDetails) (now : DateTime) :
    (syncChannelPhase db ch now).videoDaily = db.videoDaily := by
  simp only [syncChannelPhase, upsertChannel, upsertChannelStatistics, saveEtag, upsertEtag,
    upsertChannelStatisticsDailySnapshot]
  split <;> rfl

theorem syncChannelPhase_topComments (db : DB) (ch : ChannelDetails) (now : DateTime) :
    (syncChannelPhase db ch now).topComments = db.topComments := by
  simp only [syncChannelPhase, upsertChannel, upsertChannelStatistics, saveEtag, upsertEtag,
    upsertChannelStatisticsDailySnapshot]
  split <;> rfl

theorem syncChannelPhase_memberships (db : DB) (ch : ChannelDetails) (now : DateTime) :
    (syncChannelPhase db ch now).memberships = db.memberships := by
  simp only [syncChannelPhase, upsertChannel, upsertChannelStatistics, saveEtag, upsertEtag,
    upsertChannelStatisticsDailySnapshot]
  split <;> rfl

theorem syncChannelPhase_etag_other (db : DB) (ch : ChannelDetails) (now : DateTime)
    (k : ResourceType × String) (h : k ≠ (ResourceType.channel, ch.id)) :
    alookup k (syncChannelPhase db ch now).etagCache = alookup k db.etagCache := by
  simp only [syncChannelPhase, upsertChannel, upsertChannelStatistics, saveEtag, upsertEtag,
    upsertChannelStatisticsDailySnapshot]
  split
  · exact alookup_aupsert_ne _ _ h
  · rfl

theorem syncChannelPhase_daily (db : DB) (ch : ChannelDetails) (now : DateTime) :
    alookup (ch.id, now.utcDate) (syncChannelPhase db ch now).channelDaily =
      some { channelId := ch.id, snapshotDate := now.utcDate
             subscriberCount := toPgBigInt ch.subscriberCount
             videoCount := ch.videoCount.getD 0
             viewCount := toPgBigInt ch.viewCount
             hiddenSubscriberCount := ch.hiddenSubscriberCount, capturedAt := now } := by
  simp only [syncChannelPhase, upsertChannel, upsertChannelStatistics, saveEtag, upsertEtag,
    upsertChannelStatisticsDailySnapshot]
  split
  all_goals exact alookup_aupsert_self _ _ _

theorem syncChannelPhase_changed (db : DB) (ch : ChannelDetails) (now : DateTime)
    (hc : hasResourceChanged db ResourceType.channel ch.id ch.etag = true) :
    alookup ch.id (syncChannelPhase db ch now).channels =
      some { id := ch.id, title := ch.title, description := ch.description
             customUrl := ch.customUrl, country := ch.country
             publishedAt := parseDate ch.publishedAt, thumbnailUrl := ch.thumbnailUrl
             uploadsPlaylistId := ch.uploadsPlaylistId, lastSync := now } ∧
    alookup ch.id (syncChannelPhase db ch now).channelStats =
      some { channelId := ch.id, subscriberCount := ch.subscriberCount
             videoCount := ch.videoCount, viewCount := ch.viewCount
             hiddenSubscriberCount := ch.hiddenSubscriberCount, lastUpdate := now } ∧
    alookup (ResourceType.channel, ch.id) (syncChannelPhase db ch now).etagCache =
      some { resourceType := ResourceType.channel, resourceId := ch.id
             etag := ch.etag, lastChecked := now } := by
  refine ⟨?_, ?_, ?_⟩ <;>
    simp only [syncChannelPhase, hc, if_true, upsertChannel, upsertChannelStatistics,
      saveEtag, upsertEtag, upsertChannelStatisticsDailySnapshot] <;>
    exact alookup_aupsert_self _ _ _

theorem syncChannelPhase_unchanged (db : DB) (ch : ChannelDetails) (now : DateTime)
    (hc : hasResourceChanged db ResourceType.channel ch.id ch.etag = false) :
    (syncChannelPhase db ch now).channels = db.channels ∧
    (syncChannelPhase db ch now).channelStats = db.channelStats ∧
    (syncChannelPhase db ch now).etagCache = db.etagCache := by
  simp only [syncChannelPhase, hc, Bool.false_eq_true, if_false,
    upsertChannelStatisticsDailySnapshot]
  exact ⟨trivial, trivial, trivial⟩

theorem syncChannelPhase_lengths (db : DB) (ch : ChannelDetails) (now : DateTime)
    (hpres : hasResourceChanged db ResourceType.channel ch.id ch.etag = true →
      hasKey db.channels ch.id = true ∧ hasKey db.channelStats ch.id = true)
    (hdaily : hasKey db.channelDaily (ch.id, now.utcDate) = true) :
    (syncChannelPhase db ch now).channels.length = db.channels.length ∧
    (syncChannelPhase db ch now).channelStats.length = db.channelStats.length ∧
    (syncChannelPhase db ch now).channelDaily.length = db.channelDaily.length := by
  by_cases hc : hasResourceChanged db ResourceType.channel ch.id ch.etag = true
  · simp only [syncChannelPhase, hc, if_true, upsertChannel, upsertChannelStatistics,
      saveEtag, upsertEtag, upsertChannelStatisticsDailySnapshot]
    exact ⟨hasKey_length_aupsert _ _ _ (hpres hc).1,
      hasKey_length_aupsert _ _ _ (hpres hc).2,
      hasKey_length_aupsert _ _ _ hdaily⟩
  · rw [Bool.not_eq_true] at hc
    simp only [syncChannelPhase, hc, Bool.false_eq_true, if_false,
      upsertChannelStatisticsDailySnapshot]
    exact ⟨trivial, trivial, hasKey_length_aupsert _ _ _ hdaily⟩

theorem syncChannelPhase_nodupKeys_channelDaily (db : DB) (ch : ChannelDetails)
    (now : DateTime) (h : (db.channelDaily.map Prod.fst).Nodup) :
    ((syncChannelPhase db ch now).channelDaily.map Prod.fst).Nodup := by
  simp only [syncChannelPhase, upsertChannel, upsertChannelStatistics, saveEtag, upsertEtag,
    upsertChannelStatisticsDailySnapshot]
  split
  all_goals exact nodupKeys_aupsert _ _ _ h

/-! ## Claim support: batching -/

theorem chunkArrayGo_join {α : Type} (c : Nat) :
    ∀ (fuel : Nat) (l : List α), l.length ≤ fuel → (chunkArrayGo c l).flatten = l := by
  intro fuel
  induction fuel with
  | zero =>
    intro l h
    rcases l with _ | ⟨x, xs⟩
    · simp [chunkArrayGo]
    · simp at h
  | succ n ih =>
    intro l h
    rcases l with _ | ⟨x, xs⟩
    · simp [chunkArrayGo]
    · rw [chunkArrayGo]
      simp only [List.flatten_cons]
      rw [ih (xs.drop c) (by simp only [List.length_drop]; simp at h; omega)]
      simp [List.take_append_drop]

theorem chunkArrayGo_length_le {α : Type} (c : Nat) :
    ∀ (fuel : Nat) (l : List α), l.length ≤ fuel →
      ∀ b ∈ chunkArrayGo c l, b.length ≤ c + 1 := by
  intro fuel
  induction fuel with
  | zero =>
    intro l h b hb
    rcases l with _ | ⟨x, xs⟩
    · simp [chunkArrayGo] at hb
    · simp at h
  | succ n ih =>
    intro l h b hb
    rcases l with _ | ⟨x, xs⟩
    · simp [chunkArrayGo] at hb
    · rw [chunkArrayGo] at hb
      rcases List.mem_cons.mp hb with rfl | hb2
      · simp only [List.length_cons]
        have := List.length_take_le c xs
        omega
      · refine ih (xs.drop c) (by simp only [List.length_drop]; simp at h; omega) b hb2

theorem chunkArrayGo_ne_nil {α : Type} (c : Nat) :
    ∀ (fuel : Nat) (l : List α), l.length ≤ fuel →
      ∀ b ∈ chunkArrayGo c l, b.isEmpty = false := by
  intro fuel
  induction fuel with
  | zero =>
    intro l h b hb
    rcases l with _ | ⟨x, xs⟩
    · simp [chunkArrayGo] at hb
    · simp at h
  | succ n ih =>
    intro l h b hb
    rcases l with _ | ⟨x, xs⟩
    · simp [chunkArrayGo] at hb
    · rw [chunkArrayGo] at hb
      rcases List.mem_cons.mp hb with rfl | hb2
      · rfl
      · refine ih (xs.drop c) (by simp only [List.length_drop]; simp at h; omega) b hb2

theorem chunkArray_join {α : Type} (l : List α) (c : Nat) :
    (chunkArray l (c + 1)).flatten = l := by
  unfold chunkArray
  split
  · rename_i he
    rw [List.isEmpty_iff] at he
    simp [he]
  · exact chunkArrayGo_join c l.length l (Nat.le_refl _)

/-- The parsed outcome of one videos.list batch request as the loop consumes
it: either the request's error, or the mapped items it contributes. -/
def perBatchResult (videosRequest : List String → FetchOutcome VideosListResponse)
    (batch : List String) : Except ApiError (List VideoDetails) :=
  (request (videosRequest batch)).map
    (fun body => (body.items.getD []).filterMap mapVideoItemToDetails)

theorem fetchVideosByIdsGo_eq_mapM (videosRequest : List String → FetchOutcome VideosListResponse) :
    ∀ chunks : List (List String), (∀ b ∈ chunks, b.isEmpty = false) →
      fetchVideosByIdsGo videosRequest chunks =
        ((chunks.mapM (perBatchResult videosRequest)).map List.flatten) := by
  intro chunks
  induction chunks with
  | nil => intro _; rfl
  | cons b rest ih =>
    intro h
    have hb := h b (List.mem_cons_self _ _)
    rw [fetchVideosByIdsGo, List.mapM_cons]
    rw [hb]
    simp only [Bool.false_eq_true, if_false]
    rcases hreq : request (videosRequest b) with e | body
    · rw [show perBatchResult videosRequest b = Except.error e by
        rw [perBatchResult, hreq]; rfl]
      rfl
    · rw [ih (fun u hu => h u (List.mem_cons_of_mem _ hu))]
      rw [show perBatchResult videosRequest b =
          Except.ok ((body.items.getD []).filterMap mapVideoItemToDetails) by
        rw [perBatchResult, hreq]; rfl]
      rcases hrest : rest.mapM (perBatchResult videosRequest) with e2 | tails
      · rfl
      · rfl

theorem mapM_error_of_mem {α β γ : Type} (f : α → Except γ β) (l : List α)
    (b : α) (hb : b ∈ l) (e : γ) (he : f b = .error e) :
    ∃ e2, l.mapM f = .error e2 := by
  induction l with
  | nil => exact absurd hb (List.not_mem_nil b)
  | cons a rest ih =>
    rcases ha : f a with ea | va
    · exact ⟨ea, by rw [List.mapM_cons, ha]; rfl⟩
    · rcases List.mem_cons.mp hb with rfl | hbrest
      · rw [ha] at he
        exact absurd he (by simp)
      · obtain ⟨e2, he2⟩ := ih hbrest
        exact ⟨e2, by rw [List.mapM_cons, ha]; show rest.mapM f >>= _ = _; rw [he2]; rfl⟩

/-! ## Claims C6, C8, C9 -/

/-- C6: fetchVideosByIds splits its id list into batches of at most the
platform maximum of 50 ids whose concatenation is exactly the input, runs the
batch requests in order and returns the concatenation of the per-batch
results (the fail-fast sequential `mapM`), and if any batch's request fails
the whole call fails with an error instead of returning the other batches'
videos. -/
theorem c6_fetchVideosByIds_batches
    (videosRequest : List String → FetchOutcome VideosListResponse)
    (ids : List String) :
    (∀ b ∈ chunkArray ids MAX_BATCH_IDS, b.length ≤ MAX_BATCH_IDS) ∧
    (chunkArray ids MAX_BATCH_IDS).flatten = ids ∧
    fetchVideosByIds videosRequest ids =
      ((chunkArray ids MAX_BATCH_IDS).mapM (perBatchResult videosRequest)).map List.flatten ∧
    (∀ b ∈ chunkArray ids MAX_BATCH_IDS,
      (∃ e, perBatchResult videosRequest b = .error e) →
      ∃ e2, fetchVideosByIds videosRequest ids = .error e2) := by
  have hchunks : ∀ b ∈ chunkArray ids MAX_BATCH_IDS, b.isEmpty = false := by
    intro b hb
    unfold chunkArray at hb
    split at hb
    · exact absurd hb (List.not_mem_nil b)
    · exact chunkArrayGo_ne_nil 49 ids.length ids (Nat.le_refl _) b hb
  refine ⟨?_, ?_, ?_, ?_⟩
  · intro b hb
    unfold chunkArray at hb
    split at hb
    · exact absurd hb (List.not_mem_nil b)
    · exact chunkArrayGo_length_le 49 ids.length ids (Nat.le_refl _) b hb
  · exact chunkArray_join ids 49
  · exact fetchVideosByIdsGo_eq_mapM videosRequest _ hchunks
  · intro b hb he
    obtain ⟨e, he⟩ := he
    obtain ⟨e2, he2⟩ := mapM_error_of_mem (perBatchResult videosRequest) _ b hb e he
    refine ⟨e2, ?_⟩
    rw [fetchVideosByIds, fetchVideosByIdsGo_eq_mapM videosRequest _ hchunks, he2]
    rfl

/-- Concrete change-cache state falsifying C8: the cache holds an entry for
(video, "v") whose stored tag is the empty string. -/
def c8db : DB :=
  { emptyDB with etagCache :=
      [((ResourceType.video, "v"),
        { resourceType := ResourceType.video, resourceId := "v"
          etag := some "", lastChecked := { instant := 0, utcDate := "1970-01-01" } })] }

/-- C8 counterexample: with a non-null fetched tag (the empty string) and a
prior cache entry storing that very same tag, strict string comparison finds
no difference — yet hasResourceChanged returns true, because the JS falsy
test `!latestEtag` also fires on the empty string. So the claim's
"otherwise it returns true exactly when latestTag differs from the stored
tag" is false at this input. -/
theorem c8_counterexample :
    hasResourceChanged c8db ResourceType.video "v" (some "") = true ∧
    (some "" : Option String) ≠ none ∧
    (getEtag c8db ResourceType.video "v").map EtagRow.etag = some (some "") := by
  refine ⟨rfl, by simp, rfl⟩

/-- C8 amended: the change check returns true exactly when the fetched tag is
null OR the empty string (both falsy in JS), or when no prior entry stores
that exact tag — i.e. the entry is missing, stores null, or stores a
different string under strict comparison. -/
theorem c8_amended_change_check (db : DB) (t : ResourceType) (id : String)
    (latest : Option String) :
    hasResourceChanged db t id latest = true ↔
      (latest = none ∨ latest = some "" ∨
        (getEtag db t id).map EtagRow.etag ≠ some latest) := by
  rcases latest with _ | tag
  · simp [hasResourceChanged]
  · by_cases ht : tag = ""
    · subst ht
      simp [hasResourceChanged]
    · rcases hget : getEtag db t id with _ | entry
      · simp [hasResourceChanged, ht, hget]
      · simp only [hasResourceChanged, ht, if_false, hget]
        simp [ht]

/-- C9 counterexample: the claim requires three pairwise distinct error
kinds — one for network failures, one for 4xx responses, one for 5xx — but
the client throws the same YOUTUBE_API_ERROR kind for every non-ok HTTP
status, so kinds for 404 and 503 coincide. -/
theorem c9_counterexample :
    ¬ ∃ kNet k4 k5 : String,
        kNet ≠ k4 ∧ kNet ≠ k5 ∧ k4 ≠ k5 ∧
        (∀ reason : String, ∃ e : ApiError,
          request (FetchOutcome.networkFailure reason : FetchOutcome Unit) = .error e ∧
            e.code = kNet) ∧
        (∀ status : Nat, 400 ≤ status → status ≤ 499 → ∃ e : ApiError,
          request (FetchOutcome.httpResponse status ()) = .error e ∧ e.code = k4) ∧
        (∀ status : Nat, 500 ≤ status → status ≤ 599 → ∃ e : ApiError,
          request (FetchOutcome.httpResponse status ()) = .error e ∧ e.code = k5) := by
  rintro ⟨kNet, k4, k5, _, _, h45, _, h4xx, h5xx⟩
  obtain ⟨e4, he4, hc4⟩ := h4xx 404 (by omega) (by omega)
  obtain ⟨e5, he5, hc5⟩ := h5xx 503 (by omega) (by omega)
  have h4 : e4 = { statusCode := 404, code := "YOUTUBE_API_ERROR" } := by
    have : request (FetchOutcome.httpResponse 404 ()) =
        Except.error { statusCode := 404, code := "YOUTUBE_API_ERROR" } := by rfl
    rw [this] at he4
    exact (Except.error.inj he4).symm
  have h5 : e5 = { statusCode := 503, code := "YOUTUBE_API_ERROR" } := by
    have : request (FetchOutcome.httpResponse 503 ()) =
        Except.error { statusCode := 503, code := "YOUTUBE_API_ERROR" } := by rfl
    rw [this] at he5
    exact (Except.error.inj he5).symm
  apply h45
  rw [← hc4, ← hc5, h4, h5]

/-- C9 amended: the client distinguishes exactly two error kinds, not three:
a rejected fetch promise surfaces as YOUTUBE_API_UNREACHABLE with status 502,
while every non-ok HTTP response — 4xx and 5xx alike — surfaces as the single
kind YOUTUBE_API_ERROR carrying the platform's own status code, so the
orchestrator can only distinguish 4xx from 5xx by the preserved numeric
status, never by the kind. -/
theorem c9_amended_error_kinds (α : Type) (reason : String) (status : Nat) (body : α) :
    request (FetchOutcome.networkFailure reason : FetchOutcome α) =
      .error { statusCode := 502, code := "YOUTUBE_API_UNREACHABLE" } ∧
    (¬(200 ≤ status ∧ status ≤ 299) →
      request (FetchOutcome.httpResponse status body) =
        .error { statusCode := status, code := "YOUTUBE_API_ERROR" }) ∧
    ("YOUTUBE_API_UNREACHABLE" : String) ≠ "YOUTUBE_API_ERROR" := by
  refine ⟨rfl, ?_, by decide⟩
  intro hok
  rw [request, if_neg hok]

/-! ## Claim C4: duration classification -/

theorem persistVideoStep_row_classified (env : RemoteEnv) (pm : List (String × String))
    (ts : DateTime) (db : DB) (n : Nat) (v : VideoDetails) (row : VideoRow)
    (hrow : alookup v.id ((persistVideoStep env pm ts (db, n) v).1).videos = some row) :
    row.durationSeconds = parseIso8601DurationToSeconds v.duration ∧
    row.isShort = some (isShortOf (parseIso8601DurationToSeconds v.duration)) ∧
    row.shortRuleVersion = some "v1_180s" := by
  by_cases hc : hasResourceChanged db ResourceType.video v.id v.etag = true
  · rw [persistVideoStep_changed_videos env pm ts db n v hc] at hrow
    obtain rfl := (Option.some.inj hrow).symm
    exact ⟨rfl, rfl, rfl⟩
  · rw [Bool.not_eq_true] at hc
    rw [persistVideoStep_unchanged_videos env pm ts db n v hc] at hrow
    rcases hl : alookup v.id db.videos with _ | r
    · rw [hl] at hrow
      exact absurd hrow (by simp)
    · rw [hl] at hrow
      obtain rfl := (Option.some.inj hrow).symm
      exact ⟨rfl, rfl, rfl⟩

theorem persistVideosAux_row_classified (env : RemoteEnv) (pm : List (String × String))
    (ts : DateTime) (videos : List VideoDetails) :
    ∀ (db : DB) (n : Nat) (v : VideoDetails), v ∈ videos →
      (videos.map VideoDetails.id).Nodup →
      ∀ row, alookup v.id ((videos.foldl (persistVideoStep env pm ts) (db, n)).1).videos =
          some row →
        row.durationSeconds = parseIso8601DurationToSeconds v.duration ∧
        row.isShort = some (isShortOf (parseIso8601DurationToSeconds v.duration)) ∧
        row.shortRuleVersion = some "v1_180s" := by
  induction videos with
  | nil => intro db n v hv; exact absurd hv (List.not_mem_nil v)
  | cons w ws ih =>
    intro db n v hv hnodup row hrow
    rw [List.map_cons, List.nodup_cons] at hnodup
    rw [List.foldl_cons] at hrow
    rcases List.mem_cons.mp hv with rfl | hvtail
    · have hne : ∀ u ∈ ws, u.id ≠ v.id := by
        intro u hu he
        exact hnodup.1 (he ▸ List.mem_map_of_mem VideoDetails.id hu)
      rw [persistVideosAux_videos_other env pm ts ws v.id hne] at hrow
      exact persistVideoStep_row_classified env pm ts db n v row hrow
    · rcases hs : persistVideoStep env pm ts (db, n) w with ⟨d2, n2⟩
      rw [hs] at hrow
      exact ih d2 n2 v hvtail hnodup.2 row hrow

/-- C4: every video a Refresh run processes is stored with the derived
classification computed by the current rule: derived seconds are the ISO-8601
parse of the raw duration, is-short is true exactly when the parse succeeded
with at most 180 seconds (false on an unparseable duration, whose derived
seconds are null), and the row is tagged with the current rule version
v1_180s. Concretely, PT2M59S parses to 179s and classifies short, PT3M1S
parses to 181s and classifies not-short, and an unparseable duration parses
to null and classifies not-short. -/
theorem c4_duration_classification (env : RemoteEnv) (now : DateTime) (chId : String)
    (db : DB) (v : VideoDetails)
    (hv : v ∈ syncFetchedVideos env now chId db)
    (hnodup : ((syncFetchedVideos env now chId db).map VideoDetails.id).Nodup) :
    (∀ (db2 : DB) (stats : SyncStats),
      syncChannelData env now chId db = .ok (db2, stats) →
      ∀ row, alookup v.id db2.videos = some row →
        row.durationSeconds = parseIso8601DurationToSeconds v.duration ∧
        row.isShort = some (isShortOf (parseIso8601DurationToSeconds v.duration)) ∧
        row.shortRuleVersion = some "v1_180s") ∧
    parseIso8601DurationToSeconds (some "PT2M59S") = some 179 ∧
    isShortOf (some 179) = true ∧
    parseIso8601DurationToSeconds (some "PT3M1S") = some 181 ∧
    isShortOf (some 181) = false ∧
    parseIso8601DurationToSeconds (some "not-a-duration") = none ∧
    isShortOf none = false := by
  refine ⟨?_, by decide, rfl, by decide, rfl, by decide, rfl⟩
  intro db2 stats hrun row hrow
  rcases hch : env.fetchChannelById chId with _ | ch
  · rw [syncFetchedVideos, hch] at hv
    exact absurd hv (List.not_mem_nil v)
  · simp only [syncFetchedVideos, hch] at hv hnodup
    simp only [syncChannelData, hch] at hrun
    rcases hps : syncPlaylistPhase env now (syncChannelPhase db ch now)
        (env.fetchPlaylistsByChannel ch.id) with ⟨dbp, mp, cp⟩
    rw [hps] at hrun hv hnodup
    by_cases hie : (computeVideoIds env ch mp).isEmpty
    · rw [if_pos hie] at hv
      exact absurd hv (List.not_mem_nil v)
    · rw [if_neg hie] at hv hnodup
      rw [if_neg hie] at hrun
      rcases hpv : persistVideos env (env.fetchVideosByIds (computeVideoIds env ch mp))
          mp now dbp with ⟨dbv, nv⟩
      rw [hpv] at hrun
      obtain ⟨rfl, rfl⟩ : dbv = db2 ∧
          ({ channelId := ch.id, playlistsProcessed := cp, videosProcessed := nv
             customUrl := ch.customUrl } : SyncStats) = stats := by
        have := Except.ok.inj hrun
        exact ⟨congrArg Prod.fst this, congrArg Prod.snd this⟩
      rw [persistVideos] at hpv
      have hfold := congrArg Prod.fst hpv
      simp only at hfold
      rw [← hfold] at hrow
      exact persistVideosAux_row_classified env mp now _ dbp 0 v hv hnodup row hrow

/-! Witness fixtures: a one-channel world with a single uploaded video. -/

def vW : VideoDetails :=
  { id := "v1", channelId := "ch", title := "t1", description := none
    publishedAt := none, duration := some "PT2M59S", dimension := none
    definition := none, caption := none, licensedContent := none
    thumbnailUrl := none, tags := [], defaultLanguage := none
    defaultAudioLanguage := none, privacyStatus := none
    statistics := { viewCount := some "10", likeCount := none
                    favoriteCount := none, commentCount := none }
    etag := some "tv1" }

def chW : ChannelDetails :=
  { id := "ch", title := "c", description := none, customUrl := some "@c"
    country := none, publishedAt := none, thumbnailUrl := none
    uploadsPlaylistId := some "UP", viewCount := some "99"
    subscriberCount := some "5", videoCount := some 1
    hiddenSubscriberCount := false, etag := some "tc" }

def nowW : DateTime := { instant := 1000, utcDate := "2026-01-01" }

def envW : RemoteEnv :=
  { fetchChannelById := fun cid => if cid = "ch" then some chW else none
    fetchPlaylistsByChannel := fun _ => []
    fetchPlaylistVideoIds := fun pid => if pid = "UP" then ["v1"] else []
    fetchVideosByIds := fun ids =>
      ids.filterMap (fun id => if id = "v1" then some vW else none)
    fetchTopCommentByVideo := fun _ _ => .ok none }

theorem c4_witness :
    parseIso8601DurationToSeconds (some "PT2M59S") = some 179 ∧
    isShortOf (some 179) = true := by
  have h := c4_duration_classification envW nowW "ch" emptyDB vW (by decide) (by decide)
  exact ⟨h.2.1, h.2.2.1⟩

/-- Frame behaviour of the video loop at an unchanged video: only the four
derived duration columns of its row are reconciled, its statistics, top
comment and cache entry are untouched, and its daily snapshot is written. -/
theorem persistVideosAux_unchanged_element (env : RemoteEnv)
    (pm : List (String × String)) (ts : DateTime) (videos : List VideoDetails) :
    ∀ (db : DB) (n : Nat) (v : VideoDetails), v ∈ videos →
      (videos.map VideoDetails.id).Nodup →
      etagMismatch (alookup (ResourceType.video, v.id) db.etagCache) v.etag = false →
      alookup v.id ((videos.foldl (persistVideoStep env pm ts) (db, n)).1).videos =
        (alookup v.id db.videos).map (fun r =>
          { r with duration := v.duration
                   durationSeconds := parseIso8601DurationToSeconds v.duration
                   isShort := some (isShortOf (parseIso8601DurationToSeconds v.duration))
                   shortRuleVersion := some "v1_180s" }) ∧
      alookup v.id ((videos.foldl (persistVideoStep env pm ts) (db, n)).1).videoStats =
        alookup v.id db.videoStats ∧
      alookup v.id ((videos.foldl (persistVideoStep env pm ts) (db, n)).1).topComments =
        alookup v.id db.topComments ∧
      alookup (v.id, ts.utcDate) ((videos.foldl (persistVideoStep env pm ts) (db, n)).1).videoDaily =
        some { videoId := v.id, channelId := v.channelId, snapshotDate := ts.utcDate
               viewCount := toPgBigInt v.statistics.viewCount
               likeCount := toPgBigInt v.statistics.likeCount
               favoriteCount := toPgBigInt v.statistics.favoriteCount
               commentCount := toPgBigInt v.statistics.commentCount, capturedAt := ts } := by
  induction videos with
  | nil => intro db n v hv; exact absurd hv (List.not_mem_nil v)
  | cons w ws ih =>
    intro db n v hv hnodup hmis
    rw [List.map_cons, List.nodup_cons] at hnodup
    rw [List.foldl_cons]
    rcases List.mem_cons.mp hv with rfl | hvtail
    · have hne : ∀ u ∈ ws, u.id ≠ v.id := by
        intro u hu he
        exact hnodup.1 (he ▸ List.mem_map_of_mem VideoDetails.id hu)
      have hnedaily : ∀ u ∈ ws, (v.id, ts.utcDate) ≠ (u.id, ts.utcDate) := by
        intro u hu he
        exact hne u hu (congrArg Prod.fst he).symm
      have hm : hasResourceChanged db ResourceType.video v.id v.etag = false := by
        rw [hasResourceChanged_eq]
        exact hmis
      have hframe := persistVideoStep_unchanged_frame env pm ts db n v hm
      refine ⟨?_, ?_, ?_, ?_⟩
      · rw [persistVideosAux_videos_other env pm ts ws v.id hne,
          persistVideoStep_unchanged_videos env pm ts db n v hm]
      · rw [persistVideosAux_videoStats_other env pm ts ws v.id hne, hframe.1]
      · rw [persistVideosAux_topComments_other env pm ts ws v.id hne, hframe.2.1]
      · rw [persistVideosAux_videoDaily_other env pm ts ws (v.id, ts.utcDate) hnedaily,
          persistVideoStep_daily]
    · have hwv : w.id ≠ v.id := by
        intro he
        exact hnodup.1 (he ▸ List.mem_map_of_mem VideoDetails.id hvtail)
      rcases hs : persistVideoStep env pm ts (db, n) w with ⟨d2, n2⟩
      have hcache : alookup (ResourceType.video, v.id) d2.etagCache =
          alookup (ResourceType.video, v.id) db.etagCache := by
        have := persistVideoStep_etag_other env pm ts (db, n) w
          (ResourceType.video, v.id) (fun he => hwv (congrArg Prod.snd he).symm)
        rw [hs] at this
        exact this
      have hvid : alookup v.id d2.videos = alookup v.id db.videos := by
        have := persistVideoStep_videos_other env pm ts (db, n) w v.id (fun he => hwv he.symm)
        rw [hs] at this
        exact this
      have hvst : alookup v.id d2.videoStats = alookup v.id db.videoStats := by
        have := persistVideoStep_videoStats_other env pm ts (db, n) w v.id (fun he => hwv he.symm)
        rw [hs] at this
        exact this
      have hvtc : alookup v.id d2.topComments = alookup v.id db.topComments := by
        have := persistVideoStep_topComments_other env pm ts (db, n) w v.id (fun he => hwv he.symm)
        rw [hs] at this
        exact this
      have hrec := ih d2 n2 v hvtail hnodup.2 (by rw [hcache]; exact hmis)
      exact ⟨by rw [hrec.1, hvid], by rw [hrec.2.1, hvst],
        by rw [hrec.2.2.1, hvtc], hrec.2.2.2⟩

/-- Effect of the video loop at a changed video: its full row, statistics row,
cache entry and daily snapshot are written; its top-comment row is written
exactly when the top-comment fetch resolves with a comment (a rejected fetch
leaves the table untouched); and the processed counter counts it. -/
theorem persistVideosAux_changed_element (env : RemoteEnv)
    (pm : List (String × String)) (ts : DateTime) (videos : List VideoDetails) :
    ∀ (db : DB) (n : Nat) (v : VideoDetails), v ∈ videos →
      (videos.map VideoDetails.id).Nodup →
      etagMismatch (alookup (ResourceType.video, v.id) db.etagCache) v.etag = true →
      alookup v.id ((videos.foldl (persistVideoStep env pm ts) (db, n)).1).videos =
        some { id := v.id, channelId := v.channelId, playlistId := alookup v.id pm
               title := v.title, description := v.description
               publishedAt := parseDate v.publishedAt, duration := v.duration
               durationSeconds := parseIso8601DurationToSeconds v.duration
               isShort := some (isShortOf (parseIso8601DurationToSeconds v.duration))
               shortRuleVersion := some "v1_180s"
               dimension := v.dimension, definition := v.definition
               caption := v.caption, licensedContent := v.licensedContent
               thumbnailUrl := v.thumbnailUrl
               tags := if v.tags.length > 0 then some v.tags else none
               defaultLanguage := v.defaultLanguage
               defaultAudioLanguage := v.defaultAudioLanguage
               privacyStatus := v.privacyStatus, lastSync := ts } ∧
      alookup v.id ((videos.foldl (persistVideoStep env pm ts) (db, n)).1).videoStats =
        some { videoId := v.id, viewCount := v.statistics.viewCount
               likeCount := v.statistics.likeCount
               favoriteCount := v.statistics.favoriteCount
               commentCount := v.statistics.commentCount, lastUpdate := ts } ∧
      alookup (v.id, ts.utcDate) ((videos.foldl (persistVideoStep env pm ts) (db, n)).1).videoDaily =
        some { videoId := v.id, channelId := v.channelId, snapshotDate := ts.utcDate
               viewCount := toPgBigInt v.statistics.viewCount
               likeCount := toPgBigInt v.statistics.likeCount
               favoriteCount := toPgBigInt v.statistics.favoriteCount
               commentCount := toPgBigInt v.statistics.commentCount, capturedAt := ts } ∧
      alookup v.id ((videos.foldl (persistVideoStep env pm ts) (db, n)).1).topComments =
        (match env.fetchTopCommentByVideo v.id (some v.channelId) with
          | .ok (some topComment) =>
            some { videoId := v.id, channelId := v.channelId
                   commentContent := topComment.commentContent
                   canReply := topComment.canReply
                   isPublic := topComment.isPublic, likeCount := topComment.likeCount
                   totalReplyCount := topComment.totalReplyCount
                   authorDisplayName := topComment.authorDisplayName
                   authorProfileImageUrl := topComment.authorProfileImageUrl
                   authorChannelUrl := topComment.authorChannelUrl
                   authorChannelId := topComment.authorChannelId
                   publishedAt := parseDate topComment.publishedAt
                   updatedAt := parseDate topComment.updatedAt, lastUpdate := ts }
          | _ => alookup v.id db.topComments) ∧
      ∃ pre post, (videos.foldl (persistVideoStep env pm ts) (db, n)).2 = n + pre + 1 + post := by
  induction videos with
  | nil => intro db n v hv; exact absurd hv (List.not_mem_nil v)
  | cons w ws ih =>
    intro db n v hv hnodup hmis
    rw [List.map_cons, List.nodup_cons] at hnodup
    rw [List.foldl_cons]
    rcases List.mem_cons.mp hv with rfl | hvtail
    · have hne : ∀ u ∈ ws, u.id ≠ v.id := by
        intro u hu he
        exact hnodup.1 (he ▸ List.mem_map_of_mem VideoDetails.id hu)
      have hnedaily : ∀ u ∈ ws, (v.id, ts.utcDate) ≠ (u.id, ts.utcDate) := by
        intro u hu he
        exact hne u hu (congrArg Prod.fst he).symm
      have hm : hasResourceChanged db ResourceType.video v.id v.etag = true := by
        rw [hasResourceChanged_eq]
        exact hmis
      refine ⟨?_, ?_, ?_, ?_, ?_⟩
      · rw [persistVideosAux_videos_other env pm ts ws v.id hne,
          persistVideoStep_changed_videos env pm ts db n v hm]
      · rw [persistVideosAux_videoStats_other env pm ts ws v.id hne,
          persistVideoStep_changed_videoStats env pm ts db n v hm]
      · rw [persistVideosAux_videoDaily_other env pm ts ws (v.id, ts.utcDate) hnedaily,
          persistVideoStep_daily]
      · rw [persistVideosAux_topComments_other env pm ts ws v.id hne]
        rw [persistVideoStep_changed_topComments env pm ts db n v hm]
        rcases env.fetchTopCommentByVideo v.id (some v.channelId) with u | oc
        · rfl
        · rcases oc with _ | c
          · rfl
          · exact alookup_aupsert_self _ _ _
      · rcases hs : persistVideoStep env pm ts (db, n) v with ⟨d2, n2⟩
        have hn2 : n2 = n + 1 := by
          have := persistVideoStep_changed_count env pm ts db n v hm
          rw [hs] at this
          exact this
        refine ⟨0, (ws.foldl (persistVideoStep env pm ts) (d2, 0)).2, ?_⟩
        rw [persistVideosAux_count_shift env pm ts ws d2 n2, hn2]
    · have hwv : w.id ≠ v.id := by
        intro he
        exact hnodup.1 (he ▸ List.mem_map_of_mem VideoDetails.id hvtail)
      rcases hs : persistVideoStep env pm ts (db, n) w with ⟨d2, n2⟩
      have hcache : alookup (ResourceType.video, v.id) d2.etagCache =
          alookup (ResourceType.video, v.id) db.etagCache := by
        have := persistVideoStep_etag_other env pm ts (db, n) w
          (ResourceType.video, v.id) (fun he => hwv (congrArg Prod.snd he).symm)
        rw [hs] at this
        exact this
      have hvtc : alookup v.id d2.topComments = alookup v.id db.topComments := by
        have := persistVideoStep_topComments_other env pm ts (db, n) w v.id (fun he => hwv he.symm)
        rw [hs] at this
        exact this
      have hrec := ih d2 n2 v hvtail hnodup.2 (by rw [hcache]; exact hmis)
      have hn2 : n2 = n ∨ n2 = n + 1 := by
        by_cases hcw : hasResourceChanged db ResourceType.video w.id w.etag = true
        · have := persistVideoStep_changed_count env pm ts db n w hcw
          rw [hs] at this
          exact Or.inr this
        · rw [Bool.not_eq_true] at hcw
          have := persistVideoStep_unchanged_count env pm ts db n w hcw
          rw [hs] at this
          exact Or.inl this
      refine ⟨hrec.1, hrec.2.1, hrec.2.2.1, by rw [hrec.2.2.2.1, hvtc], ?_⟩
      obtain ⟨pre, post, hcount⟩ := hrec.2.2.2.2
      rcases hn2 with rfl | rfl
      · exact ⟨pre, post, hcount⟩
      · exact ⟨pre + 1, post, by omega⟩

/-! ## Claims C2 and C5 -/

theorem etagMismatch_false_of_tag (e : Option EtagRow) (t : String) (ht : t ≠ "")
    (hm : e.map EtagRow.etag = some (some t)) : etagMismatch e (some t) = false := by
  rcases e with _ | entry
  · exact absurd hm (by simp)
  · have he : entry.etag = some t := Option.some.inj hm
    simp [etagMismatch, ht, he]

theorem videoKey_ne_playlistKey (x : String) (p : PlaylistDetails) :
    ((ResourceType.video, x) : ResourceType × String) ≠ (ResourceType.playlist, p.id) := by
  intro he
  exact ResourceType.noConfusion (congrArg Prod.fst he)

theorem videoKey_ne_channelKey (x y : String) :
    ((ResourceType.video, x) : ResourceType × String) ≠ (ResourceType.channel, y) := by
  intro he
  exact ResourceType.noConfusion (congrArg Prod.fst he)

theorem playlistKey_ne_channelKey (x y : String) :
    ((ResourceType.playlist, x) : ResourceType × String) ≠ (ResourceType.channel, y) := by
  intro he
  exact ResourceType.noConfusion (congrArg Prod.fst he)

/-- The channel-and-playlist prefix of a Refresh run leaves the video tables
and the channel tables (beyond the channel phase itself) untouched. -/
theorem syncPrefix_frame (env : RemoteEnv) (now : DateTime) (db : DB)
    (ch : ChannelDetails) (dbp : DB) (mp : List (String × String)) (cp : Nat)
    (hps : syncPlaylistPhase env now (syncChannelPhase db ch now)
      (env.fetchPlaylistsByChannel ch.id) = (dbp, mp, cp)) :
    dbp.channels = (syncChannelPhase db ch now).channels ∧
    dbp.channelStats = (syncChannelPhase db ch now).channelStats ∧
    dbp.channelDaily = (syncChannelPhase db ch now).channelDaily ∧
    dbp.videos = db.videos ∧
    dbp.videoStats = db.videoStats ∧
    dbp.topComments = db.topComments := by
  have hpsf : List.foldl (syncPlaylistStep env now)
      (syncChannelPhase db ch now, ([] : List (String × String)), (0 : Nat))
      (env.fetchPlaylistsByChannel ch.id) = (dbp, mp, cp) := hps
  refine ⟨?_, ?_, ?_, ?_, ?_, ?_⟩
  · have h := syncPlaylistAux_channels env now (env.fetchPlaylistsByChannel ch.id)
      (syncChannelPhase db ch now, [], 0)
    rw [hpsf] at h
    exact h
  · have h := syncPlaylistAux_channelStats env now (env.fetchPlaylistsByChannel ch.id)
      (syncChannelPhase db ch now, [], 0)
    rw [hpsf] at h
    exact h
  · have h := syncPlaylistAux_channelDaily env now (env.fetchPlaylistsByChannel ch.id)
      (syncChannelPhase db ch now, [], 0)
    rw [hpsf] at h
    exact h
  · have h := syncPlaylistAux_videos env now (env.fetchPlaylistsByChannel ch.id)
      (syncChannelPhase db ch now, [], 0)
    rw [hpsf] at h
    exact h.trans (syncChannelPhase_videos db ch now)
  · have h := syncPlaylistAux_videoStats env now (env.fetchPlaylistsByChannel ch.id)
      (syncChannelPhase db ch now, [], 0)
    rw [hpsf] at h
    exact h.trans (syncChannelPhase_videoStats db ch now)
  · have h := syncPlaylistAux_topComments env now (env.fetchPlaylistsByChannel ch.id)
      (syncChannelPhase db ch now, [], 0)
    rw [hpsf] at h
    exact h.trans (syncChannelPhase_topComments db ch now)

/-- The channel-and-playlist prefix of a Refresh run never touches a video's
change-cache entry. -/
theorem syncPrefix_videoCache (env : RemoteEnv) (now : DateTime) (db : DB)
    (ch : ChannelDetails) (dbp : DB) (mp : List (String × String)) (cp : Nat)
    (hps : syncPlaylistPhase env now (syncChannelPhase db ch now)
      (env.fetchPlaylistsByChannel ch.id) = (dbp, mp, cp)) (x : String) :
    alookup (ResourceType.video, x) dbp.etagCache =
      alookup (ResourceType.video, x) db.etagCache := by
  have hpsf : List.foldl (syncPlaylistStep env now)
      (syncChannelPhase db ch now, ([] : List (String × String)), (0 : Nat))
      (env.fetchPlaylistsByChannel ch.id) = (dbp, mp, cp) := hps
  have h := syncPlaylistAux_etag_other env now (env.fetchPlaylistsByChannel ch.id)
    (ResourceType.video, x) (fun p _ => videoKey_ne_playlistKey x p)
    (syncChannelPhase db ch now, [], 0)
  rw [hpsf] at h
  exact h.trans (syncChannelPhase_etag_other db ch now _ (videoKey_ne_channelKey x ch.id))

/-- C2 amended: during a Refresh run, every resource whose previously cached
revision tag is non-null, NON-EMPTY, and equal to the freshly fetched tag is
skipped: the channel's current-state rows are not written, an unchanged
playlist's row is not written, and an unchanged video's row is only touched
through the targeted update of the duration / is-short derived fields, with
its statistics and top-comment rows untouched — while the daily snapshot rows
for the channel and for every fetched video are still upserted. (The original
claim, quantified over every non-null tag, fails on the empty-string tag: the
falsy check treats an empty cached-and-refetched tag as changed and writes
anyway — see the counterexample.) -/
theorem c2_amended_unchanged_skip (env : RemoteEnv) (now : DateTime) (chId : String)
    (db db2 : DB) (stats : SyncStats) (ch : ChannelDetails)
    (hch : env.fetchChannelById chId = some ch)
    (hrun : syncChannelData env now chId db = .ok (db2, stats)) :
    (∀ t : String, ch.etag = some t → t ≠ "" →
      (getEtag db ResourceType.channel ch.id).map EtagRow.etag = some (some t) →
      db2.channels = db.channels ∧ db2.channelStats = db.channelStats) ∧
    alookup (ch.id, now.utcDate) db2.channelDaily =
      some { channelId := ch.id, snapshotDate := now.utcDate
             subscriberCount := toPgBigInt ch.subscriberCount
             videoCount := ch.videoCount.getD 0
             viewCount := toPgBigInt ch.viewCount
             hiddenSubscriberCount := ch.hiddenSubscriberCount, capturedAt := now } ∧
    (∀ p ∈ env.fetchPlaylistsByChannel ch.id,
      ((env.fetchPlaylistsByChannel ch.id).map PlaylistDetails.id).Nodup →
      ∀ t : String, p.etag = some t → t ≠ "" →
      (getEtag db ResourceType.playlist p.id).map EtagRow.etag = some (some t) →
      alookup p.id db2.playlists = alookup p.id db.playlists) ∧
    (∀ v ∈ syncFetchedVideos env now chId db,
      ((syncFetchedVideos env now chId db).map VideoDetails.id).Nodup →
      ∀ t : String, v.etag = some t → t ≠ "" →
      (getEtag db ResourceType.video v.id).map EtagRow.etag = some (some t) →
      alookup v.id db2.videos = (alookup v.id db.videos).map (fun r =>
        { r with duration := v.duration
                 durationSeconds := parseIso8601DurationToSeconds v.duration
                 isShort := some (isShortOf (parseIso8601DurationToSeconds v.duration))
                 shortRuleVersion := some "v1_180s" }) ∧
      alookup v.id db2.videoStats = alookup v.id db.videoStats ∧
      alookup v.id db2.topComments = alookup v.id db.topComments ∧
      alookup (v.id, now.utcDate) db2.videoDaily =
        some { videoId := v.id, channelId := v.channelId, snapshotDate := now.utcDate
               viewCount := toPgBigInt v.statistics.viewCount
               likeCount := toPgBigInt v.statistics.likeCount
               favoriteCount := toPgBigInt v.statistics.favoriteCount
               commentCount := toPgBigInt v.statistics.commentCount
               capturedAt := now }) := by
  simp only [syncChannelData, hch] at hrun
  rcases hps : syncPlaylistPhase env now (syncChannelPhase db ch now)
      (env.fetchPlaylistsByChannel ch.id) with ⟨dbp, mp, cp⟩
  rw [hps] at hrun
  have hframe := syncPrefix_frame env now db ch dbp mp cp hps
  have hplaylist : ∀ p ∈ env.fetchPlaylistsByChannel ch.id,
      ((env.fetchPlaylistsByChannel ch.id).map PlaylistDetails.id).Nodup →
      ∀ t : String, p.etag = some t → t ≠ "" →
      (getEtag db ResourceType.playlist p.id).map EtagRow.etag = some (some t) →
      alookup p.id dbp.playlists = alookup p.id db.playlists := by
    intro p hp hnodup t hetag ht hcached
    have hpsf : List.foldl (syncPlaylistStep env now)
        (syncChannelPhase db ch now, ([] : List (String × String)), (0 : Nat))
        (env.fetchPlaylistsByChannel ch.id) = (dbp, mp, cp) := hps
    have hprem : ∀ q ∈ env.fetchPlaylistsByChannel ch.id, q.id = p.id →
        etagMismatch (alookup (ResourceType.playlist, p.id)
          (syncChannelPhase db ch now).etagCache) q.etag = false := by
      intro q hq hqid
      rw [syncChannelPhase_etag_other db ch now _ (playlistKey_ne_channelKey p.id ch.id)]
      have hqp : q = p := List.inj_on_of_nodup_map hnodup hq hp hqid
      rw [hqp, hetag]
      exact etagMismatch_false_of_tag _ t ht hcached
    have hskip := (syncPlaylistAux_skip env now (env.fetchPlaylistsByChannel ch.id) p.id
      (syncChannelPhase db ch now, [], 0) hprem).2
    rw [hpsf] at hskip
    exact hskip.trans (congrArg (alookup p.id) (syncChannelPhase_playlists db ch now))
  by_cases hie : (computeVideoIds env ch mp).isEmpty
  · rw [if_pos hie] at hrun
    have hdb2 : db2 = dbp := by
      have h0 := Except.ok.inj hrun
      exact (congrArg Prod.fst h0).symm
    refine ⟨?_, ?_, ?_, ?_⟩
    · intro t hetag ht hcached
      have hm : hasResourceChanged db ResourceType.channel ch.id ch.etag = false := by
        rw [hasResourceChanged_eq, hetag]
        exact etagMismatch_false_of_tag _ t ht hcached
      have hun := syncChannelPhase_unchanged db ch now hm
      rw [hdb2]
      exact ⟨hframe.1.trans hun.1, hframe.2.1.trans hun.2.1⟩
    · rw [hdb2, hframe.2.2.1]
      exact syncChannelPhase_daily db ch now
    · intro p hp hnodup t hetag ht hcached
      rw [hdb2]
      exact hplaylist p hp hnodup t hetag ht hcached
    · intro v hv hnodup t hetag ht hcached
      simp only [syncFetchedVideos, hch] at hv
      rw [hps] at hv
      rw [if_pos hie] at hv
      exact absurd hv (List.not_mem_nil v)
  · rw [if_neg hie] at hrun
    rcases hpv : persistVideos env (env.fetchVideosByIds (computeVideoIds env ch mp))
        mp now dbp with ⟨dbv, nv⟩
    rw [hpv] at hrun
    have hdb2 : db2 = dbv := by
      have h0 := Except.ok.inj hrun
      exact (congrArg Prod.fst h0).symm
    rw [persistVideos] at hpv
    have hfold := congrArg Prod.fst hpv
    simp only at hfold
    refine ⟨?_, ?_, ?_, ?_⟩
    · intro t hetag ht hcached
      have hm : hasResourceChanged db ResourceType.channel ch.id ch.etag = false := by
        rw [hasResourceChanged_eq, hetag]
        exact etagMismatch_false_of_tag _ t ht hcached
      have hun := syncChannelPhase_unchanged db ch now hm
      have hch1 : dbv.channels = dbp.channels := by
        rw [← hfold, persistVideosAux_channels]
      have hch2 : dbv.channelStats = dbp.channelStats := by
        rw [← hfold, persistVideosAux_channelStats]
      rw [hdb2]
      exact ⟨(hch1.trans hframe.1).trans hun.1, (hch2.trans hframe.2.1).trans hun.2.1⟩
    · have hcd : dbv.channelDaily = dbp.channelDaily := by
        rw [← hfold, persistVideosAux_channelDaily]
      rw [hdb2, hcd, hframe.2.2.1]
      exact syncChannelPhase_daily db ch now
    · intro p hp hnodup t hetag ht hcached
      have hplv : dbv.playlists = dbp.playlists := by
        rw [← hfold, persistVideosAux_playlists]
      rw [hdb2, hplv]
      exact hplaylist p hp hnodup t hetag ht hcached
    · intro v hv hnodup t hetag ht hcached
      simp only [syncFetchedVideos, hch] at hv hnodup
      rw [hps] at hv hnodup
      rw [if_neg hie] at hv hnodup
      have hmis : etagMismatch (alookup (ResourceType.video, v.id) dbp.etagCache)
          v.etag = false := by
        rw [syncPrefix_videoCache env now db ch dbp mp cp hps v.id, hetag]
        exact etagMismatch_false_of_tag _ t ht hcached
      have helem := persistVideosAux_unchanged_element env mp now
        (env.fetchVideosByIds (computeVideoIds env ch mp)) dbp 0 v hv hnodup hmis
      rw [hfold] at helem
      rw [hdb2]
      refine ⟨?_, ?_, ?_, helem.2.2.2⟩
      · rw [helem.1, hframe.2.2.2.1]
      · rw [helem.2.1, hframe.2.2.2.2.1]
      · rw [helem.2.2.1, hframe.2.2.2.2.2]

/-! C2 counterexample fixtures: a channel whose stored and refetched revision
tag are both the empty string — non-null and equal, yet the run writes. -/

def chX : ChannelDetails := { chW with etag := some "" }

def envX : RemoteEnv :=
  { envW with fetchChannelById := fun cid => if cid = "ch" then some chX else none }

def c2xdb : DB :=
  { emptyDB with etagCache := [((ResourceType.channel, "ch"),
      { resourceType := ResourceType.channel, resourceId := "ch"
        etag := some "", lastChecked := nowW })] }

/-- C2 counterexample: the channel's cached revision tag is the non-null
empty string and the freshly fetched tag is the identical empty string, yet
the Refresh run writes the channel's current-state table: the channels table
goes from zero rows to one row. The original claim asserts no write occurs to
a resource's current-state table whenever the cached tag is non-null and
equal to the fetched tag, so this run refutes it — the change check treats
the empty string like null (JS falsiness) and forces the write path. -/
theorem c2_counterexample :
    (envX.fetchChannelById "ch").map ChannelDetails.etag = some (some "") ∧
    (getEtag c2xdb ResourceType.channel "ch").map EtagRow.etag = some (some "") ∧
    c2xdb.channels.length = 0 ∧
    (syncChannelData envX nowW "ch" c2xdb).map
        (fun p => ((p.1).channels.length, (alookup "ch" (p.1).channels).isSome)) =
      Except.ok (1, true) := by
  exact ⟨rfl, rfl, rfl, rfl⟩

/-! C2 witness fixtures: a second Refresh run over the state left by a first
run from the empty mirror, so every revision tag is cached and unchanged. -/

def c2run1 : Except SyncError (DB × SyncStats) := syncChannelData envW nowW "ch" emptyDB

def c2db0 : DB := match c2run1 with | .ok p => p.1 | .error _ => emptyDB

def c2run2 : Except SyncError (DB × SyncStats) := syncChannelData envW nowW "ch" c2db0

def c2db2 : DB := match c2run2 with | .ok p => p.1 | .error _ => emptyDB

def c2stats2 : SyncStats := match c2run2 with
  | .ok p => p.2
  | .error _ => { channelId := "", playlistsProcessed := 0
                  videosProcessed := 0, customUrl := none }

theorem c2_witness :
    c2db2.channels = c2db0.channels ∧
    alookup "v1" c2db2.videoStats = alookup "v1" c2db0.videoStats := by
  have h := c2_amended_unchanged_skip envW nowW "ch" c2db0 c2db2 c2stats2 chW
    (by rfl) (by rfl)
  refine ⟨(h.1 "tc" rfl (by decide) (by rfl)).1, ?_⟩
  exact (h.2.2.2 vW (by decide) (by decide) "tv1" rfl (by decide) (by rfl)).2.1

/-- C5: if a fetched video's revision tag differs from the cache (so its full
write path runs) and the top-comment fetch for it fails, the failure is
swallowed: the Refresh run still succeeds, the video's row is written with
its identity fields and sync timestamp, its statistics row is written in
full, its top-comment row is left exactly as it was before the run, and the
run's videosProcessed counter still counts this video. -/
theorem c5_top_comment_failure_isolation (env : RemoteEnv) (now : DateTime)
    (chId : String) (db db2 : DB) (stats : SyncStats) (v : VideoDetails)
    (hv : v ∈ syncFetchedVideos env now chId db)
    (hnodup : ((syncFetchedVideos env now chId db).map VideoDetails.id).Nodup)
    (hchanged : etagMismatch (getEtag db ResourceType.video v.id) v.etag = true)
    (hthrow : env.fetchTopCommentByVideo v.id (some v.channelId) = .error ())
    (hrun : syncChannelData env now chId db = .ok (db2, stats)) :
    (∃ row, alookup v.id db2.videos = some row ∧ row.id = v.id ∧
      row.channelId = v.channelId ∧ row.title = v.title ∧ row.lastSync = now) ∧
    alookup v.id db2.videoStats =
      some { videoId := v.id, viewCount := v.statistics.viewCount
             likeCount := v.statistics.likeCount
             favoriteCount := v.statistics.favoriteCount
             commentCount := v.statistics.commentCount, lastUpdate := now } ∧
    alookup v.id db2.topComments = alookup v.id db.topComments ∧
    ∃ pre post, stats.videosProcessed = pre + 1 + post := by
  rcases hch : env.fetchChannelById chId with _ | ch
  · rw [syncFetchedVideos, hch] at hv
    exact absurd hv (List.not_mem_nil v)
  · simp only [syncFetchedVideos, hch] at hv hnodup
    simp only [syncChannelData, hch] at hrun
    rcases hps : syncPlaylistPhase env now (syncChannelPhase db ch now)
        (env.fetchPlaylistsByChannel ch.id) with ⟨dbp, mp, cp⟩
    rw [hps] at hrun hv hnodup
    by_cases hie : (computeVideoIds env ch mp).isEmpty
    · rw [if_pos hie] at hv
      exact absurd hv (List.not_mem_nil v)
    · rw [if_neg hie] at hv hnodup
      rw [if_neg hie] at hrun
      rcases hpv : persistVideos env (env.fetchVideosByIds (computeVideoIds env ch mp))
          mp now dbp with ⟨dbv, nv⟩
      rw [hpv] at hrun
      have h0 := Except.ok.inj hrun
      have hdb2 : db2 = dbv := (congrArg Prod.fst h0).symm
      have hsv : stats.videosProcessed = nv :=
        (congrArg SyncStats.videosProcessed (congrArg Prod.snd h0)).symm
      rw [persistVideos] at hpv
      have hfold := congrArg Prod.fst hpv
      have hfold2 := congrArg Prod.snd hpv
      simp only at hfold hfold2
      have hframe := syncPrefix_frame env now db ch dbp mp cp hps
      have hmis : etagMismatch (alookup (ResourceType.video, v.id) dbp.etagCache)
          v.etag = true := by
        rw [syncPrefix_videoCache env now db ch dbp mp cp hps v.id]
        exact hchanged
      have helem := persistVideosAux_changed_element env mp now
        (env.fetchVideosByIds (computeVideoIds env ch mp)) dbp 0 v hv hnodup hmis
      rw [hfold, hfold2] at helem
      rw [hdb2]
      refine ⟨⟨_, helem.1, rfl, rfl, rfl, rfl⟩, helem.2.1, ?_, ?_⟩
      · have htc : alookup v.id dbv.topComments = alookup v.id dbp.topComments := by
          rw [helem.2.2.2.1, hthrow]
        rw [htc]
        exact congrArg (alookup v.id) hframe.2.2.2.2.2
      · obtain ⟨pre, post, hcount⟩ := helem.2.2.2.2
        refine ⟨pre, post, ?_⟩
        rw [hsv]
        omega

/-! C5 witness fixtures: the one-video world with a top-comment endpoint
that always fails. -/

def envC5 : RemoteEnv := { envW with fetchTopCommentByVideo := fun _ _ => .error () }

def c5run : Except SyncError (DB × SyncStats) := syncChannelData envC5 nowW "ch" emptyDB

def c5db2 : DB := match c5run with | .ok p => p.1 | .error _ => emptyDB

def c5stats : SyncStats := match c5run with
  | .ok p => p.2
  | .error _ => { channelId := "", playlistsProcessed := 0
                  videosProcessed := 0, customUrl := none }

theorem c5_witness :
    alookup "v1" c5db2.videoStats =
      some { videoId := "v1", viewCount := some "10", likeCount := none
             favoriteCount := none, commentCount := none, lastUpdate := nowW } ∧
    alookup "v1" c5db2.topComments = alookup "v1" emptyDB.topComments := by
  have h := c5_top_comment_failure_isolation envC5 nowW "ch" emptyDB c5db2 c5stats vW
    (by decide) (by decide) (by rfl) (by rfl) (by rfl)
  exact ⟨h.2.1, h.2.2.1⟩

/-! ## Claim C1: union of video ids and first-writer-wins playlist mapping -/

def chU : ChannelDetails :=
  { id := "chU", title := "cu", description := none, customUrl := none
    country := none, publishedAt := none, thumbnailUrl := none
    uploadsPlaylistId := some "UP", viewCount := some "1"
    subscriberCount := some "1", videoCount := some 3
    hiddenSubscriberCount := false, etag := some "tcu" }

def mkVidU (i : String) : VideoDetails :=
  { id := i, channelId := "chU", title := i, description := none
    publishedAt := none, duration := some "PT1M", dimension := none
    definition := none, caption := none, licensedContent := none
    thumbnailUrl := none, tags := [], defaultLanguage := none
    defaultAudioLanguage := none, privacyStatus := none
    statistics := { viewCount := none, likeCount := none
                    favoriteCount := none, commentCount := none }
    etag := some ("t" ++ i) }

def plU2 : PlaylistDetails :=
  { id := "PL2", channelId := "chU", title := "p2", description := none
    itemCount := some 2, publishedAt := none, thumbnailUrl := none
    etag := some "pe2" }

def plU3 : PlaylistDetails :=
  { id := "PL3", channelId := "chU", title := "p3", description := none
    itemCount := some 1, publishedAt := none, thumbnailUrl := none
    etag := some "pe3" }

def envU : RemoteEnv :=
  { fetchChannelById := fun cid => if cid = "chU" then some chU else none
    fetchPlaylistsByChannel := fun cid => if cid = "chU" then [plU2, plU3] else []
    fetchPlaylistVideoIds := fun pid =>
      if pid = "UP" then ["A", "B", "C"]
      else if pid = "PL2" then ["B", "D"]
      else if pid = "PL3" then ["D"] else []
    fetchVideosByIds := fun ids => ids.filterMap (fun i =>
      if i = "A" ∨ i = "B" ∨ i = "C" ∨ i = "D" then some (mkVidU i) else none)
    fetchTopCommentByVideo := fun _ _ => .ok none }

def c1xdb : DB :=
  { emptyDB with etagCache :=
      [((ResourceType.playlist, "PL2"),
        { resourceType := ResourceType.playlist, resourceId := "PL2"
          etag := some "pe2", lastChecked := nowW }),
       ((ResourceType.playlist, "PL3"),
        { resourceType := ResourceType.playlist, resourceId := "PL3"
          etag := some "pe3", lastChecked := nowW })] }

/-- C1 counterexample: the uploads collection holds {A,B,C} and the secondary
playlist PL2 holds {B,D}, yet the Refresh run does not process the union
{A,B,C,D}: because both secondary playlists' revision tags are already cached
and unchanged, the playlist loop skips them, their videos never enter the
video→playlist map, and D — which appears only in secondary playlists — is
neither batch-fetched nor processed. The run stores only {A,B,C} and counts
videosProcessed = 3, refuting the claim's universal quantification over
Refresh runs. -/
theorem c1_counterexample :
    envU.fetchPlaylistVideoIds "UP" = ["A", "B", "C"] ∧
    envU.fetchPlaylistVideoIds "PL2" = ["B", "D"] ∧
    (envU.fetchVideosByIds ["D"]).length = 1 ∧
    (syncChannelData envU nowW "chU" c1xdb).map
        (fun p => (p.1.videos.map Prod.fst, hasKey p.1.videos "D",
                   p.2.videosProcessed)) =
      Except.ok (["A", "B", "C"], false, 3) := by
  exact ⟨rfl, rfl, rfl, rfl⟩

/-- C1 amended: in a Refresh run whose secondary playlists are not
cache-skipped (here: a fresh mirror with no cached tags), with uploads
{A,B,C}, playlist PL2 = {B,D} and playlist PL3 = {D}, the batch-fetched and
processed video-id set is exactly the deduplicated union {B,D,A,C} (map keys
first, then uploads), videosProcessed = 4, and the originating playlist
recorded for D — contained in both enumerated playlists — is PL2, the first
playlist enumerated to contain it: PL3, enumerated later, does not overwrite
the mapping. Videos contributed only by the uploads collection get no
originating playlist. -/
theorem c1_amended_union_first_writer :
    envU.fetchPlaylistVideoIds "UP" = ["A", "B", "C"] ∧
    envU.fetchPlaylistVideoIds "PL2" = ["B", "D"] ∧
    envU.fetchPlaylistVideoIds "PL3" = ["D"] ∧
    (envU.fetchPlaylistsByChannel "chU").map PlaylistDetails.id = ["PL2", "PL3"] ∧
    (syncChannelData envU nowW "chU" emptyDB).map
        (fun p => (p.1.videos.map Prod.fst, p.2.videosProcessed,
                   (alookup "D" p.1.videos).map VideoRow.playlistId,
                   (alookup "A" p.1.videos).map VideoRow.playlistId)) =
      Except.ok (["B", "D", "A", "C"], 4, some (some "PL2"), some none) := by
  exact ⟨rfl, rfl, rfl, rfl, rfl⟩

/-! ## Claims C7 and C10: the Subscribe seed path -/

/-- C7: Subscribe on a channel id not present in the mirror seeds the channel
inside the transaction: the fetched channel row, its statistics row and its
change-cache entry are written, the membership row is inserted, the returned
result reports subscribed and syncScheduled = true (the deferred full Refresh
is dispatched by the caller only after commit), and — the seed not being a
full sync — playlists, videos, video statistics, video snapshots and top
comments are untouched; when the channel and statistics rows were absent
their tables grow by exactly one row each, and the membership table grows by
exactly one row. -/
theorem c7_subscribe_seed_path (env : RemoteEnv) (now : DateTime)
    (rid chId userId : String) (db : DB) (ch : ChannelDetails)
    (habsent : getChannelById db (jsTrim chId) = none)
    (hch : env.fetchChannelById (jsTrim chId) = some ch)
    (hmem : alookup (userId, ch.id) db.memberships = none)
    (hchans : hasKey db.channels ch.id = false)
    (hstats : hasKey db.channelStats ch.id = false) :
    ∃ (db2 : DB) (res : SubscribeChannelResult),
      subscribeChannel env now rid chId userId db = .ok (db2, res) ∧
      alookup ch.id db2.channels =
        some { id := ch.id, title := ch.title, description := ch.description
               customUrl := ch.customUrl, country := ch.country
               publishedAt := parseDate ch.publishedAt
               thumbnailUrl := ch.thumbnailUrl
               uploadsPlaylistId := ch.uploadsPlaylistId, lastSync := now } ∧
      db2.channels.length = db.channels.length + 1 ∧
      alookup ch.id db2.channelStats =
        some { channelId := ch.id, subscriberCount := ch.subscriberCount
               videoCount := ch.videoCount, viewCount := ch.viewCount
               hiddenSubscriberCount := ch.hiddenSubscriberCount
               lastUpdate := now } ∧
      db2.channelStats.length = db.channelStats.length + 1 ∧
      alookup (ResourceType.channel, ch.id) db2.etagCache =
        some { resourceType := ResourceType.channel, resourceId := ch.id
               etag := ch.etag, lastChecked := now } ∧
      alookup (userId, ch.id) db2.memberships =
        some { rowId := rid, channelId := ch.id
               customUrl := ch.customUrl.getD ch.id, userId := userId } ∧
      db2.memberships.length = db.memberships.length + 1 ∧
      res.subscribed = true ∧
      res.syncScheduled = true ∧
      db2.playlists = db.playlists ∧
      db2.videos = db.videos ∧
      db2.videoStats = db.videoStats ∧
      db2.videoDaily = db.videoDaily ∧
      db2.topComments = db.topComments := by
  simp only [subscribeChannel, habsent, seedChannelMetadata, hch,
    subscribeUserToChannel, upsertChannel, upsertChannelStatistics,
    upsertChannelStatisticsDailySnapshot, saveEtag, upsertEtag,
    Option.getD_some, hmem]
  refine ⟨_, _, rfl, ?_, ?_, ?_, ?_, ?_, ?_, ?_, rfl, rfl, rfl, rfl, rfl, rfl, rfl⟩
  · exact alookup_aupsert_self _ _ _
  · simp [length_aupsert, hchans]
  · exact alookup_aupsert_self _ _ _
  · simp [length_aupsert, hstats]
  · exact alookup_aupsert_self _ _ _
  · rw [alookup_append_single, hmem]
    simp
  · simp

/-- C10: on the seed path of Subscribe (channel id not yet present), beyond
the channel, statistics and change-cache rows, a channel daily-snapshot row
for the current UTC date is upserted inside the same transaction: after
Subscribe returns, the (channel id, date) key maps to the normalised snapshot
row, and when no row existed for that key the snapshot table grew by exactly
one row. -/
theorem c10_seed_writes_channel_daily (env : RemoteEnv) (now : DateTime)
    (rid chId userId : String) (db : DB) (ch : ChannelDetails)
    (habsent : getChannelById db (jsTrim chId) = none)
    (hch : env.fetchChannelById (jsTrim chId) = some ch)
    (hdaily : hasKey db.channelDaily (ch.id, now.utcDate) = false) :
    ∃ (db2 : DB) (res : SubscribeChannelResult),
      subscribeChannel env now rid chId userId db = .ok (db2, res) ∧
      alookup (ch.id, now.utcDate) db2.channelDaily =
        some { channelId := ch.id, snapshotDate := now.utcDate
               subscriberCount := toPgBigInt ch.subscriberCount
               videoCount := ch.videoCount.getD 0
               viewCount := toPgBigInt ch.viewCount
               hiddenSubscriberCount := ch.hiddenSubscriberCount
               capturedAt := now } ∧
      db2.channelDaily.length = db.channelDaily.length + 1 := by
  simp only [subscribeChannel, habsent, seedChannelMetadata, hch,
    subscribeUserToChannel, upsertChannel, upsertChannelStatistics,
    upsertChannelStatisticsDailySnapshot, saveEtag, upsertEtag, Option.getD_some]
  rcases hm : alookup (userId, ch.id) db.memberships with _ | m
  · simp only [hm]
    exact ⟨_, _, rfl, alookup_aupsert_self _ _ _, by simp [length_aupsert, hdaily]⟩
  · simp only [hm]
    exact ⟨_, _, rfl, alookup_aupsert_self _ _ _, by simp [length_aupsert, hdaily]⟩

theorem c7_witness :
    ∃ (db2 : DB) (res : SubscribeChannelResult),
      subscribeChannel envW nowW "m1" " ch " "u1" emptyDB = .ok (db2, res) ∧
      res.syncScheduled = true ∧ db2.memberships.length = 1 := by
  obtain ⟨db2, res, hrun, h1, h2, h3, h4, h5, h6, h7, h8, h9, h10, h11, h12, h13, h14⟩ :=
    c7_subscribe_seed_path envW nowW "m1" " ch " "u1" emptyDB chW (by rfl) (by rfl)
      (by rfl) (by rfl) (by rfl)
  refine ⟨db2, res, hrun, h9, ?_⟩
  rw [h7]
  rfl

theorem c10_witness :
    ∃ (db2 : DB) (res : SubscribeChannelResult),
      subscribeChannel envW nowW "m2" " ch " "u2" emptyDB = .ok (db2, res) ∧
      db2.channelDaily.length = 1 := by
  obtain ⟨db2, res, hrun, hlook, hlen⟩ :=
    c10_seed_writes_channel_daily envW nowW "m2" " ch " "u2" emptyDB chW
      (by rfl) (by rfl) (by rfl)
  refine ⟨db2, res, hrun, ?_⟩
  rw [hlen]
  rfl

/-! ## Claim C3 support: fold-level length preservation of the video loop -/

theorem playlistKey_ne_videoKey (x y : String) :
    ((ResourceType.playlist, x) : ResourceType × String) ≠ (ResourceType.video, y) := by
  intro he
  exact ResourceType.noConfusion (congrArg Prod.fst he)

theorem channelKey_ne_videoKey (x y : String) :
    ((ResourceType.channel, x) : ResourceType × String) ≠ (ResourceType.video, y) := by
  intro he
  exact ResourceType.noConfusion (congrArg Prod.fst he)

theorem channelKey_ne_playlistKey (x y : String) :
    ((ResourceType.channel, x) : ResourceType × String) ≠ (ResourceType.playlist, y) := by
  intro he
  exact ResourceType.noConfusion (congrArg Prod.fst he)

theorem persistVideosAux_videos_length (env : RemoteEnv) (pm : List (String × String))
    (ts : DateTime) (videos : List VideoDetails) :
    ∀ (db : DB) (n : Nat),
      (videos.map VideoDetails.id).Nodup →
      (∀ v ∈ videos,
        etagMismatch (alookup (ResourceType.video, v.id) db.etagCache) v.etag = true →
        hasKey db.videos v.id = true) →
      ((videos.foldl (persistVideoStep env pm ts) (db, n)).1).videos.length =
        db.videos.length := by
  induction videos with
  | nil => intro db n _ _; rfl
  | cons w ws ih =>
    intro db n hnodup hcond
    rw [List.map_cons, List.nodup_cons] at hnodup
    rw [List.foldl_cons]
    have hmm : hasResourceChanged db ResourceType.video w.id w.etag =
        etagMismatch (alookup (ResourceType.video, w.id) db.etagCache) w.etag := by
      rw [hasResourceChanged_eq]; rfl
    rcases hs : persistVideoStep env pm ts (db, n) w with ⟨db2, n2⟩
    have hlen : db2.videos.length = db.videos.length := by
      have h1 := persistVideoStep_videos_length env pm ts db n w
        (fun hc => hcond w (List.mem_cons_self _ _) (by rw [← hmm]; exact hc))
      rw [hs] at h1
      exact h1
    have hrec := ih db2 n2 hnodup.2 ?_
    · rw [hrec, hlen]
    · intro u hu hmis
      have hune : u.id ≠ w.id := by
        intro he
        exact hnodup.1 (he ▸ List.mem_map_of_mem VideoDetails.id hu)
      have hcache : alookup (ResourceType.video, u.id) db2.etagCache =
          alookup (ResourceType.video, u.id) db.etagCache := by
        have h2 := persistVideoStep_etag_other env pm ts (db, n) w
          (ResourceType.video, u.id) (fun he => hune (congrArg Prod.snd he))
        rw [hs] at h2
        exact h2
      rw [hcache] at hmis
      have h3 := persistVideoStep_hasKey_videos env pm ts (db, n) w u.id
        (hcond u (List.mem_cons_of_mem _ hu) hmis)
      rw [hs] at h3
      exact h3

theorem persistVideosAux_videoStats_length (env : RemoteEnv) (pm : List (String × String))
    (ts : DateTime) (videos : List VideoDetails) :
    ∀ (db : DB) (n : Nat),
      (videos.map VideoDetails.id).Nodup →
      (∀ v ∈ videos,
        etagMismatch (alookup (ResourceType.video, v.id) db.etagCache) v.etag = true →
        hasKey db.videoStats v.id = true) →
      ((videos.foldl (persistVideoStep env pm ts) (db, n)).1).videoStats.length =
        db.videoStats.length := by
  induction videos with
  | nil => intro db n _ _; rfl
  | cons w ws ih =>
    intro db n hnodup hcond
    rw [List.map_cons, List.nodup_cons] at hnodup
    rw [List.foldl_cons]
    have hmm : hasResourceChanged db ResourceType.video w.id w.etag =
        etagMismatch (alookup (ResourceType.video, w.id) db.etagCache) w.etag := by
      rw [hasResourceChanged_eq]; rfl
    rcases hs : persistVideoStep env pm ts (db, n) w with ⟨db2, n2⟩
    have hlen : db2.videoStats.length = db.videoStats.length := by
      have h1 := persistVideoStep_videoStats_length env pm ts db n w
        (fun hc => hcond w (List.mem_cons_self _ _) (by rw [← hmm]; exact hc))
      rw [hs] at h1
      exact h1
    have hrec := ih db2 n2 hnodup.2 ?_
    · rw [hrec, hlen]
    · intro u hu hmis
      have hune : u.id ≠ w.id := by
        intro he
        exact hnodup.1 (he ▸ List.mem_map_of_mem VideoDetails.id hu)
      have hcache : alookup (ResourceType.video, u.id) db2.etagCache =
          alookup (ResourceType.video, u.id) db.etagCache := by
        have h2 := persistVideoStep_etag_other env pm ts (db, n) w
          (ResourceType.video, u.id) (fun he => hune (congrArg Prod.snd he))
        rw [hs] at h2
        exact h2
      rw [hcache] at hmis
      have h3 := persistVideoStep_hasKey_videoStats env pm ts (db, n) w u.id
        (hcond u (List.mem_cons_of_mem _ hu) hmis)
      rw [hs] at h3
      exact h3

theorem persistVideosAux_topComments_length (env : RemoteEnv) (pm : List (String × String))
    (ts : DateTime) (videos : List VideoDetails) :
    ∀ (db : DB) (n : Nat),
      (videos.map VideoDetails.id).Nodup →
      (∀ v ∈ videos,
        etagMismatch (alookup (ResourceType.video, v.id) db.etagCache) v.etag = true →
        ∀ c, env.fetchTopCommentByVideo v.id (some v.channelId) = Except.ok (some c) →
          hasKey db.topComments v.id = true) →
      ((videos.foldl (persistVideoStep env pm ts) (db, n)).1).topComments.length =
        db.topComments.length := by
  induction videos with
  | nil => intro db n _ _; rfl
  | cons w ws ih =>
    intro db n hnodup hcond
    rw [List.map_cons, List.nodup_cons] at hnodup
    rw [List.foldl_cons]
    have hmm : hasResourceChanged db ResourceType.video w.id w.etag =
        etagMismatch (alookup (ResourceType.video, w.id) db.etagCache) w.etag := by
      rw [hasResourceChanged_eq]; rfl
    rcases hs : persistVideoStep env pm ts (db, n) w with ⟨db2, n2⟩
    have hlen : db2.topComments.length = db.topComments.length := by
      have h1 := persistVideoStep_topComments_length env pm ts db n w
        (fun hc c hfc => hcond w (List.mem_cons_self _ _) (by rw [← hmm]; exact hc) c hfc)
      rw [hs] at h1
      exact h1
    have hrec := ih db2 n2 hnodup.2 ?_
    · rw [hrec, hlen]
    · intro u hu hmis c hfc
      have hune : u.id ≠ w.id := by
        intro he
        exact hnodup.1 (he ▸ List.mem_map_of_mem VideoDetails.id hu)
      have hcache : alookup (ResourceType.video, u.id) db2.etagCache =
          alookup (ResourceType.video, u.id) db.etagCache := by
        have h2 := persistVideoStep_etag_other env pm ts (db, n) w
          (ResourceType.video, u.id) (fun he => hune (congrArg Prod.snd he))
        rw [hs] at h2
        exact h2
      rw [hcache] at hmis
      have h3 := persistVideoStep_hasKey_topComments env pm ts (db, n) w u.id
        (hcond u (List.mem_cons_of_mem _ hu) hmis c hfc)
      rw [hs] at h3
      exact h3

theorem persistVideosAux_videoDaily_length (env : RemoteEnv) (pm : List (String × String))
    (ts : DateTime) (videos : List VideoDetails) :
    ∀ (db : DB) (n : Nat),
      (∀ v ∈ videos, hasKey db.videoDaily (v.id, ts.utcDate) = true) →
      ((videos.foldl (persistVideoStep env pm ts) (db, n)).1).videoDaily.length =
        db.videoDaily.length := by
  induction videos with
  | nil => intro db n _; rfl
  | cons w ws ih =>
    intro db n hcond
    rw [List.foldl_cons]
    rcases hs : persistVideoStep env pm ts (db, n) w with ⟨db2, n2⟩
    have hlen : db2.videoDaily.length = db.videoDaily.length := by
      have h1 := persistVideoStep_videoDaily_length env pm ts db n w
        (hcond w (List.mem_cons_self _ _))
      rw [hs] at h1
      exact h1
    have hrec := ih db2 n2 ?_
    · rw [hrec, hlen]
    · intro u hu
      have h3 := persistVideoStep_hasKey_videoDaily env pm ts (db, n) w (u.id, ts.utcDate)
        (hcond u (List.mem_cons_of_mem _ hu))
      rw [hs] at h3
      exact h3

/-! ## Claim C3 support: the id universe of a run -/

theorem computeVideoIds_nodup (env : RemoteEnv) (ch : ChannelDetails)
    (mp : List (String × String)) : (computeVideoIds env ch mp).Nodup := by
  unfold computeVideoIds
  rcases ch.uploadsPlaylistId with _ | u
  · exact nodup_addUnique_foldl _ _ List.nodup_nil
  · by_cases hu : u = ""
    · simp only [hu, if_pos rfl]
      exact nodup_addUnique_foldl _ _ List.nodup_nil
    · simp only [if_neg hu]
      exact nodup_addUnique_foldl _ _ (nodup_addUnique_foldl _ _ List.nodup_nil)

theorem mem_computeVideoIds (env : RemoteEnv) (ch : ChannelDetails)
    (mp : List (String × String)) (x : String) :
    x ∈ computeVideoIds env ch mp ↔
      x ∈ mp.map Prod.fst ∨
      ∃ u, ch.uploadsPlaylistId = some u ∧ u ≠ "" ∧
        x ∈ env.fetchPlaylistVideoIds u := by
  rcases hcu : ch.uploadsPlaylistId with _ | u
  · simp only [computeVideoIds, hcu, mem_addUnique_foldl]
    simp
  · by_cases hu : u = ""
    · simp only [computeVideoIds, hcu, if_pos hu, mem_addUnique_foldl]
      simp [hu]
    · simp only [computeVideoIds, hcu, if_neg hu, mem_addUnique_foldl]
      constructor
      · rintro ((h | h) | h)
        · exact absurd h (List.not_mem_nil x)
        · exact Or.inl h
        · exact Or.inr ⟨u, rfl, hu, h⟩
      · rintro (h | ⟨u2, hu2, _, h⟩)
        · exact Or.inl (Or.inr h)
        · rw [← Option.some.inj hu2] at h
          exact Or.inr h

theorem nodup_filterMap_ids (f : String → Option VideoDetails)
    (hf : ∀ i v, f i = some v → v.id = i) (ids : List String) (h : ids.Nodup) :
    ((ids.filterMap f).map VideoDetails.id).Nodup := by
  rw [List.map_filterMap]
  refine h.filterMap ?_
  intro a a2 b hb hb2
  rcases hfa : f a with _ | v
  · rw [hfa] at hb
    simp at hb
  · rcases hfa2 : f a2 with _ | v2
    · rw [hfa2] at hb2
      simp at hb2
    · rw [hfa] at hb
      rw [hfa2] at hb2
      have h1 : some (VideoDetails.id v) = some b := Option.mem_def.mp hb
      have h2 : some (VideoDetails.id v2) = some b := Option.mem_def.mp hb2
      rw [← hf a v hfa, ← hf a2 v2 hfa2, Option.some.inj h1]
      exact (Option.some.inj h2).symm

theorem syncPrefix_videoDaily (env : RemoteEnv) (now : DateTime) (db : DB)
    (ch : ChannelDetails) (dbp : DB) (mp : List (String × String)) (cp : Nat)
    (hps : syncPlaylistPhase env now (syncChannelPhase db ch now)
      (env.fetchPlaylistsByChannel ch.id) = (dbp, mp, cp)) :
    dbp.videoDaily = db.videoDaily := by
  have hpsf : List.foldl (syncPlaylistStep env now)
      (syncChannelPhase db ch now, ([] : List (String × String)), (0 : Nat))
      (env.fetchPlaylistsByChannel ch.id) = (dbp, mp, cp) := hps
  have h := syncPlaylistAux_videoDaily env now (env.fetchPlaylistsByChannel ch.id)
    (syncChannelPhase db ch now, [], 0)
  rw [hpsf] at h
  exact h.trans (syncChannelPhase_videoDaily db ch now)

theorem syncPrefix_channelDaily_nodup (env : RemoteEnv) (now : DateTime) (db : DB)
    (ch : ChannelDetails) (dbp : DB) (mp : List (String × String)) (cp : Nat)
    (hps : syncPlaylistPhase env now (syncChannelPhase db ch now)
      (env.fetchPlaylistsByChannel ch.id) = (dbp, mp, cp))
    (h : (db.channelDaily.map Prod.fst).Nodup) :
    (dbp.channelDaily.map Prod.fst).Nodup := by
  have hframe := syncPrefix_frame env now db ch dbp mp cp hps
  rw [hframe.2.2.1]
  exact syncChannelPhase_nodupKeys_channelDaily db ch now h

/-! ## Claim C3 support: state of the mirror after one successful Refresh -/

/-- After one successful Refresh over db0: a changed channel's rows are
present; an unchanged channel's cache entry is untouched; today's channel
snapshot key exists; a changed playlist's row is present and an unchanged
playlist's cache entry is untouched; and for every fetched video, a changed
video's rows are present (its top-comment row when the fetch returns one),
an unchanged video's cache entry is untouched, and today's video snapshot
key exists. -/
theorem syncChannelData_post (env : RemoteEnv) (f : String → Option VideoDetails)
    (now : DateTime) (chId : String) (db0 db1 : DB) (s1 : SyncStats)
    (ch : ChannelDetails)
    (hch : env.fetchChannelById chId = some ch)
    (hnodupPl : ((env.fetchPlaylistsByChannel ch.id).map PlaylistDetails.id).Nodup)
    (hfe : env.fetchVideosByIds = fun ids => ids.filterMap f)
    (hf : ∀ i v, f i = some v → v.id = i)
    (hrun : syncChannelData env now chId db0 = .ok (db1, s1)) :
    (hasResourceChanged db0 ResourceType.channel ch.id ch.etag = true →
      hasKey db1.channels ch.id = true ∧ hasKey db1.channelStats ch.id = true) ∧
    (hasResourceChanged db0 ResourceType.channel ch.id ch.etag = false →
      alookup (ResourceType.channel, ch.id) db1.etagCache =
        alookup (ResourceType.channel, ch.id) db0.etagCache) ∧
    hasKey db1.channelDaily (ch.id, now.utcDate) = true ∧
    (∀ p ∈ env.fetchPlaylistsByChannel ch.id,
      (etagMismatch (alookup (ResourceType.playlist, p.id) db0.etagCache) p.etag = true →
        hasKey db1.playlists p.id = true) ∧
      (etagMismatch (alookup (ResourceType.playlist, p.id) db0.etagCache) p.etag = false →
        alookup (ResourceType.playlist, p.id) db1.etagCache =
          alookup (ResourceType.playlist, p.id) db0.etagCache)) ∧
    (∀ v ∈ syncFetchedVideos env now chId db0,
      (etagMismatch (alookup (ResourceType.video, v.id) db0.etagCache) v.etag = true →
        hasKey db1.videos v.id = true ∧ hasKey db1.videoStats v.id = true ∧
        (∀ c, env.fetchTopCommentByVideo v.id (some v.channelId) = Except.ok (some c) →
          hasKey db1.topComments v.id = true)) ∧
      (etagMismatch (alookup (ResourceType.video, v.id) db0.etagCache) v.etag = false →
        alookup (ResourceType.video, v.id) db1.etagCache =
          alookup (ResourceType.video, v.id) db0.etagCache) ∧
      hasKey db1.videoDaily (v.id, now.utcDate) = true) := by
  simp only [syncChannelData, hch] at hrun
  rcases hps : syncPlaylistPhase env now (syncChannelPhase db0 ch now)
      (env.fetchPlaylistsByChannel ch.id) with ⟨dbp, mp, cp⟩
  rw [hps] at hrun
  have hpsf : List.foldl (syncPlaylistStep env now)
      (syncChannelPhase db0 ch now, ([] : List (String × String)), (0 : Nat))
      (env.fetchPlaylistsByChannel ch.id) = (dbp, mp, cp) := hps
  have hframe := syncPrefix_frame env now db0 ch dbp mp cp hps
  have hsfv : syncFetchedVideos env now chId db0 =
      (if (computeVideoIds env ch mp).isEmpty then []
       else env.fetchVideosByIds (computeVideoIds env ch mp)) := by
    simp only [syncFetchedVideos, hch]
    rw [hps]
  have hcacheCh : alookup (ResourceType.channel, ch.id) dbp.etagCache =
      alookup (ResourceType.channel, ch.id) (syncChannelPhase db0 ch now).etagCache := by
    have h := syncPlaylistAux_etag_other env now (env.fetchPlaylistsByChannel ch.id)
      (ResourceType.channel, ch.id) (fun p _ => channelKey_ne_playlistKey ch.id p.id)
      (syncChannelPhase db0 ch now, [], 0)
    rw [hpsf] at h
    exact h
  have hplpres : ∀ p ∈ env.fetchPlaylistsByChannel ch.id,
      etagMismatch (alookup (ResourceType.playlist, p.id) db0.etagCache) p.etag = true →
      hasKey dbp.playlists p.id = true := by
    intro p hp hmis
    have hmis2 : etagMismatch (alookup (ResourceType.playlist, p.id)
        (syncChannelPhase db0 ch now).etagCache) p.etag = true := by
      rw [syncChannelPhase_etag_other db0 ch now _ (playlistKey_ne_channelKey p.id ch.id)]
      exact hmis
    have hpres := syncPlaylistAux_changed_presence env now
      (env.fetchPlaylistsByChannel ch.id) (syncChannelPhase db0 ch now) [] 0
      p hp hnodupPl hmis2
    rw [hpsf] at hpres
    exact hpres
  have hplskip : ∀ p ∈ env.fetchPlaylistsByChannel ch.id,
      etagMismatch (alookup (ResourceType.playlist, p.id) db0.etagCache) p.etag = false →
      alookup (ResourceType.playlist, p.id) dbp.etagCache =
        alookup (ResourceType.playlist, p.id) db0.etagCache := by
    intro p hp hmisf
    have hprem : ∀ q ∈ env.fetchPlaylistsByChannel ch.id, q.id = p.id →
        etagMismatch (alookup (ResourceType.playlist, p.id)
          (syncChannelPhase db0 ch now).etagCache) q.etag = false := by
      intro q hq hqid
      have hqp : q = p := List.inj_on_of_nodup_map hnodupPl hq hp hqid
      rw [hqp, syncChannelPhase_etag_other db0 ch now _ (playlistKey_ne_channelKey p.id ch.id)]
      exact hmisf
    have hskip := (syncPlaylistAux_skip env now (env.fetchPlaylistsByChannel ch.id)
      p.id (syncChannelPhase db0 ch now, [], 0) hprem).1
    rw [hpsf] at hskip
    exact hskip.trans (syncChannelPhase_etag_other db0 ch now _
      (playlistKey_ne_channelKey p.id ch.id))
  by_cases hie : (computeVideoIds env ch mp).isEmpty
  · rw [if_pos hie] at hrun
    have hdb1 : db1 = dbp := by
      have h0 := Except.ok.inj hrun
      exact (congrArg Prod.fst h0).symm
    subst hdb1
    refine ⟨?_, ?_, ?_, ?_, ?_⟩
    · intro hc
      have hch1 := syncChannelPhase_changed db0 ch now hc
      exact ⟨by simp [hasKey, hframe.1, hch1.1], by simp [hasKey, hframe.2.1, hch1.2.1]⟩
    · intro hcf
      have hphase := (syncChannelPhase_unchanged db0 ch now hcf).2.2
      exact hcacheCh.trans (congrArg (alookup (ResourceType.channel, ch.id)) hphase)
    · simp [hasKey, hframe.2.2.1, syncChannelPhase_daily db0 ch now]
    · intro p hp
      exact ⟨hplpres p hp, hplskip p hp⟩
    · intro v hv
      rw [hsfv, if_pos hie] at hv
      exact absurd hv (List.not_mem_nil v)
  · rw [if_neg hie] at hrun
    rcases hpv : persistVideos env (env.fetchVideosByIds (computeVideoIds env ch mp))
        mp now dbp with ⟨dbv, nv⟩
    rw [hpv] at hrun
    have hdb1 : db1 = dbv := by
      have h0 := Except.ok.inj hrun
      exact (congrArg Prod.fst h0).symm
    subst hdb1
    rw [persistVideos] at hpv
    have hfold := congrArg Prod.fst hpv
    simp only at hfold
    have hvnodup : ((env.fetchVideosByIds (computeVideoIds env ch mp)).map
        VideoDetails.id).Nodup := by
      rw [hfe]
      exact nodup_filterMap_ids f hf _ (computeVideoIds_nodup env ch mp)
    have hTchannels : db1.channels = (syncChannelPhase db0 ch now).channels := by
      rw [← hfold, persistVideosAux_channels]
      exact hframe.1
    have hTchannelStats : db1.channelStats = (syncChannelPhase db0 ch now).channelStats := by
      rw [← hfold, persistVideosAux_channelStats]
      exact hframe.2.1
    have hTchannelDaily : db1.channelDaily = (syncChannelPhase db0 ch now).channelDaily := by
      rw [← hfold, persistVideosAux_channelDaily]
      exact hframe.2.2.1
    have hTplaylists : db1.playlists = dbp.playlists := by
      rw [← hfold, persistVideosAux_playlists]
    refine ⟨?_, ?_, ?_, ?_, ?_⟩
    · intro hc
      have hch1 := syncChannelPhase_changed db0 ch now hc
      exact ⟨by simp [hasKey, hTchannels, hch1.1], by simp [hasKey, hTchannelStats, hch1.2.1]⟩
    · intro hcf
      have hphase := (syncChannelPhase_unchanged db0 ch now hcf).2.2
      have hTcacheC : alookup (ResourceType.channel, ch.id) db1.etagCache =
          alookup (ResourceType.channel, ch.id) dbp.etagCache := by
        rw [← hfold]
        exact persistVideosAux_etag_other env mp now _ _
          (fun w _ => channelKey_ne_videoKey ch.id w.id) (dbp, 0)
      exact (hTcacheC.trans hcacheCh).trans
        (congrArg (alookup (ResourceType.channel, ch.id)) hphase)
    · simp [hasKey, hTchannelDaily, syncChannelPhase_daily db0 ch now]
    · intro p hp
      have hTcacheP : alookup (ResourceType.playlist, p.id) db1.etagCache =
          alookup (ResourceType.playlist, p.id) dbp.etagCache := by
        rw [← hfold]
        exact persistVideosAux_etag_other env mp now _ _
          (fun w _ => playlistKey_ne_videoKey p.id w.id) (dbp, 0)
      constructor
      · intro hmis
        have h1 := hplpres p hp hmis
        simp only [hasKey, hTplaylists]
        exact h1
      · intro hmisf
        exact hTcacheP.trans (hplskip p hp hmisf)
    · intro v hv
      rw [hsfv, if_neg hie] at hv
      refine ⟨?_, ?_, ?_⟩
      · intro hmis
        have hmis2 : etagMismatch (alookup (ResourceType.video, v.id) dbp.etagCache)
            v.etag = true := by
          rw [syncPrefix_videoCache env now db0 ch dbp mp cp hps v.id]
          exact hmis
        have helem := persistVideosAux_changed_element env mp now
          (env.fetchVideosByIds (computeVideoIds env ch mp)) dbp 0 v hv hvnodup hmis2
        rw [hfold] at helem
        refine ⟨by simp [hasKey, helem.1], by simp [hasKey, helem.2.1], ?_⟩
        intro c hfc
        have htc := helem.2.2.2.1
        rw [hfc] at htc
        simp [hasKey, htc]
      · intro hmisf
        have hprem : ∀ w ∈ env.fetchVideosByIds (computeVideoIds env ch mp), w.id = v.id →
            etagMismatch (alookup (ResourceType.video, v.id) dbp.etagCache)
              w.etag = false := by
          intro w hw hwid
          have hwv : w = v := List.inj_on_of_nodup_map hvnodup hw hv hwid
          rw [hwv, syncPrefix_videoCache env now db0 ch dbp mp cp hps v.id]
          exact hmisf
        have hskip := persistVideosAux_etag_skip env mp now
          (env.fetchVideosByIds (computeVideoIds env ch mp)) v.id (dbp, 0) hprem
        rw [hfold] at hskip
        exact hskip.trans (syncPrefix_videoCache env now db0 ch dbp mp cp hps v.id)
      · by_cases hm2 : etagMismatch (alookup (ResourceType.video, v.id) dbp.etagCache)
            v.etag = true
        · have helem := persistVideosAux_changed_element env mp now
            (env.fetchVideosByIds (computeVideoIds env ch mp)) dbp 0 v hv hvnodup hm2
          rw [hfold] at helem
          simp [hasKey, helem.2.2.1]
        · rw [Bool.not_eq_true] at hm2
          have helem := persistVideosAux_unchanged_element env mp now
            (env.fetchVideosByIds (computeVideoIds env ch mp)) dbp 0 v hv hvnodup hm2
          rw [hfold] at helem
          simp [hasKey, helem.2.2.2]

/-- A successful Refresh keeps the snapshot keys duplicate-free: the channel
and video daily tables are only ever touched through keyed upserts. -/
theorem syncChannelData_nodup_snapshots (env : RemoteEnv) (now : DateTime)
    (chId : String) (db0 db1 : DB) (s1 : SyncStats)
    (hrun : syncChannelData env now chId db0 = .ok (db1, s1))
    (hCD : (db0.channelDaily.map Prod.fst).Nodup)
    (hVD : (db0.videoDaily.map Prod.fst).Nodup) :
    (db1.channelDaily.map Prod.fst).Nodup ∧ (db1.videoDaily.map Prod.fst).Nodup := by
  rcases hch : env.fetchChannelById chId with _ | ch
  · simp only [syncChannelData, hch] at hrun
    exact Except.noConfusion hrun
  · simp only [syncChannelData, hch] at hrun
    rcases hps : syncPlaylistPhase env now (syncChannelPhase db0 ch now)
        (env.fetchPlaylistsByChannel ch.id) with ⟨dbp, mp, cp⟩
    rw [hps] at hrun
    have hCD1 : (dbp.channelDaily.map Prod.fst).Nodup :=
      syncPrefix_channelDaily_nodup env now db0 ch dbp mp cp hps hCD
    have hVD1 : (dbp.videoDaily.map Prod.fst).Nodup := by
      rw [syncPrefix_videoDaily env now db0 ch dbp mp cp hps]
      exact hVD
    by_cases hie : (computeVideoIds env ch mp).isEmpty
    · rw [if_pos hie] at hrun
      have hdb1 : db1 = dbp := by
        have h0 := Except.ok.inj hrun
        exact (congrArg Prod.fst h0).symm
      subst hdb1
      exact ⟨hCD1, hVD1⟩
    · rw [if_neg hie] at hrun
      rcases hpv : persistVideos env (env.fetchVideosByIds (computeVideoIds env ch mp))
          mp now dbp with ⟨dbv, nv⟩
      rw [hpv] at hrun
      have hdb1 : db1 = dbv := by
        have h0 := Except.ok.inj hrun
        exact (congrArg Prod.fst h0).symm
      subst hdb1
      rw [persistVideos] at hpv
      have hfold := congrArg Prod.fst hpv
      simp only at hfold
      constructor
      · rw [← hfold, persistVideosAux_channelDaily]
        exact hCD1
      · rw [← hfold]
        exact persistVideosAux_nodupKeys_videoDaily env mp now _ (dbp, 0) hVD1

/-- On an unchanged upstream, the videos fetched by a second Refresh are a
subset of those fetched by the first: the second run's playlist map only lets
through playlists that were also let through (and hence recorded) by the
first run. -/
theorem syncFetchedVideos_subset (env : RemoteEnv) (f : String → Option VideoDetails)
    (now1 now2 : DateTime) (chId : String) (db0 db1 : DB) (s1 : SyncStats)
    (ch : ChannelDetails)
    (hch : env.fetchChannelById chId = some ch)
    (hnodupPl : ((env.fetchPlaylistsByChannel ch.id).map PlaylistDetails.id).Nodup)
    (hfe : env.fetchVideosByIds = fun ids => ids.filterMap f)
    (hf : ∀ i v, f i = some v → v.id = i)
    (hrun1 : syncChannelData env now1 chId db0 = .ok (db1, s1)) :
    ∀ v ∈ syncFetchedVideos env now2 chId db1, v ∈ syncFetchedVideos env now1 chId db0 := by
  have post := syncChannelData_post env f now1 chId db0 db1 s1 ch hch hnodupPl hfe hf hrun1
  intro v hv
  simp only [syncFetchedVideos, hch] at hv ⊢
  rcases hps2 : syncPlaylistPhase env now2 (syncChannelPhase db1 ch now2)
      (env.fetchPlaylistsByChannel ch.id) with ⟨dbq, mq, cq⟩
  rw [hps2] at hv
  rcases hps1 : syncPlaylistPhase env now1 (syncChannelPhase db0 ch now1)
      (env.fetchPlaylistsByChannel ch.id) with ⟨dbp, mp, cp⟩
  have hpsf2 : List.foldl (syncPlaylistStep env now2)
      (syncChannelPhase db1 ch now2, ([] : List (String × String)), (0 : Nat))
      (env.fetchPlaylistsByChannel ch.id) = (dbq, mq, cq) := hps2
  have hpsf1 : List.foldl (syncPlaylistStep env now1)
      (syncChannelPhase db0 ch now1, ([] : List (String × String)), (0 : Nat))
      (env.fetchPlaylistsByChannel ch.id) = (dbp, mp, cp) := hps1
  by_cases hie2 : (computeVideoIds env ch mq).isEmpty
  · rw [if_pos hie2] at hv
    exact absurd hv (List.not_mem_nil v)
  · rw [if_neg hie2] at hv
    rw [hfe] at hv
    obtain ⟨i, hi, hfi⟩ := List.mem_filterMap.mp hv
    have hkey : i ∈ computeVideoIds env ch mp := by
      rcases (mem_computeVideoIds env ch mq i).mp hi with hk | hup
      · have hsome : (alookup i mq).isSome = true := (alookup_mem_keys i mq).mpr hk
        have hiff := syncPlaylistAux_map_isSome env now2 (env.fetchPlaylistsByChannel ch.id)
          (syncChannelPhase db1 ch now2) [] 0 hnodupPl i
        rw [hpsf2] at hiff
        rcases hiff.mp hsome with h0 | ⟨p, hp, hmis, hin⟩
        · simp [alookup] at h0
        · have hmis1 : etagMismatch (alookup (ResourceType.playlist, p.id) db1.etagCache)
              p.etag = true := by
            rw [← syncChannelPhase_etag_other db1 ch now2 _
              (playlistKey_ne_channelKey p.id ch.id)]
            exact hmis
          have hmis0 : etagMismatch (alookup (ResourceType.playlist, p.id) db0.etagCache)
              p.etag = true := by
            by_cases h0 : etagMismatch (alookup (ResourceType.playlist, p.id) db0.etagCache)
                p.etag = true
            · exact h0
            · rw [Bool.not_eq_true] at h0
              have hpr := (post.2.2.2.1 p hp).2 h0
              rw [hpr, h0] at hmis1
              cases hmis1
          have hiff1 := syncPlaylistAux_map_isSome env now1 (env.fetchPlaylistsByChannel ch.id)
            (syncChannelPhase db0 ch now1) [] 0 hnodupPl i
          rw [hpsf1] at hiff1
          have hmis1a : etagMismatch (alookup (ResourceType.playlist, p.id)
              (syncChannelPhase db0 ch now1).etagCache) p.etag = true := by
            rw [syncChannelPhase_etag_other db0 ch now1 _
              (playlistKey_ne_channelKey p.id ch.id)]
            exact hmis0
          have hsome1 : (alookup i mp).isSome = true :=
            hiff1.mpr (Or.inr ⟨p, hp, hmis1a, hin⟩)
          exact (mem_computeVideoIds env ch mp i).mpr
            (Or.inl ((alookup_mem_keys i mp).mp hsome1))
      · exact (mem_computeVideoIds env ch mp i).mpr (Or.inr hup)
    have hne1 : (computeVideoIds env ch mp).isEmpty = false := by
      rcases hmp : computeVideoIds env ch mp with _ | ⟨a, l⟩
      · rw [hmp] at hkey
        exact absurd hkey (List.not_mem_nil i)
      · rfl
    simp only [hne1, Bool.false_eq_true, if_false]
    rw [hfe]
    exact List.mem_filterMap.mpr ⟨i, hkey, hfi⟩

/-- C3: running Refresh twice in immediate succession (same remote state, a
per-id video endpoint, same UTC date) produces zero additional current-state
rows — the channels, channel-statistics, playlists, videos, video-statistics
and top-comment tables all keep their first-run sizes — and the snapshot
tables also keep their sizes while their (entity, UTC date) keys stay
duplicate-free: the second run's snapshot upserts overwrite that day's rows
rather than inserting duplicates. -/
theorem c3_refresh_idempotent (env : RemoteEnv) (f : String → Option VideoDetails)
    (now1 now2 : DateTime) (chId : String) (db0 db1 db2 : DB) (s1 s2 : SyncStats)
    (ch : ChannelDetails)
    (hch : env.fetchChannelById chId = some ch)
    (hdate : now1.utcDate = now2.utcDate)
    (hnodupPl : ((env.fetchPlaylistsByChannel ch.id).map PlaylistDetails.id).Nodup)
    (hfe : env.fetchVideosByIds = fun ids => ids.filterMap f)
    (hf : ∀ i v, f i = some v → v.id = i)
    (hCD : (db0.channelDaily.map Prod.fst).Nodup)
    (hVD : (db0.videoDaily.map Prod.fst).Nodup)
    (hrun1 : syncChannelData env now1 chId db0 = .ok (db1, s1))
    (hrun2 : syncChannelData env now2 chId db1 = .ok (db2, s2)) :
    db2.channels.length = db1.channels.length ∧
    db2.channelStats.length = db1.channelStats.length ∧
    db2.playlists.length = db1.playlists.length ∧
    db2.videos.length = db1.videos.length ∧
    db2.videoStats.length = db1.videoStats.length ∧
    db2.topComments.length = db1.topComments.length ∧
    db2.channelDaily.length = db1.channelDaily.length ∧
    db2.videoDaily.length = db1.videoDaily.length ∧
    (db2.channelDaily.map Prod.fst).Nodup ∧
    (db2.videoDaily.map Prod.fst).Nodup := by
  have post := syncChannelData_post env f now1 chId db0 db1 s1 ch hch hnodupPl hfe hf hrun1
  have hsub := syncFetchedVideos_subset env f now1 now2 chId db0 db1 s1 ch hch
    hnodupPl hfe hf hrun1
  have hnd1 := syncChannelData_nodup_snapshots env now1 chId db0 db1 s1 hrun1 hCD hVD
  have hnd2 := syncChannelData_nodup_snapshots env now2 chId db1 db2 s2 hrun2 hnd1.1 hnd1.2
  have hpres2 : hasResourceChanged db1 ResourceType.channel ch.id ch.etag = true →
      hasKey db1.channels ch.id = true ∧ hasKey db1.channelStats ch.id = true := by
    intro hc2
    by_cases hc0 : hasResourceChanged db0 ResourceType.channel ch.id ch.etag = true
    · exact post.1 hc0
    · rw [Bool.not_eq_true] at hc0
      have hpr := post.2.1 hc0
      rw [hasResourceChanged_eq] at hc2 hc0
      have hc2a : etagMismatch (alookup (ResourceType.channel, ch.id) db1.etagCache)
          ch.etag = true := hc2
      have hc0a : etagMismatch (alookup (ResourceType.channel, ch.id) db0.etagCache)
          ch.etag = false := hc0
      rw [hpr, hc0a] at hc2a
      cases hc2a
  have hdaily2 : hasKey db1.channelDaily (ch.id, now2.utcDate) = true := by
    rw [← hdate]
    exact post.2.2.1
  have hphase2len := syncChannelPhase_lengths db1 ch now2 hpres2 hdaily2
  simp only [syncChannelData, hch] at hrun2
  rcases hps2 : syncPlaylistPhase env now2 (syncChannelPhase db1 ch now2)
      (env.fetchPlaylistsByChannel ch.id) with ⟨dbq, mq, cq⟩
  rw [hps2] at hrun2
  have hpsf2 : List.foldl (syncPlaylistStep env now2)
      (syncChannelPhase db1 ch now2, ([] : List (String × String)), (0 : Nat))
      (env.fetchPlaylistsByChannel ch.id) = (dbq, mq, cq) := hps2
  have hframe2 := syncPrefix_frame env now2 db1 ch dbq mq cq hps2
  have hpllen : dbq.playlists.length = db1.playlists.length := by
    have h := syncPlaylistAux_playlists_length env now2 (env.fetchPlaylistsByChannel ch.id)
      (syncChannelPhase db1 ch now2) [] 0 hnodupPl ?_
    · rw [hpsf2] at h
      have h2 : dbq.playlists.length =
          (syncChannelPhase db1 ch now2).playlists.length := h
      rw [h2, syncChannelPhase_playlists]
    · intro p hp hmis
      have hmis1 : etagMismatch (alookup (ResourceType.playlist, p.id) db1.etagCache)
          p.etag = true := by
        rw [← syncChannelPhase_etag_other db1 ch now2 _
          (playlistKey_ne_channelKey p.id ch.id)]
        exact hmis
      have hmis0 : etagMismatch (alookup (ResourceType.playlist, p.id) db0.etagCache)
          p.etag = true := by
        by_cases h0 : etagMismatch (alookup (ResourceType.playlist, p.id) db0.etagCache)
            p.etag = true
        · exact h0
        · rw [Bool.not_eq_true] at h0
          have hpr := (post.2.2.2.1 p hp).2 h0
          rw [hpr, h0] at hmis1
          cases hmis1
      have hk := (post.2.2.2.1 p hp).1 hmis0
      simp only [hasKey, syncChannelPhase_playlists]
      exact hk
  by_cases hie2 : (computeVideoIds env ch mq).isEmpty
  · rw [if_pos hie2] at hrun2
    have hdb2 : db2 = dbq := by
      have h0 := Except.ok.inj hrun2
      exact (congrArg Prod.fst h0).symm
    subst hdb2
    refine ⟨(congrArg List.length hframe2.1).trans hphase2len.1,
      (congrArg List.length hframe2.2.1).trans hphase2len.2.1,
      hpllen,
      congrArg List.length hframe2.2.2.2.1,
      congrArg List.length hframe2.2.2.2.2.1,
      congrArg List.length hframe2.2.2.2.2.2,
      (congrArg List.length hframe2.2.2.1).trans hphase2len.2.2,
      congrArg List.length (syncPrefix_videoDaily env now2 db1 ch _ mq cq hps2),
      hnd2.1, hnd2.2⟩
  · rw [if_neg hie2] at hrun2
    rcases hpv2 : persistVideos env (env.fetchVideosByIds (computeVideoIds env ch mq))
        mq now2 dbq with ⟨dbv2, nv2⟩
    rw [hpv2] at hrun2
    have hdb2 : db2 = dbv2 := by
      have h0 := Except.ok.inj hrun2
      exact (congrArg Prod.fst h0).symm
    subst hdb2
    rw [persistVideos] at hpv2
    have hfold2 := congrArg Prod.fst hpv2
    simp only at hfold2
    have hsfv2 : syncFetchedVideos env now2 chId db1 =
        (if (computeVideoIds env ch mq).isEmpty then []
         else env.fetchVideosByIds (computeVideoIds env ch mq)) := by
      simp only [syncFetchedVideos, hch]
      rw [hps2]
    have hmemv : ∀ v ∈ env.fetchVideosByIds (computeVideoIds env ch mq),
        v ∈ syncFetchedVideos env now1 chId db0 := by
      intro v hv
      refine hsub v ?_
      rw [hsfv2, if_neg hie2]
      exact hv
    have hvnodup2 : ((env.fetchVideosByIds (computeVideoIds env ch mq)).map
        VideoDetails.id).Nodup := by
      rw [hfe]
      exact nodup_filterMap_ids f hf _ (computeVideoIds_nodup env ch mq)
    have hvc : ∀ x, alookup (ResourceType.video, x) dbq.etagCache =
        alookup (ResourceType.video, x) db1.etagCache :=
      fun x => syncPrefix_videoCache env now2 db1 ch dbq mq cq hps2 x
    have hkv : ∀ v ∈ env.fetchVideosByIds (computeVideoIds env ch mq),
        etagMismatch (alookup (ResourceType.video, v.id) dbq.etagCache) v.etag = true →
        hasKey db1.videos v.id = true ∧ hasKey db1.videoStats v.id = true ∧
        (∀ c, env.fetchTopCommentByVideo v.id (some v.channelId) = Except.ok (some c) →
          hasKey db1.topComments v.id = true) := by
      intro v hv hmis
      have hmis1 : etagMismatch (alookup (ResourceType.video, v.id) db1.etagCache)
          v.etag = true := by
        rw [← hvc v.id]
        exact hmis
      have hpost := post.2.2.2.2 v (hmemv v hv)
      by_cases h0 : etagMismatch (alookup (ResourceType.video, v.id) db0.etagCache)
          v.etag = true
      · exact hpost.1 h0
      · rw [Bool.not_eq_true] at h0
        have hpr := hpost.2.1 h0
        rw [hpr, h0] at hmis1
        cases hmis1
    have hlenv : ((env.fetchVideosByIds (computeVideoIds env ch mq)).foldl
        (persistVideoStep env mq now2) (dbq, 0)).1.videos.length = dbq.videos.length := by
      refine persistVideosAux_videos_length env mq now2 _ dbq 0 hvnodup2 ?_
      intro v hv hmis
      have hk := (hkv v hv hmis).1
      simp only [hasKey, hframe2.2.2.2.1]
      exact hk
    have hlenvs : ((env.fetchVideosByIds (computeVideoIds env ch mq)).foldl
        (persistVideoStep env mq now2) (dbq, 0)).1.videoStats.length =
        dbq.videoStats.length := by
      refine persistVideosAux_videoStats_length env mq now2 _ dbq 0 hvnodup2 ?_
      intro v hv hmis
      have hk := (hkv v hv hmis).2.1
      simp only [hasKey, hframe2.2.2.2.2.1]
      exact hk
    have hlentc : ((env.fetchVideosByIds (computeVideoIds env ch mq)).foldl
        (persistVideoStep env mq now2) (dbq, 0)).1.topComments.length =
        dbq.topComments.length := by
      refine persistVideosAux_topComments_length env mq now2 _ dbq 0 hvnodup2 ?_
      intro v hv hmis c hfc
      have hk := (hkv v hv hmis).2.2 c hfc
      simp only [hasKey, hframe2.2.2.2.2.2]
      exact hk
    have hqvd : dbq.videoDaily = db1.videoDaily :=
      syncPrefix_videoDaily env now2 db1 ch dbq mq cq hps2
    have hlenvd : ((env.fetchVideosByIds (computeVideoIds env ch mq)).foldl
        (persistVideoStep env mq now2) (dbq, 0)).1.videoDaily.length =
        dbq.videoDaily.length := by
      refine persistVideosAux_videoDaily_length env mq now2 _ dbq 0 ?_
      intro v hv
      have hk := (post.2.2.2.2 v (hmemv v hv)).2.2
      rw [hdate] at hk
      simp only [hasKey, hqvd]
      exact hk
    rw [hfold2] at hlenv hlenvs hlentc hlenvd
    have hTchannels : db2.channels = dbq.channels := by
      rw [← hfold2, persistVideosAux_channels]
    have hTchannelStats : db2.channelStats = dbq.channelStats := by
      rw [← hfold2, persistVideosAux_channelStats]
    have hTchannelDaily : db2.channelDaily = dbq.channelDaily := by
      rw [← hfold2, persistVideosAux_channelDaily]
    have hTplaylists : db2.playlists = dbq.playlists := by
      rw [← hfold2, persistVideosAux_playlists]
    refine ⟨?_, ?_, ?_, ?_, ?_, ?_, ?_, ?_, hnd2.1, hnd2.2⟩
    · rw [hTchannels]
      exact (congrArg List.length hframe2.1).trans hphase2len.1
    · rw [hTchannelStats]
      exact (congrArg List.length hframe2.2.1).trans hphase2len.2.1
    · rw [hTplaylists]
      exact hpllen
    · exact hlenv.trans (congrArg List.length hframe2.2.2.2.1)
    · exact hlenvs.trans (congrArg List.length hframe2.2.2.2.2.1)
    · exact hlentc.trans (congrArg List.length hframe2.2.2.2.2.2)
    · rw [hTchannelDaily]
      exact (congrArg List.length hframe2.2.2.1).trans hphase2len.2.2
    · exact hlenvd.trans (congrArg List.length hqvd)

def c3s1 : SyncStats := match c2run1 with
  | .ok p => p.2
  | .error _ => { channelId := "", playlistsProcessed := 0
                  videosProcessed := 0, customUrl := none }

theorem c3_witness :
    c2db2.videos.length = c2db0.videos.length ∧
    c2db2.videoDaily.length = c2db0.videoDaily.length ∧
    (c2db2.videoDaily.map Prod.fst).Nodup := by
  have hf : ∀ i v, (fun j => if j = "v1" then some vW else none) i = some v →
      v.id = i := by
    intro i v h
    have h2 : (if i = "v1" then some vW else none) = some v := h
    by_cases hi : i = "v1"
    · rw [if_pos hi] at h2
      rw [← Option.some.inj h2, hi]
      rfl
    · rw [if_neg hi] at h2
      exact absurd h2 (by simp)
  have h := c3_refresh_idempotent envW (fun j => if j = "v1" then some vW else none)
    nowW nowW "ch" emptyDB c2db0 c2db2 c3s1 c2stats2 chW
    (by rfl) rfl (by decide) (by rfl) hf (by decide) (by decide) (by rfl) (by rfl)
  exact ⟨h.2.2.2.1, h.2.2.2.2.2.2.2.1, h.2.2.2.2.2.2.2.2.2⟩

end YTSync
